import Mathlib

/-!
# Foreign-function stub generators for PPC64 (HotSpot)

A shallow embedding of

* `src/hotspot/cpu/ppc/downcallLinker_ppc.cpp` (`DowncallStubGenerator::generate`),
* `src/hotspot/cpu/ppc/upcallLinker_ppc.cpp` (`compute_reg_save_area_size`,
  `preserve_callee_saved_registers`, `restore_callee_saved_registers`, the frame
  layout of `UpcallLinker::make_upcall_stub`),
* `src/hotspot/cpu/ppc/foreignGlobals_ppc.cpp` (`ABIDescriptor::is_volatile_reg`,
  `RegSpiller::pd_*`, `ArgumentShuffle::pd_generate`).

The generators are modelled as functions that return the sequence of assembler calls
they make (`List Instr`), in emission order.  Calls of macro-assembler routines whose
bodies are not part of these three files (`push_frame`, `int_move`, `safepoint_poll`, ...)
appear as single items carrying the arguments of the call.  `block_comment` and `flush`
produce no code and are left out.  C++ `int` values are modelled by `Int`; signed
overflow is undefined behaviour in C++, so the model describes the runs without it.
Register contents are natural numbers below `2 ^ 64`.
-/

namespace Ppc

/-! ## Registers and locations -/

/-- A general purpose register, identified by its encoding (`as_Register(i)`). -/
structure Register where
  encoding : Nat
deriving DecidableEq, Repr

/-- A floating point register, identified by its encoding (`as_FloatRegister(i)`). -/
structure FloatRegister where
  encoding : Nat
deriving DecidableEq, Repr

def as_Register (i : Nat) : Register := ⟨i⟩
def as_FloatRegister (i : Nat) : FloatRegister := ⟨i⟩

def R0 : Register := ⟨0⟩
def R1_SP : Register := ⟨1⟩
def R3_RET : Register := ⟨3⟩
def R3_ARG1 : Register := ⟨3⟩
def R11_scratch1 : Register := ⟨11⟩
def R12_scratch2 : Register := ⟨12⟩
def R13 : Register := ⟨13⟩
def R16_thread : Register := ⟨16⟩
def F1 : FloatRegister := ⟨1⟩
def F1_RET : FloatRegister := ⟨1⟩

/-- The condition register fields; the generators only use `CCR0`. -/
inductive ConditionRegister
  | CCR0
  | CCR1
deriving DecidableEq, Repr

/-- A `VMReg`: a general purpose register, a float register, a stack slot, or the
invalid location `VMRegImpl::Bad()`. -/
inductive VMReg
  | gpr (r : Register)
  | fpr (f : FloatRegister)
  | stack (slot : Nat)
  | bad
deriving DecidableEq, Repr

def VMReg.is_Register : VMReg → Bool
  | .gpr _ => true
  | _ => false

def VMReg.is_FloatRegister : VMReg → Bool
  | .fpr _ => true
  | _ => false

def Register.as_VMReg (r : Register) : VMReg := .gpr r
def FloatRegister.as_VMReg (f : FloatRegister) : VMReg := .fpr f

/-- A `VMRegPair` (first and second half of a location). -/
structure VMRegPair where
  first : VMReg
  second : VMReg
deriving DecidableEq, Repr

/-- The `BasicType` enumeration. -/
inductive BasicType
  | T_BOOLEAN
  | T_CHAR
  | T_FLOAT
  | T_DOUBLE
  | T_BYTE
  | T_SHORT
  | T_INT
  | T_LONG
  | T_OBJECT
  | T_ARRAY
  | T_VOID
  | T_ADDRESS
  | T_NARROWOOP
  | T_METADATA
  | T_NARROWKLASS
  | T_CONFLICT
  | T_ILLEGAL
deriving DecidableEq, Repr

/-- One planned move of the argument shuffle (`Move` with fields `bt`, `from`, `to`). -/
structure Move where
  bt : BasicType
  src : VMRegPair
  dst : VMRegPair
deriving DecidableEq, Repr

/-! ## The emitted code -/

/-- The thread states written by the downcall stub. -/
inductive JavaThreadState
  | _thread_in_native
  | _thread_in_native_trans
  | _thread_in_Java
deriving DecidableEq, Repr

/-- Immediate operands, kept symbolic as in the source text. -/
inductive Imm
  | thread_state (s : JavaThreadState)
  | stack_guard_yellow_reserved_disabled
  | int (n : Int)
deriving DecidableEq, Repr

/-- Fields of `JavaThread` addressed relative to `R16_thread`. -/
inductive ThreadField
  | thread_state_offset
  | suspend_flags_offset
  | stack_guard_state_offset
deriving DecidableEq, Repr

/-- The branch labels declared in `DowncallStubGenerator::generate`. -/
inductive Label
  | L_after_safepoint_poll
  | L_safepoint_poll_slow_path
  | L_reguard
  | L_after_reguard
deriving DecidableEq, Repr

/-- Runtime entry points called from the stubs. -/
inductive RuntimeEntry
  | check_special_condition_for_native_trans
  | reguard_yellow_pages
deriving DecidableEq, Repr

/-- The places marked with `untested(...)`. -/
inductive UntestedSite
  | downcall_trans
  | downcall_reguard
deriving DecidableEq, Repr

/-- One assembler call made by a generator.  `bind` marks the position of a label. -/
inductive Instr
  | save_LR_CR (tmp : Register)
  | push_frame (bytes : Int) (tmp : Register)
  | calculate_address_from_global_toc (dst : Register)
  | set_last_Java_frame (sp tmp : Register)
  | li (d : Register) (imm : Imm)
  | release
  | fence
  | lwsync
  | stw (s : Register) (field : ThreadField) (base : Register)
  | lwz (d : Register) (field : ThreadField) (base : Register)
  | cmpwi (cr : ConditionRegister) (a : Register) (imm : Imm)
  | bne (cr : ConditionRegister) (target : Label)
  | beq (cr : ConditionRegister) (target : Label)
  | b (target : Label)
  | bind (l : Label)
  | mtctr (r : Register)
  | bctrl
  | neg (d s : Register)
  | orr (d s1 s2 : Register)
  | srwi (d s : Register) (n : Nat)
  | clrldi (d s : Register) (n : Nat)
  | extsb (d s : Register)
  | extsh (d s : Register)
  | extsw (d s : Register)
  | safepoint_poll (slow : Label) (tmp : Register) (at_return in_nmethod : Bool)
  | reset_last_Java_frame
  | pop_frame
  | restore_LR_CR (tmp : Register)
  | blr
  | std (s : Register) (offset : Int) (base : Register)
  | stfd (s : FloatRegister) (offset : Int) (base : Register)
  | ld (d : Register) (offset : Int) (base : Register)
  | lfd (d : FloatRegister) (offset : Int) (base : Register)
  | int_move (src dst : VMRegPair) (callerSP r_temp : Register) (in_stk_bias out_stk_bias : Int)
  | float_move (src dst : VMRegPair) (callerSP r_temp : Register) (in_stk_bias out_stk_bias : Int)
  | double_move (src dst : VMRegPair) (callerSP r_temp : Register) (in_stk_bias out_stk_bias : Int)
  | long_move (src dst : VMRegPair) (callerSP r_temp : Register) (in_stk_bias out_stk_bias : Int)
  | untested (site : UntestedSite)
  | call_VM_leaf (entry : RuntimeEntry) (args : List Register)
deriving DecidableEq, Repr

/-- The fatal errors a generator can end in. -/
inductive Fatal
  | ShouldNotReachHere
  | fatal_found_in_upcall_args (bt : BasicType)
deriving DecidableEq, Repr

/-! ## Register and memory state, and the meaning of the data instructions -/

/-- The width of a register in bits, as a modulus. -/
def WORD64 : Nat := 2 ^ 64

/-- Registers and byte-addressed memory.  Register contents and addresses are taken
modulo `2 ^ 64`, memory cells modulo `2 ^ 8`. -/
structure Machine where
  gpr : Register → Nat
  fpr : FloatRegister → Nat
  mem : Nat → Nat

def Machine.setGpr (m : Machine) (r : Register) (v : Nat) : Machine :=
  { m with gpr := fun x => if x = r then v else m.gpr x }

def Machine.setFpr (m : Machine) (f : FloatRegister) (v : Nat) : Machine :=
  { m with fpr := fun x => if x = f then v else m.fpr x }

/-- Two's complement negation of a 64-bit register value (`neg`). -/
def neg64 (v : Nat) : Nat := (WORD64 - v % WORD64) % WORD64

/-- Bitwise or of two 64-bit register values (`or`). -/
def or64 (a b : Nat) : Nat := (a ||| b) % WORD64

/-- The extended mnemonic `srwi ra,rs,n` is `rlwinm ra,rs,32-n,n,31`: the low word of
`rs` shifted right by `n`, the high word of the result cleared. -/
def srwi32 (v n : Nat) : Nat := (v % 2 ^ 32) / 2 ^ n

/-- The extended mnemonic `clrldi ra,rs,n` is `rldicl ra,rs,0,n`: the `n` high bits
cleared. -/
def clrldi64 (v n : Nat) : Nat := (v % WORD64) % 2 ^ (64 - n)

/-- The instruction family `extsb`/`extsh`/`extsw`: bit `w - 1` of the source is copied
into all higher bits of the 64-bit result. -/
def exts64 (w v : Nat) : Nat :=
  if (v % 2 ^ w) / 2 ^ (w - 1) = 1 then v % 2 ^ w + (WORD64 - 2 ^ w) else v % 2 ^ w

/-- The effective address `base + offset` of a D-form access, modulo `2 ^ 64`. -/
def effAddr (m : Machine) (base : Register) (offset : Int) : Nat :=
  (((m.gpr base : Int) + offset) % (WORD64 : Int)).toNat

/-- Byte `i` (0 is the most significant) of a doubleword. -/
def byteOf (v i : Nat) : Nat := (v / 2 ^ (8 * (7 - i))) % 256

/-- Store the doubleword `v` big-endian into the eight bytes starting at `a`. -/
def storeDword (mem : Nat → Nat) (a v : Nat) : Nat → Nat :=
  fun x =>
    if x = a % WORD64 then byteOf v 0
    else if x = (a + 1) % WORD64 then byteOf v 1
    else if x = (a + 2) % WORD64 then byteOf v 2
    else if x = (a + 3) % WORD64 then byteOf v 3
    else if x = (a + 4) % WORD64 then byteOf v 4
    else if x = (a + 5) % WORD64 then byteOf v 5
    else if x = (a + 6) % WORD64 then byteOf v 6
    else if x = (a + 7) % WORD64 then byteOf v 7
    else mem x

/-- Load the doubleword stored big-endian in the eight bytes starting at `a`. -/
def loadDword (mem : Nat → Nat) (a : Nat) : Nat :=
  (mem (a % WORD64) % 256) * 2 ^ 56 + (mem ((a + 1) % WORD64) % 256) * 2 ^ 48 +
  (mem ((a + 2) % WORD64) % 256) * 2 ^ 40 + (mem ((a + 3) % WORD64) % 256) * 2 ^ 32 +
  (mem ((a + 4) % WORD64) % 256) * 2 ^ 24 + (mem ((a + 5) % WORD64) % 256) * 2 ^ 16 +
  (mem ((a + 6) % WORD64) % 256) * 2 ^ 8 + mem ((a + 7) % WORD64) % 256

/-- The effect of one data instruction on registers and memory.  Items that are calls of
macro-assembler routines, branches, barriers and label bindings have no entry here. -/
def Instr.exec (m : Machine) : Instr → Option Machine
  | .neg d s => some (m.setGpr d (neg64 (m.gpr s)))
  | .orr d s1 s2 => some (m.setGpr d (or64 (m.gpr s1) (m.gpr s2)))
  | .srwi d s n => some (m.setGpr d (srwi32 (m.gpr s) n))
  | .clrldi d s n => some (m.setGpr d (clrldi64 (m.gpr s) n))
  | .extsb d s => some (m.setGpr d (exts64 8 (m.gpr s)))
  | .extsh d s => some (m.setGpr d (exts64 16 (m.gpr s)))
  | .extsw d s => some (m.setGpr d (exts64 32 (m.gpr s)))
  | .std s off base => some { m with mem := storeDword m.mem (effAddr m base off) (m.gpr s) }
  | .stfd s off base => some { m with mem := storeDword m.mem (effAddr m base off) (m.fpr s) }
  | .ld d off base => some (m.setGpr d (loadDword m.mem (effAddr m base off)))
  | .lfd d off base => some (m.setFpr d (loadDword m.mem (effAddr m base off)))
  | _ => none

/-- Run a straight-line sequence of data instructions. -/
def execAll : List Instr → Machine → Option Machine
  | [], m => some m
  | i :: rest, m =>
    match i.exec m with
    | some m1 => execAll rest m1
    | none => none

/-- The value of a 64-bit register read as a two's complement number. -/
def toSigned64 (v : Nat) : Int :=
  if v % WORD64 < 2 ^ 63 then ((v % WORD64 : Nat) : Int) else ((v % WORD64 : Nat) : Int) - 2 ^ 64

/-- The low `w` bits of `v` read as a two's complement number of width `w`: the value a
sign extension has to preserve. -/
def signedLow (w v : Nat) : Int :=
  if v % 2 ^ w < 2 ^ (w - 1) then ((v % 2 ^ w : Nat) : Int) else ((v % 2 ^ w : Nat) : Int) - 2 ^ w

/-! ## `DowncallStubGenerator::generate`: unpacking the native result -/

/-- The `switch (_ret_bt)` of `DowncallStubGenerator::generate` (taken when no return
buffer is used), with `tmp = R11_scratch1`. -/
def unpack_native_result (ret_bt : BasicType) : Except Fatal (List Instr) :=
  match ret_bt with
  | .T_BOOLEAN =>
    .ok [.neg R11_scratch1 R3_RET, .orr R11_scratch1 R3_RET R11_scratch1,
         .srwi R3_RET R11_scratch1 31]
  | .T_CHAR => .ok [.clrldi R3_RET R3_RET 48]
  | .T_BYTE => .ok [.extsb R3_RET R3_RET]
  | .T_SHORT => .ok [.extsh R3_RET R3_RET]
  | .T_INT => .ok [.extsw R3_RET R3_RET]
  | .T_DOUBLE => .ok []
  | .T_FLOAT => .ok []
  | .T_VOID => .ok []
  | .T_LONG => .ok []
  | _ => .error .ShouldNotReachHere

/-- Run the result-unpacking code of a downcall stub on a machine state. -/
def run_unpack (ret_bt : BasicType) (m : Machine) : Option Machine :=
  match unpack_native_result ret_bt with
  | .ok code => execAll code m
  | .error _ => none

/-- The content of `R3_RET` after the result-unpacking code has run. -/
def unpacked_R3 (ret_bt : BasicType) (m : Machine) : Option Nat :=
  (run_unpack ret_bt m).map (fun m1 => m1.gpr R3_RET)

/-- A machine state in which `R3_RET` holds `v` and everything else is zero. -/
def machineWithR3 (v : Nat) : Machine :=
  { gpr := fun r => if r = R3_RET then v else 0, fpr := fun _ => 0, mem := fun _ => 0 }

/-! ## Constants of the platform that the three files use but do not define -/

/-- Constants from `frame_ppc.hpp`, `globalDefinitions_ppc.hpp`, `register_ppc.hpp`,
`vmreg.hpp`, `sharedRuntime.hpp` and `upcallLinker.hpp`. -/
structure Platform where
  /-- The constant `frame::abi_reg_args_size`. -/
  abi_reg_args_size : Int
  /-- The constant `frame::alignment_in_bytes`. -/
  alignment_in_bytes : Int
  /-- The constant `frame::jit_out_preserve_size`. -/
  jit_out_preserve_size : Int
  /-- The constant `StackAlignmentInBytes`. -/
  StackAlignmentInBytes : Int
  /-- The value of `SharedRuntime::out_preserve_stack_slots()`, an unsigned number. -/
  out_preserve_stack_slots : Nat
  /-- The constant `VMRegImpl::stack_slot_size`. -/
  stack_slot_size : Nat
  /-- The value of `sizeof(UpcallStub::FrameData)`. -/
  sizeof_FrameData : Nat
  /-- The constant `RegisterImpl::number_of_registers`. -/
  number_of_registers : Nat
  /-- The constant `FloatRegisterImpl::number_of_registers`. -/
  float_number_of_registers : Nat

/-- A sample platform for concrete evaluations: 16-byte stack alignment and 32 registers
of each kind as on PPC64, and plausible values for the remaining constants. -/
def samplePlatform : Platform :=
  { abi_reg_args_size := 96
    alignment_in_bytes := 16
    jit_out_preserve_size := 32
    StackAlignmentInBytes := 16
    out_preserve_stack_slots := 8
    stack_slot_size := 4
    sizeof_FrameData := 48
    number_of_registers := 32
    float_number_of_registers := 32 }

def LogBytesPerInt : Nat := 2
def LogBytesPerWord : Nat := 3

/-- Modelled from the spec: `align_up` (`utilities/align.hpp`) is not part of the three
files; the spec says the frame size "is rounded up to" the alignment, that is, to the
least multiple of `alignment` that is not below `size`. -/
def align_up (size alignment : Int) : Int :=
  (size + alignment - 1) / alignment * alignment

def MAX2 (a b : Int) : Int := if a > b then a else b

/-! ## `foreignGlobals_ppc.cpp` -/

/-- The fields of `ABIDescriptor` filled in by `ForeignGlobals::parse_abi_descriptor`. -/
structure ABIDescriptor where
  _integer_argument_registers : List Register
  _integer_return_registers : List Register
  _integer_additional_volatile_registers : List Register
  _float_argument_registers : List FloatRegister
  _float_return_registers : List FloatRegister
  _float_additional_volatile_registers : List FloatRegister
  _stack_alignment_bytes : Int
  _shadow_space_bytes : Int
  _target_addr_reg : Register
  _ret_buf_addr_reg : Register

/-- The overload `ABIDescriptor::is_volatile_reg(Register)`. -/
def ABIDescriptor.is_volatile_reg (abi : ABIDescriptor) (reg : Register) : Bool :=
  abi._integer_argument_registers.contains reg
    || abi._integer_additional_volatile_registers.contains reg

/-- The overload `ABIDescriptor::is_volatile_reg(FloatRegister)`. -/
def ABIDescriptor.is_volatile_freg (abi : ABIDescriptor) (reg : FloatRegister) : Bool :=
  abi._float_argument_registers.contains reg
    || abi._float_additional_volatile_registers.contains reg

def RegSpiller.pd_reg_size (_reg : VMReg) : Int := 8

/-- The function `RegSpiller::pd_store_reg`; the last case is "stack and BAD". -/
def RegSpiller.pd_store_reg (offset : Int) (reg : VMReg) : List Instr :=
  match reg with
  | .gpr r => [.std r offset R1_SP]
  | .fpr f => [.stfd f offset R1_SP]
  | _ => []

/-- The function `RegSpiller::pd_load_reg`; the last case is "stack and BAD". -/
def RegSpiller.pd_load_reg (offset : Int) (reg : VMReg) : List Instr :=
  match reg with
  | .gpr r => [.ld r offset R1_SP]
  | .fpr f => [.lfd f offset R1_SP]
  | _ => []

/-- Modelled from the spec: `RegSpiller::spill_size_bytes` is shared code outside the
three files; the spec says it is the "total byte footprint (fixed per-register width for
the architecture)" of the register list. -/
def RegSpiller.spill_size_bytes (regs : List VMReg) : Int :=
  (regs.map RegSpiller.pd_reg_size).sum

/-- Modelled from the spec: `RegSpiller::generate_spill` and `generate_fill` are shared
code outside the three files; the spec says spill-all is "store each register to
ascending offsets from the given base" and fill-all is "load back in the same order".
Every list entry takes `pd_reg_size` bytes, so that the footprint is the one of
`spill_size_bytes`. -/
def RegSpiller.generate (regs : List VMReg) (offset : Int) (spill : Bool) : List Instr :=
  match regs with
  | [] => []
  | reg :: rest =>
    (if spill then RegSpiller.pd_store_reg offset reg else RegSpiller.pd_load_reg offset reg)
      ++ RegSpiller.generate rest (offset + RegSpiller.pd_reg_size reg) spill

def RegSpiller.generate_spill (regs : List VMReg) (offset : Int) : List Instr :=
  RegSpiller.generate regs offset true

def RegSpiller.generate_fill (regs : List VMReg) (offset : Int) : List Instr :=
  RegSpiller.generate regs offset false

/-- What a generator has emitted, and the fatal error that stopped it, if any. -/
structure Emitted where
  code : List Instr
  error : Option Fatal
deriving DecidableEq, Repr

/-- The body of the loop of `ArgumentShuffle::pd_generate` for one move: the
`switch (arg_bt)`. -/
def ArgumentShuffle.pd_generate_move (move : Move) (callerSP : Register)
    (in_stk_bias out_stk_bias : Int) : Except Fatal Instr :=
  match move.bt with
  | .T_BOOLEAN => .ok (.int_move move.src move.dst callerSP R0 in_stk_bias out_stk_bias)
  | .T_BYTE => .ok (.int_move move.src move.dst callerSP R0 in_stk_bias out_stk_bias)
  | .T_SHORT => .ok (.int_move move.src move.dst callerSP R0 in_stk_bias out_stk_bias)
  | .T_CHAR => .ok (.int_move move.src move.dst callerSP R0 in_stk_bias out_stk_bias)
  | .T_INT => .ok (.int_move move.src move.dst callerSP R0 in_stk_bias out_stk_bias)
  | .T_FLOAT => .ok (.float_move move.src move.dst callerSP R0 in_stk_bias out_stk_bias)
  | .T_DOUBLE => .ok (.double_move move.src move.dst callerSP R0 in_stk_bias out_stk_bias)
  | .T_LONG => .ok (.long_move move.src move.dst callerSP R0 in_stk_bias out_stk_bias)
  | bt => .error (.fatal_found_in_upcall_args bt)

/-- The function `ArgumentShuffle::pd_generate` over the move list `_moves`.  The
argument `tmp` is the register `tmp->as_Register()`, named `callerSP` in the source.
The loop stops at the first move that ends in `fatal`. -/
def ArgumentShuffle.pd_generate (moves : List Move) (tmp : Register)
    (in_stk_bias out_stk_bias : Int) : Emitted :=
  match moves with
  | [] => { code := [], error := none }
  | move :: rest =>
    match ArgumentShuffle.pd_generate_move move tmp in_stk_bias out_stk_bias with
    | .error e => { code := [], error := some e }
    | .ok i =>
      let r := ArgumentShuffle.pd_generate rest tmp in_stk_bias out_stk_bias
      { code := i :: r.code, error := r.error }

/-- The result of the shuffle planner (shared code): the ordered move list and the
number of outgoing stack slots. -/
structure ArgumentShuffle where
  _moves : List Move
  _out_arg_stack_slots : Int

/-- The shared `ArgumentShuffle::generate` forwards to `pd_generate`. -/
def ArgumentShuffle.generate (s : ArgumentShuffle) (tmp : Register)
    (in_stk_bias out_stk_bias : Int) : Emitted :=
  ArgumentShuffle.pd_generate s._moves tmp in_stk_bias out_stk_bias

/-! ## `downcallLinker_ppc.cpp` -/

/-- The members of `DowncallStubGenerator` that `generate` reads.  The argument shuffle
is built by shared code from `_signature`, `_num_args` and `_input_registers`; its
result stands here in their place. -/
structure DowncallStubGenerator where
  arg_shuffle : ArgumentShuffle
  _ret_bt : BasicType
  _abi : ABIDescriptor
  _output_registers : List VMReg
  _needs_return_buffer : Bool

/-- What `generate` leaves behind: the member `_framesize`, the local
`allocated_frame_size`, the emitted code, and the fatal error that stopped it, if any. -/
structure Generated where
  _framesize : Int
  allocated_frame_size : Int
  code : List Instr
  error : Option Fatal
deriving DecidableEq, Repr

/-- The frame size computation of `DowncallStubGenerator::generate` (lines 141 to 164)
when no return buffer is used. -/
def DowncallStubGenerator.allocated_frame_size (P : Platform)
    (g : DowncallStubGenerator) : Int :=
  let allocated_frame_size := P.abi_reg_args_size
  let allocated_frame_size :=
    allocated_frame_size + g.arg_shuffle._out_arg_stack_slots * 2 ^ LogBytesPerInt
  let allocated_frame_size :=
    MAX2 (RegSpiller.spill_size_bytes g._output_registers + P.abi_reg_args_size)
      allocated_frame_size
  align_up allocated_frame_size P.alignment_in_bytes

/-- Code emitted from the start of the stub up to the argument shuffle. -/
def DowncallStubGenerator.prologue (allocated_frame_size : Int) : List Instr :=
  [ .save_LR_CR R11_scratch1,
    .push_frame allocated_frame_size R11_scratch1,
    .calculate_address_from_global_toc R11_scratch1,
    .set_last_Java_frame R1_SP R11_scratch1,
    .li R11_scratch1 (.thread_state ._thread_in_native),
    .release,
    .stw R11_scratch1 .thread_state_offset R16_thread ]

/-- Code emitted after the result has been unpacked, up to the return. -/
def DowncallStubGenerator.transition_back : List Instr :=
  [ .li R11_scratch1 (.thread_state ._thread_in_native_trans),
    .release,
    .stw R11_scratch1 .thread_state_offset R16_thread,
    .fence,
    .safepoint_poll .L_safepoint_poll_slow_path R11_scratch1 true false,
    .lwz R11_scratch1 .suspend_flags_offset R16_thread,
    .cmpwi .CCR0 R11_scratch1 (.int 0),
    .bne .CCR0 .L_safepoint_poll_slow_path,
    .bind .L_after_safepoint_poll,
    .li R11_scratch1 (.thread_state ._thread_in_Java),
    .lwsync,
    .stw R11_scratch1 .thread_state_offset R16_thread,
    .lwz R11_scratch1 .stack_guard_state_offset R16_thread,
    .cmpwi .CCR0 R11_scratch1 .stack_guard_yellow_reserved_disabled,
    .beq .CCR0 .L_reguard,
    .bind .L_after_reguard,
    .reset_last_Java_frame,
    .pop_frame,
    .restore_LR_CR R11_scratch1,
    .blr ]

/-- The block `L_safepoint_poll_slow_path` (no return buffer). -/
def DowncallStubGenerator.safepoint_slow_path (output_registers : List VMReg)
    (spill_offset : Int) : List Instr :=
  [.bind .L_safepoint_poll_slow_path]
    ++ RegSpiller.generate_spill output_registers spill_offset
    ++ [.untested .downcall_trans,
        .call_VM_leaf .check_special_condition_for_native_trans [R16_thread]]
    ++ RegSpiller.generate_fill output_registers spill_offset
    ++ [.b .L_after_safepoint_poll]

/-- The block `L_reguard` (no return buffer). -/
def DowncallStubGenerator.reguard_slow_path (output_registers : List VMReg)
    (spill_offset : Int) : List Instr :=
  [.bind .L_reguard]
    ++ RegSpiller.generate_spill output_registers spill_offset
    ++ [.untested .downcall_reguard, .call_VM_leaf .reguard_yellow_pages []]
    ++ RegSpiller.generate_fill output_registers spill_offset
    ++ [.b .L_after_reguard]

/-- The function `DowncallStubGenerator::generate`, with `tmp = shuffle_reg =
R11_scratch1`.  A fatal error ends the generation; the code emitted up to that point is
kept in the result.  The constructor initialises `_framesize` with 0. -/
def DowncallStubGenerator.generate (P : Platform) (g : DowncallStubGenerator) : Generated :=
  if g._needs_return_buffer then
    { _framesize := 0, allocated_frame_size := P.abi_reg_args_size, code := [],
      error := some .ShouldNotReachHere }
  else
    let allocated_frame_size := g.allocated_frame_size P
    let _framesize := allocated_frame_size / 2 ^ LogBytesPerInt
    let spill_offset := P.abi_reg_args_size
    let shuffle :=
      g.arg_shuffle.generate R11_scratch1 P.jit_out_preserve_size g._abi._shadow_space_bytes
    let code := DowncallStubGenerator.prologue allocated_frame_size ++ shuffle.code
    match shuffle.error with
    | some e =>
      { _framesize := _framesize, allocated_frame_size := allocated_frame_size, code := code,
        error := some e }
    | none =>
      let code := code ++ [.mtctr g._abi._target_addr_reg, .bctrl]
      match unpack_native_result g._ret_bt with
      | .error e =>
        { _framesize := _framesize, allocated_frame_size := allocated_frame_size, code := code,
          error := some e }
      | .ok unpack =>
        { _framesize := _framesize, allocated_frame_size := allocated_frame_size,
          code := code ++ unpack ++ DowncallStubGenerator.transition_back
            ++ DowncallStubGenerator.safepoint_slow_path g._output_registers spill_offset
            ++ DowncallStubGenerator.reguard_slow_path g._output_registers spill_offset,
          error := none }

/-- The accessor `DowncallStubGenerator::framesize()`: `_framesize` in 8-byte words. -/
def Generated.framesize (r : Generated) : Int :=
  r._framesize / 2 ^ (LogBytesPerWord - LogBytesPerInt)

/-! ## `upcallLinker_ppc.cpp` -/

/-- First loop of `compute_reg_save_area_size`, over the register numbers `is`. -/
def compute_reg_save_area_size.int_loop (abi : ABIDescriptor) : List Nat → Int → Int
  | [], size => size
  | i :: rest, size =>
    let reg := as_Register i
    if reg = R1_SP ∨ reg = R13 then compute_reg_save_area_size.int_loop abi rest size
    else if abi.is_volatile_reg reg = false then
      compute_reg_save_area_size.int_loop abi rest (size + 8)
    else compute_reg_save_area_size.int_loop abi rest size

/-- Second loop of `compute_reg_save_area_size`. -/
def compute_reg_save_area_size.float_loop (abi : ABIDescriptor) : List Nat → Int → Int
  | [], size => size
  | i :: rest, size =>
    let reg := as_FloatRegister i
    if abi.is_volatile_freg reg = false then
      compute_reg_save_area_size.float_loop abi rest (size + 8)
    else compute_reg_save_area_size.float_loop abi rest size

def compute_reg_save_area_size (P : Platform) (abi : ABIDescriptor) : Int :=
  let size := compute_reg_save_area_size.int_loop abi (List.range P.number_of_registers) 0
  compute_reg_save_area_size.float_loop abi (List.range P.float_number_of_registers) size

/-- First loop of `preserve_callee_saved_registers`: the emitted code and the final
value of `offset`. -/
def preserve_callee_saved_registers.int_loop (abi : ABIDescriptor) :
    List Nat → Int → List Instr × Int
  | [], offset => ([], offset)
  | i :: rest, offset =>
    let reg := as_Register i
    if reg = R1_SP ∨ reg = R13 then preserve_callee_saved_registers.int_loop abi rest offset
    else if abi.is_volatile_reg reg = false then
      let r := preserve_callee_saved_registers.int_loop abi rest (offset + 8)
      (Instr.std reg offset R1_SP :: r.1, r.2)
    else preserve_callee_saved_registers.int_loop abi rest offset

/-- Second loop of `preserve_callee_saved_registers`. -/
def preserve_callee_saved_registers.float_loop (abi : ABIDescriptor) :
    List Nat → Int → List Instr × Int
  | [], offset => ([], offset)
  | i :: rest, offset =>
    let reg := as_FloatRegister i
    if abi.is_volatile_freg reg = false then
      let r := preserve_callee_saved_registers.float_loop abi rest (offset + 8)
      (Instr.stfd reg offset R1_SP :: r.1, r.2)
    else preserve_callee_saved_registers.float_loop abi rest offset

def preserve_callee_saved_registers (P : Platform) (abi : ABIDescriptor)
    (reg_save_area_offset : Int) : List Instr :=
  let a := preserve_callee_saved_registers.int_loop abi (List.range P.number_of_registers)
    reg_save_area_offset
  let b := preserve_callee_saved_registers.float_loop abi
    (List.range P.float_number_of_registers) a.2
  a.1 ++ b.1

/-- First loop of `restore_callee_saved_registers`. -/
def restore_callee_saved_registers.int_loop (abi : ABIDescriptor) :
    List Nat → Int → List Instr × Int
  | [], offset => ([], offset)
  | i :: rest, offset =>
    let reg := as_Register i
    if reg = R1_SP ∨ reg = R13 then restore_callee_saved_registers.int_loop abi rest offset
    else if abi.is_volatile_reg reg = false then
      let r := restore_callee_saved_registers.int_loop abi rest (offset + 8)
      (Instr.ld reg offset R1_SP :: r.1, r.2)
    else restore_callee_saved_registers.int_loop abi rest offset

/-- Second loop of `restore_callee_saved_registers`. -/
def restore_callee_saved_registers.float_loop (abi : ABIDescriptor) :
    List Nat → Int → List Instr × Int
  | [], offset => ([], offset)
  | i :: rest, offset =>
    let reg := as_FloatRegister i
    if abi.is_volatile_freg reg = false then
      let r := restore_callee_saved_registers.float_loop abi rest (offset + 8)
      (Instr.lfd reg offset R1_SP :: r.1, r.2)
    else restore_callee_saved_registers.float_loop abi rest offset

def restore_callee_saved_registers (P : Platform) (abi : ABIDescriptor)
    (reg_save_area_offset : Int) : List Instr :=
  let a := restore_callee_saved_registers.int_loop abi (List.range P.number_of_registers)
    reg_save_area_offset
  let b := restore_callee_saved_registers.float_loop abi
    (List.range P.float_number_of_registers) a.2
  a.1 ++ b.1

/-- The offsets and sizes computed at the start of `UpcallLinker::make_upcall_stub`. -/
structure UpcallFrame where
  out_arg_area : Int
  reg_save_area_size : Int
  result_spill_size : Int
  arg_spill_size : Int
  shuffle_area_offset : Int
  res_save_area_offset : Int
  arg_save_area_offset : Int
  reg_save_area_offset : Int
  frame_data_offset : Int
  ret_buf_offset : Int
  frame_bottom_offset : Int
  frame_size : Int
deriving DecidableEq, Repr

/-- The frame layout of `UpcallLinker::make_upcall_stub` (lines 138 to 168).  The inputs
`out_arg_stack_slots`, `result_spill_size` and `arg_spill_size` are the values of
`arg_shuffle.out_arg_stack_slots()`, `result_spiller.spill_size_bytes()` and
`arg_spiller.spill_size_bytes()`. -/
def UpcallLinker.frame_layout (P : Platform) (abi : ABIDescriptor)
    (out_arg_stack_slots result_spill_size arg_spill_size : Int)
    (needs_return_buffer : Bool) (ret_buf_size : Int) : UpcallFrame :=
  let stack_slots := (P.out_preserve_stack_slots : Int) + out_arg_stack_slots
  let out_arg_area :=
    align_up (stack_slots * (P.stack_slot_size : Int)) P.StackAlignmentInBytes
  let reg_save_area_size := compute_reg_save_area_size P abi
  let shuffle_area_offset := 0
  let res_save_area_offset := shuffle_area_offset + out_arg_area
  let arg_save_area_offset := res_save_area_offset + result_spill_size
  let reg_save_area_offset := arg_save_area_offset + arg_spill_size
  let frame_data_offset := reg_save_area_offset + reg_save_area_size
  let frame_bottom_offset := frame_data_offset + (P.sizeof_FrameData : Int)
  let ret_buf_offset := if needs_return_buffer then frame_bottom_offset else -1
  let frame_bottom_offset :=
    if needs_return_buffer then frame_bottom_offset + ret_buf_size else frame_bottom_offset
  let frame_size := align_up frame_bottom_offset P.StackAlignmentInBytes
  { out_arg_area := out_arg_area
    reg_save_area_size := reg_save_area_size
    result_spill_size := result_spill_size
    arg_spill_size := arg_spill_size
    shuffle_area_offset := shuffle_area_offset
    res_save_area_offset := res_save_area_offset
    arg_save_area_offset := arg_save_area_offset
    reg_save_area_offset := reg_save_area_offset
    frame_data_offset := frame_data_offset
    ret_buf_offset := ret_buf_offset
    frame_bottom_offset := frame_bottom_offset
    frame_size := frame_size }

/-! ## Sample inputs for concrete evaluations -/

/-- An ABI descriptor in the style of the ELFv2 C ABI: `R3` to `R10` and `F1` to `F13`
carry arguments, `R0`, `R2`, `R11`, `R12` and `F0` are additional volatile registers. -/
def sampleABI : ABIDescriptor :=
  { _integer_argument_registers := [⟨3⟩, ⟨4⟩, ⟨5⟩, ⟨6⟩, ⟨7⟩, ⟨8⟩, ⟨9⟩, ⟨10⟩]
    _integer_return_registers := [⟨3⟩]
    _integer_additional_volatile_registers := [⟨0⟩, ⟨2⟩, ⟨11⟩, ⟨12⟩]
    _float_argument_registers :=
      [⟨1⟩, ⟨2⟩, ⟨3⟩, ⟨4⟩, ⟨5⟩, ⟨6⟩, ⟨7⟩, ⟨8⟩, ⟨9⟩, ⟨10⟩, ⟨11⟩, ⟨12⟩, ⟨13⟩]
    _float_return_registers := [⟨1⟩]
    _float_additional_volatile_registers := [⟨0⟩]
    _stack_alignment_bytes := 16
    _shadow_space_bytes := 96
    _target_addr_reg := R12_scratch2
    _ret_buf_addr_reg := ⟨3⟩ }

/-- A downcall with one `int` and one `double` argument and the given return type. -/
def sampleDowncall (ret_bt : BasicType) : DowncallStubGenerator :=
  { arg_shuffle :=
      { _moves := [⟨.T_INT, ⟨.gpr ⟨4⟩, .bad⟩, ⟨.gpr ⟨3⟩, .bad⟩⟩,
                   ⟨.T_DOUBLE, ⟨.fpr ⟨2⟩, .bad⟩, ⟨.fpr ⟨1⟩, .bad⟩⟩]
        _out_arg_stack_slots := 0 }
    _ret_bt := ret_bt
    _abi := sampleABI
    _output_registers := [.gpr R3_RET, .fpr F1_RET]
    _needs_return_buffer := false }

/-! ## Descriptions used in the statements about the upcall register save area -/

/-- The general purpose registers among the numbers `is` that the loops of the upcall
linker single out: not `R1_SP`, not `R13`, and not volatile for the ABI. -/
def saved_int_registers (abi : ABIDescriptor) (is : List Nat) : List Register :=
  (is.map as_Register).filter
    (fun reg => !(decide (reg = R1_SP ∨ reg = R13)) && !(abi.is_volatile_reg reg))

/-- The float registers among the numbers `is` that are not volatile for the ABI. -/
def saved_float_registers (abi : ABIDescriptor) (is : List Nat) : List FloatRegister :=
  (is.map as_FloatRegister).filter (fun reg => !(abi.is_volatile_freg reg))

/-- The registers singled out by the loops, general purpose registers first, in loop
order. -/
def callee_saved_registers (P : Platform) (abi : ABIDescriptor) : List VMReg :=
  (saved_int_registers abi (List.range P.number_of_registers)).map VMReg.gpr
    ++ (saved_float_registers abi (List.range P.float_number_of_registers)).map VMReg.fpr

/-- An ABI descriptor whose return register `R3` and target address register `R12` are
neither argument registers nor additional volatile registers. -/
def returnOnlyABI : ABIDescriptor :=
  { _integer_argument_registers := [⟨4⟩]
    _integer_return_registers := [⟨3⟩]
    _integer_additional_volatile_registers := []
    _float_argument_registers := [⟨1⟩]
    _float_return_registers := [⟨1⟩]
    _float_additional_volatile_registers := []
    _stack_alignment_bytes := 16
    _shadow_space_bytes := 96
    _target_addr_reg := R12_scratch2
    _ret_buf_addr_reg := ⟨3⟩ }

/-- The load that reads back what a store has written: `ld` for `std`, `lfd` for `stfd`,
same register, offset and base. -/
def Instr.toLoad : Instr → Instr
  | .std s offset base => .ld s offset base
  | .stfd s offset base => .lfd s offset base
  | i => i

/-- The offset of a doubleword store or load. -/
def Instr.slotOffset : Instr → Option Int
  | .std _ offset _ => some offset
  | .stfd _ offset _ => some offset
  | .ld _ offset _ => some offset
  | .lfd _ offset _ => some offset
  | _ => none

/-- The regions of the upcall frame as (start offset, size in bytes): outgoing arguments,
result spill, argument spill, callee-saved registers, frame data and, when a return
buffer is used, the return buffer. -/
def UpcallFrame.regions (P : Platform) (L : UpcallFrame) (needs_return_buffer : Bool)
    (ret_buf_size : Int) : List (Int × Int) :=
  [ (L.shuffle_area_offset, L.out_arg_area),
    (L.res_save_area_offset, L.result_spill_size),
    (L.arg_save_area_offset, L.arg_spill_size),
    (L.reg_save_area_offset, L.reg_save_area_size),
    (L.frame_data_offset, (P.sizeof_FrameData : Int)) ]
  ++ (if needs_return_buffer then [(L.ret_buf_offset, ret_buf_size)] else [])

/-- The sample ABI descriptor with a stack alignment requirement of 32 bytes. -/
def sampleABI32 : ABIDescriptor :=
  { sampleABI with _stack_alignment_bytes := 32 }

/-- The sample downcall for an ABI descriptor that asks for 32-byte stack alignment. -/
def sampleDowncall32 : DowncallStubGenerator :=
  { sampleDowncall .T_INT with _abi := sampleABI32 }

/-! ## Control flow of the emitted code -/

/-- What the run of a stub depends on but the stub does not decide.  The code behind
`safepoint_poll` and `untested` is not part of the three files: whether the poll finds
the poll word armed, and whether the code emitted for `untested` stops the run, are
inputs here, as is the content of the thread fields that the stub compares. -/
structure Env where
  /-- The safepoint poll finds the poll word armed and branches to its slow label. -/
  poll_armed : Bool
  /-- The word at the thread field equals the immediate. -/
  field_eq : ThreadField → Imm → Bool
  /-- The code emitted for `untested(...)` stops the run. -/
  untested_stops : Bool

/-- What is known about registers and condition fields while running: the thread field
a register was last loaded from, and the outcome "equal" of the last comparison. -/
structure Ctl where
  loaded : Register → Option ThreadField
  cr : ConditionRegister → Option Bool

/-- Nothing is known. -/
def Ctl.unknown : Ctl := { loaded := fun _ => none, cr := fun _ => none }

/-- The effect of an item that falls through on what is known.  Loads of a thread field
and comparisons are tracked; barriers and label bindings change nothing; after every
other item nothing is assumed to be known any more. -/
def Ctl.step (env : Env) (c : Ctl) : Instr → Ctl
  | .lwz d field base =>
    { c with loaded := fun r =>
        if r = d then (if base = R16_thread then some field else none) else c.loaded r }
  | .cmpwi cr a imm =>
    { c with cr := fun x =>
        if x = cr then (c.loaded a).map (fun field => env.field_eq field imm) else c.cr x }
  | .bind _ => c
  | .release => c
  | .fence => c
  | .lwsync => c
  | _ => Ctl.unknown

/-- How a run ends. -/
inductive Outcome
  | returned
  | stopped
  | stuck
  | no_label
  | fell_off_end
  | out_of_fuel
deriving DecidableEq, Repr

/-- The code from the binding of label `l` on, if the label is bound. -/
def jump (code : List Instr) (l : Label) : Option (List Instr) :=
  match code.dropWhile (fun i => i != Instr.bind l) with
  | [] => none
  | rest => some rest

/-- Put an executed item in front of the trace of the rest of the run. -/
def andThen (i : Instr) (r : List Instr × Outcome) : List Instr × Outcome :=
  (i :: r.1, r.2)

/-- Run the emitted `code`, starting with the items `rest`, for at most `fuel` steps.
The result is the list of executed items and the way the run ended.  `blr` ends the run
(the stub returns); `bctrl` and `call_VM_leaf` are calls that come back; conditional
branches follow the last comparison. -/
def run (code : List Instr) (env : Env) : Nat → Ctl → List Instr → List Instr × Outcome
  | 0, _, _ => ([], .out_of_fuel)
  | _ + 1, _, [] => ([], .fell_off_end)
  | fuel + 1, c, i :: rest =>
    match i with
    | .blr => ([i], .returned)
    | .b target =>
      match jump code target with
      | some k => andThen i (run code env fuel c k)
      | none => ([i], .no_label)
    | .bne cr target =>
      match c.cr cr with
      | none => ([i], .stuck)
      | some true => andThen i (run code env fuel c rest)
      | some false =>
        match jump code target with
        | some k => andThen i (run code env fuel c k)
        | none => ([i], .no_label)
    | .beq cr target =>
      match c.cr cr with
      | none => ([i], .stuck)
      | some false => andThen i (run code env fuel c rest)
      | some true =>
        match jump code target with
        | some k => andThen i (run code env fuel c k)
        | none => ([i], .no_label)
    | .safepoint_poll slow _ _ _ =>
      if env.poll_armed then
        match jump code slow with
        | some k => andThen i (run code env fuel Ctl.unknown k)
        | none => ([i], .no_label)
      else andThen i (run code env fuel Ctl.unknown rest)
    | .untested _ =>
      if env.untested_stops then ([i], .stopped)
      else andThen i (run code env fuel Ctl.unknown rest)
    | _ => andThen i (run code env fuel (c.step env i) rest)

/-- Run a stub from its entry. -/
def runStub (code : List Instr) (env : Env) (fuel : Nat) : List Instr × Outcome :=
  run code env fuel Ctl.unknown code

/-- A store to the thread-state field of the current thread. -/
def Instr.isThreadStateStore : Instr → Bool
  | .stw _ .thread_state_offset _ => true
  | _ => false

/-- Scan the code for stores to the thread-state field; each store is listed with the
two items emitted directly before it. -/
def threadStateStores (p2 p1 : Option Instr) :
    List Instr → List (Option Instr × Option Instr × Instr)
  | [] => []
  | i :: rest =>
    (if i.isThreadStateStore then [(p2, p1, i)] else []) ++ threadStateStores p1 (some i) rest

/-- An environment in which no safepoint or suspend is pending and the stack guard is
in place. -/
def quietEnv : Env :=
  { poll_armed := false
    field_eq := fun field imm =>
      match field, imm with
      | .suspend_flags_offset, .int 0 => true
      | _, _ => false
    untested_stops := false }

/-- An environment in which the safepoint poll is armed. -/
def safepointEnv (untested_stops : Bool) : Env :=
  { quietEnv with poll_armed := true, untested_stops := untested_stops }

/-- The items that the variable parts of a stub consist of (argument moves, result
unpacking, register spills and fills): they fall through, bind no label and do not store
to a thread field. -/
def Instr.isStraight : Instr → Bool
  | .neg _ _ => true
  | .orr _ _ _ => true
  | .srwi _ _ _ => true
  | .clrldi _ _ _ => true
  | .extsb _ _ => true
  | .extsh _ _ => true
  | .extsw _ _ => true
  | .std _ _ _ => true
  | .stfd _ _ _ => true
  | .ld _ _ _ => true
  | .lfd _ _ _ => true
  | .int_move _ _ _ _ _ _ => true
  | .float_move _ _ _ _ _ _ => true
  | .double_move _ _ _ _ _ _ => true
  | .long_move _ _ _ _ _ _ => true
  | _ => false

/-- The part of a downcall stub from the binding of `L_after_reguard` to the return. -/
def stubAfterReguard : List Instr :=
  [ .bind .L_after_reguard, .reset_last_Java_frame, .pop_frame,
    .restore_LR_CR R11_scratch1, .blr ]

/-- The part of a downcall stub from the binding of `L_after_safepoint_poll` to the
return. -/
def stubAfterPoll : List Instr :=
  [ .bind .L_after_safepoint_poll,
    .li R11_scratch1 (.thread_state ._thread_in_Java),
    .lwsync,
    .stw R11_scratch1 .thread_state_offset R16_thread,
    .lwz R11_scratch1 .stack_guard_state_offset R16_thread,
    .cmpwi .CCR0 R11_scratch1 .stack_guard_yellow_reserved_disabled,
    .beq .CCR0 .L_reguard ] ++ stubAfterReguard

/-- The part of a downcall stub from the transition to `_thread_in_native_trans` to the
branch of the suspend-flags check. -/
def stubPollPart : List Instr :=
  [ .li R11_scratch1 (.thread_state ._thread_in_native_trans),
    .release,
    .stw R11_scratch1 .thread_state_offset R16_thread,
    .fence,
    .safepoint_poll .L_safepoint_poll_slow_path R11_scratch1 true false,
    .lwz R11_scratch1 .suspend_flags_offset R16_thread,
    .cmpwi .CCR0 R11_scratch1 (.int 0),
    .bne .CCR0 .L_safepoint_poll_slow_path ]

/-- A slow-path block: label, spill, the `untested` mark, the call, fill, branch back. -/
def slowBlock (l : Label) (spill : List Instr) (site : UntestedSite) (entry : RuntimeEntry)
    (args : List Register) (fill : List Instr) (back : Label) : List Instr :=
  .bind l :: (spill ++ (.untested site :: .call_VM_leaf entry args :: (fill ++ [.b back])))

/-- The code of a downcall stub, put together from its fixed and its variable parts. -/
def stubCode (afs : Int) (tgt : Register) (sh un sp1 fl1 sp2 fl2 : List Instr) : List Instr :=
  DowncallStubGenerator.prologue afs ++ (sh ++ (.mtctr tgt :: .bctrl :: (un ++ (stubPollPart
    ++ (stubAfterPoll
    ++ (slowBlock .L_safepoint_poll_slow_path sp1 .downcall_trans
          .check_special_condition_for_native_trans [R16_thread] fl1 .L_after_safepoint_poll
    ++ slowBlock .L_reguard sp2 .downcall_reguard .reguard_yellow_pages [] fl2
          .L_after_reguard))))))

/-- A move list with one `int` move from `R3` to `R3` and one `long` move from `R4` to
`R5`. -/
def selfMoveList : List Move :=
  [ ⟨.T_INT, ⟨.gpr ⟨3⟩, .bad⟩, ⟨.gpr ⟨3⟩, .bad⟩⟩,
    ⟨.T_LONG, ⟨.gpr ⟨4⟩, .gpr ⟨4⟩⟩, ⟨.gpr ⟨5⟩, .gpr ⟨5⟩⟩⟩ ]

/-! ## Descriptions used in the statements about type dispatch -/

/-- The return types that the `switch (_ret_bt)` of the downcall generator lists. -/
def supported_return_types : List BasicType :=
  [.T_BOOLEAN, .T_CHAR, .T_BYTE, .T_SHORT, .T_INT, .T_LONG, .T_FLOAT, .T_DOUBLE, .T_VOID]

/-- The argument types that the `switch (arg_bt)` of `pd_generate` lists. -/
def supported_move_types : List BasicType :=
  [.T_BOOLEAN, .T_BYTE, .T_SHORT, .T_CHAR, .T_INT, .T_FLOAT, .T_DOUBLE, .T_LONG]

/-- The move operation expected for a move of a supported type: `float_move` for
`T_FLOAT`, `double_move` for `T_DOUBLE`, `long_move` for `T_LONG`, `int_move` for the
other supported types; source and destination of the move, `tmp` and `R0` as scratch
registers, and the two stack biases. -/
def expected_move_operation (mv : Move) (tmp : Register) (in_stk_bias out_stk_bias : Int) :
    Instr :=
  match mv.bt with
  | .T_FLOAT => .float_move mv.src mv.dst tmp R0 in_stk_bias out_stk_bias
  | .T_DOUBLE => .double_move mv.src mv.dst tmp R0 in_stk_bias out_stk_bias
  | .T_LONG => .long_move mv.src mv.dst tmp R0 in_stk_bias out_stk_bias
  | _ => .int_move mv.src mv.dst tmp R0 in_stk_bias out_stk_bias

/-- The sample downcall, asked to use a return buffer. -/
def sampleDowncallReturnBuffer : DowncallStubGenerator :=
  { sampleDowncall .T_LONG with _needs_return_buffer := true }

/-! ## Arithmetic of the narrowing instructions -/

theorem or_mod_two_pow_eq (a b n : Nat) : (a ||| b) % 2 ^ n = a % 2 ^ n ||| b % 2 ^ n := by
  apply Nat.eq_of_testBit_eq
  intro i
  simp only [Nat.testBit_mod_two_pow, Nat.testBit_or]
  by_cases h : i < n <;> simp [h]

theorem or_div_two_pow_eq (a b n : Nat) : (a ||| b) / 2 ^ n = a / 2 ^ n ||| b / 2 ^ n := by
  apply Nat.eq_of_testBit_eq
  intro i
  simp only [← Nat.shiftRight_eq_div_pow, Nat.testBit_shiftRight, Nat.testBit_or]

theorem srwi32_or64_neg64 (v : Nat) :
    srwi32 (or64 v (neg64 v)) 31 = if v % 2 ^ 32 = 0 then 0 else 1 := by
  unfold srwi32 or64 neg64 WORD64
  have h1 : (v ||| (2 ^ 64 - v % 2 ^ 64) % 2 ^ 64) % 2 ^ 64 % 2 ^ 32
      = (v % 2 ^ 32) ||| ((2 ^ 64 - v % 2 ^ 64) % 2 ^ 64 % 2 ^ 32) := by
    rw [Nat.mod_mod_of_dvd _ (by norm_num : 2 ^ 32 ∣ 2 ^ 64), or_mod_two_pow_eq]
  rw [h1, or_div_two_pow_eq]
  have hp : v % 2 ^ 32 < 2 ^ 32 := Nat.mod_lt _ (by norm_num)
  have hq : (2 ^ 64 - v % 2 ^ 64) % 2 ^ 64 % 2 ^ 32 = (2 ^ 32 - v % 2 ^ 32) % 2 ^ 32 := by
    omega
  rw [hq]
  by_cases h0 : v % 2 ^ 32 = 0
  · rw [if_pos h0, h0]; decide
  · rw [if_neg h0]
    by_cases hbig : 2 ^ 31 ≤ v % 2 ^ 32
    · have e1 : v % 2 ^ 32 / 2 ^ 31 = 1 := by omega
      have e2 : (2 ^ 32 - v % 2 ^ 32) % 2 ^ 32 / 2 ^ 31 = 0 ∨
          (2 ^ 32 - v % 2 ^ 32) % 2 ^ 32 / 2 ^ 31 = 1 := by omega
      rcases e2 with e2 | e2 <;> rw [e1, e2] <;> decide
    · have e1 : v % 2 ^ 32 / 2 ^ 31 = 0 := by omega
      have e2 : (2 ^ 32 - v % 2 ^ 32) % 2 ^ 32 / 2 ^ 31 = 1 := by omega
      rw [e1, e2]; decide

theorem toSigned64_exts64_8 (v : Nat) :
    exts64 8 v < 2 ^ 64 ∧ toSigned64 (exts64 8 v) = signedLow 8 v := by
  unfold exts64 toSigned64 signedLow WORD64
  norm_num
  have h : v % 256 < 256 := Nat.mod_lt _ (by norm_num)
  split_ifs <;> omega

theorem toSigned64_exts64_16 (v : Nat) :
    exts64 16 v < 2 ^ 64 ∧ toSigned64 (exts64 16 v) = signedLow 16 v := by
  unfold exts64 toSigned64 signedLow WORD64
  norm_num
  have h : v % 65536 < 65536 := Nat.mod_lt _ (by norm_num)
  split_ifs <;> omega

theorem toSigned64_exts64_32 (v : Nat) :
    exts64 32 v < 2 ^ 64 ∧ toSigned64 (exts64 32 v) = signedLow 32 v := by
  unfold exts64 toSigned64 signedLow WORD64
  norm_num
  have h : v % 4294967296 < 4294967296 := Nat.mod_lt _ (by norm_num)
  split_ifs <;> omega

theorem clrldi64_48 (v : Nat) : clrldi64 v 48 = v % 2 ^ 16 := by
  unfold clrldi64 WORD64
  exact Nat.mod_mod_of_dvd _ (by norm_num)

/-! ## Downcall: unpacking the native result -/

/-- C1 (as stated, refuted): with `2 ^ 32` in `R3_RET`, a value other than 0, the code
emitted for `T_BOOLEAN` leaves 0 in `R3_RET`, not 1. -/
theorem C1_boolean_high_word_counterexample :
    (machineWithR3 (2 ^ 32)).gpr R3_RET = 4294967296 ∧
    unpacked_R3 .T_BOOLEAN (machineWithR3 (2 ^ 32)) = some 0 := by
  constructor
  · simp [machineWithR3]
  · simp [unpacked_R3, run_unpack, unpack_native_result, execAll, Instr.exec, Machine.setGpr,
      machineWithR3, R3_RET, R11_scratch1, srwi32, or64, neg64, WORD64]

/-- C1 (amended): for every machine state the code emitted for `T_BOOLEAN`
(`neg tmp,R3; or tmp,R3,tmp; srwi R3,tmp,31`) runs to completion and leaves `R3_RET`
equal to 0 when the low 32 bits of the returned value are 0, and equal to 1 when they
are not. -/
theorem C1_boolean_normalises_low_word (m : Machine) :
    unpack_native_result .T_BOOLEAN =
      .ok [.neg R11_scratch1 R3_RET, .orr R11_scratch1 R3_RET R11_scratch1,
           .srwi R3_RET R11_scratch1 31] ∧
    unpacked_R3 .T_BOOLEAN m = some (if m.gpr R3_RET % 2 ^ 32 = 0 then 0 else 1) := by
  refine ⟨rfl, ?_⟩
  have h := srwi32_or64_neg64 (m.gpr R3_RET)
  simp [unpacked_R3, run_unpack, unpack_native_result, execAll, Instr.exec, Machine.setGpr,
    R3_RET, R11_scratch1] at h ⊢
  exact h

/-- C2: the code emitted is `clrldi R3,R3,48` for `T_CHAR`, `extsb` for `T_BYTE`, `extsh`
for `T_SHORT` and `extsw` for `T_INT`.  For every machine state, the code for `T_CHAR`
leaves in `R3_RET` the low 16 bits of the returned value, zero-extended; the code for
`T_BYTE`, `T_SHORT` and `T_INT` leaves a 64-bit value with the same low 8, 16 and 32
bits whose signed reading is the signed reading of those low bits.  A byte return of 0xFF becomes -1 and a
short return of 0x8000 becomes -32768. -/
theorem C2_integer_return_narrowing (m : Machine) :
    unpack_native_result .T_CHAR = .ok [.clrldi R3_RET R3_RET 48] ∧
    unpack_native_result .T_BYTE = .ok [.extsb R3_RET R3_RET] ∧
    unpack_native_result .T_SHORT = .ok [.extsh R3_RET R3_RET] ∧
    unpack_native_result .T_INT = .ok [.extsw R3_RET R3_RET] ∧
    unpacked_R3 .T_CHAR m = some (m.gpr R3_RET % 2 ^ 16) ∧
    (∃ r, unpacked_R3 .T_BYTE m = some r ∧ r < 2 ^ 64 ∧ r % 2 ^ 8 = m.gpr R3_RET % 2 ^ 8 ∧
      toSigned64 r = signedLow 8 (m.gpr R3_RET)) ∧
    (∃ r, unpacked_R3 .T_SHORT m = some r ∧ r < 2 ^ 64 ∧ r % 2 ^ 16 = m.gpr R3_RET % 2 ^ 16 ∧
      toSigned64 r = signedLow 16 (m.gpr R3_RET)) ∧
    (∃ r, unpacked_R3 .T_INT m = some r ∧ r < 2 ^ 64 ∧ r % 2 ^ 32 = m.gpr R3_RET % 2 ^ 32 ∧
      toSigned64 r = signedLow 32 (m.gpr R3_RET)) ∧
    (unpacked_R3 .T_BYTE (machineWithR3 0xFF)).map toSigned64 = some (-1) ∧
    (unpacked_R3 .T_SHORT (machineWithR3 0x8000)).map toSigned64 = some (-32768) := by
  refine ⟨rfl, rfl, rfl, rfl, ?_, ⟨exts64 8 (m.gpr R3_RET), ?_, (toSigned64_exts64_8 _).1, ?_,
      (toSigned64_exts64_8 _).2⟩,
    ⟨exts64 16 (m.gpr R3_RET), ?_, (toSigned64_exts64_16 _).1, ?_, (toSigned64_exts64_16 _).2⟩,
    ⟨exts64 32 (m.gpr R3_RET), ?_, (toSigned64_exts64_32 _).1, ?_, (toSigned64_exts64_32 _).2⟩,
    ?_, ?_⟩
  · have h := clrldi64_48 (m.gpr R3_RET)
    simp [unpacked_R3, run_unpack, unpack_native_result, execAll, Instr.exec, Machine.setGpr]
    simpa using h
  · simp [unpacked_R3, run_unpack, unpack_native_result, execAll, Instr.exec, Machine.setGpr]
  · unfold exts64 WORD64; norm_num; split_ifs <;> omega
  · simp [unpacked_R3, run_unpack, unpack_native_result, execAll, Instr.exec, Machine.setGpr]
  · unfold exts64 WORD64; norm_num; split_ifs <;> omega
  · simp [unpacked_R3, run_unpack, unpack_native_result, execAll, Instr.exec, Machine.setGpr]
  · unfold exts64 WORD64; norm_num; split_ifs <;> omega
  · simp [unpacked_R3, run_unpack, unpack_native_result, execAll, Instr.exec, Machine.setGpr,
      machineWithR3, exts64, toSigned64, WORD64]
  · simp [unpacked_R3, run_unpack, unpack_native_result, execAll, Instr.exec, Machine.setGpr,
      machineWithR3, exts64, toSigned64, WORD64]

/-- C3: for a return type among `T_LONG`, `T_FLOAT`, `T_DOUBLE` and `T_VOID`, without a
return buffer and with an argument shuffle that emits without error, the result-unpacking
step is empty and leaves every machine state as it is, and in the emitted code the native
call `mtctr; bctrl` is directly followed by the transition to
`_thread_in_native_trans`. -/
theorem C3_pass_through_returns (P : Platform) (g : DowncallStubGenerator)
    (hbt : g._ret_bt = .T_LONG ∨ g._ret_bt = .T_FLOAT ∨ g._ret_bt = .T_DOUBLE ∨
      g._ret_bt = .T_VOID)
    (hrb : g._needs_return_buffer = false)
    (hs : (g.arg_shuffle.generate R11_scratch1 P.jit_out_preserve_size
      g._abi._shadow_space_bytes).error = none) :
    unpack_native_result g._ret_bt = .ok [] ∧
    (∀ m : Machine, run_unpack g._ret_bt m = some m) ∧
    (g.generate P).error = none ∧
    (g.generate P).code =
      DowncallStubGenerator.prologue (g.allocated_frame_size P)
        ++ (g.arg_shuffle.generate R11_scratch1 P.jit_out_preserve_size
              g._abi._shadow_space_bytes).code
        ++ [.mtctr g._abi._target_addr_reg, .bctrl]
        ++ DowncallStubGenerator.transition_back
        ++ DowncallStubGenerator.safepoint_slow_path g._output_registers P.abi_reg_args_size
        ++ DowncallStubGenerator.reguard_slow_path g._output_registers P.abi_reg_args_size := by
  have hu : unpack_native_result g._ret_bt = .ok [] := by
    rcases hbt with h | h | h | h <;> rw [h] <;> rfl
  refine ⟨hu, ?_, ?_, ?_⟩
  · intro m
    simp [run_unpack, hu, execAll]
  · simp [DowncallStubGenerator.generate, hrb, hs, hu]
  · simp [DowncallStubGenerator.generate, hrb, hs, hu]

/-- C3 at a sample downcall returning `long`. -/
theorem C3_pass_through_returns_witness :
    unpack_native_result (sampleDowncall .T_LONG)._ret_bt = .ok [] ∧
    (∀ m : Machine, run_unpack (sampleDowncall .T_LONG)._ret_bt m = some m) ∧
    ((sampleDowncall .T_LONG).generate samplePlatform).error = none ∧
    ((sampleDowncall .T_LONG).generate samplePlatform).code =
      DowncallStubGenerator.prologue ((sampleDowncall .T_LONG).allocated_frame_size samplePlatform)
        ++ ((sampleDowncall .T_LONG).arg_shuffle.generate R11_scratch1
              samplePlatform.jit_out_preserve_size
              (sampleDowncall .T_LONG)._abi._shadow_space_bytes).code
        ++ [.mtctr (sampleDowncall .T_LONG)._abi._target_addr_reg, .bctrl]
        ++ DowncallStubGenerator.transition_back
        ++ DowncallStubGenerator.safepoint_slow_path (sampleDowncall .T_LONG)._output_registers
            samplePlatform.abi_reg_args_size
        ++ DowncallStubGenerator.reguard_slow_path (sampleDowncall .T_LONG)._output_registers
            samplePlatform.abi_reg_args_size :=
  C3_pass_through_returns samplePlatform (sampleDowncall .T_LONG) (Or.inl rfl) rfl rfl

/-! ## Upcall: the callee-saved registers -/

theorem RegSpiller.generate_append (a b : List VMReg) (off : Int) (s : Bool) :
    RegSpiller.generate (a ++ b) off s =
      RegSpiller.generate a off s ++ RegSpiller.generate b (off + 8 * a.length) s := by
  induction a generalizing off with
  | nil => simp [RegSpiller.generate]
  | cons x xs ih =>
    have e : off + 8 * ((xs.length + 1 : Nat) : Int) = off + 8 + 8 * (xs.length : Int) := by
      push_cast; ring
    simp only [List.cons_append, RegSpiller.generate, ih, RegSpiller.pd_reg_size,
      List.length_cons, List.append_assoc, e, List.append_eq]

theorem preserve_int_loop_eq (abi : ABIDescriptor) (is : List Nat) (off : Int) :
    preserve_callee_saved_registers.int_loop abi is off =
      (RegSpiller.generate ((saved_int_registers abi is).map VMReg.gpr) off true,
        off + 8 * (saved_int_registers abi is).length) := by
  induction is generalizing off with
  | nil => simp [preserve_callee_saved_registers.int_loop, saved_int_registers,
      RegSpiller.generate]
  | cons i rest ih =>
    unfold preserve_callee_saved_registers.int_loop
    simp only [saved_int_registers, List.map_cons, List.filter_cons] at ih ⊢
    by_cases h1 : as_Register i = R1_SP ∨ as_Register i = R13
    · simp [h1, ih]
    · by_cases h2 : abi.is_volatile_reg (as_Register i) = false
      · simp [h1, h2, ih, RegSpiller.generate, RegSpiller.pd_store_reg,
          RegSpiller.pd_reg_size]
        ring
      · simp [h1, h2, ih]

theorem preserve_float_loop_eq (abi : ABIDescriptor) (is : List Nat) (off : Int) :
    preserve_callee_saved_registers.float_loop abi is off =
      (RegSpiller.generate ((saved_float_registers abi is).map VMReg.fpr) off true,
        off + 8 * (saved_float_registers abi is).length) := by
  induction is generalizing off with
  | nil => simp [preserve_callee_saved_registers.float_loop, saved_float_registers,
      RegSpiller.generate]
  | cons i rest ih =>
    unfold preserve_callee_saved_registers.float_loop
    simp only [saved_float_registers, List.map_cons, List.filter_cons] at ih ⊢
    by_cases h2 : abi.is_volatile_freg (as_FloatRegister i) = false
    · simp [h2, ih, RegSpiller.generate, RegSpiller.pd_store_reg, RegSpiller.pd_reg_size]
      ring
    · simp [h2, ih]

theorem restore_int_loop_eq (abi : ABIDescriptor) (is : List Nat) (off : Int) :
    restore_callee_saved_registers.int_loop abi is off =
      (RegSpiller.generate ((saved_int_registers abi is).map VMReg.gpr) off false,
        off + 8 * (saved_int_registers abi is).length) := by
  induction is generalizing off with
  | nil => simp [restore_callee_saved_registers.int_loop, saved_int_registers,
      RegSpiller.generate]
  | cons i rest ih =>
    unfold restore_callee_saved_registers.int_loop
    simp only [saved_int_registers, List.map_cons, List.filter_cons] at ih ⊢
    by_cases h1 : as_Register i = R1_SP ∨ as_Register i = R13
    · simp [h1, ih]
    · by_cases h2 : abi.is_volatile_reg (as_Register i) = false
      · simp [h1, h2, ih, RegSpiller.generate, RegSpiller.pd_load_reg,
          RegSpiller.pd_reg_size]
        ring
      · simp [h1, h2, ih]

theorem restore_float_loop_eq (abi : ABIDescriptor) (is : List Nat) (off : Int) :
    restore_callee_saved_registers.float_loop abi is off =
      (RegSpiller.generate ((saved_float_registers abi is).map VMReg.fpr) off false,
        off + 8 * (saved_float_registers abi is).length) := by
  induction is generalizing off with
  | nil => simp [restore_callee_saved_registers.float_loop, saved_float_registers,
      RegSpiller.generate]
  | cons i rest ih =>
    unfold restore_callee_saved_registers.float_loop
    simp only [saved_float_registers, List.map_cons, List.filter_cons] at ih ⊢
    by_cases h2 : abi.is_volatile_freg (as_FloatRegister i) = false
    · simp [h2, ih, RegSpiller.generate, RegSpiller.pd_load_reg, RegSpiller.pd_reg_size]
      ring
    · simp [h2, ih]

theorem preserve_eq_generate (P : Platform) (abi : ABIDescriptor) (off : Int) :
    preserve_callee_saved_registers P abi off =
      RegSpiller.generate (callee_saved_registers P abi) off true := by
  simp [preserve_callee_saved_registers, callee_saved_registers, preserve_int_loop_eq,
    preserve_float_loop_eq, RegSpiller.generate_append]

theorem restore_eq_generate (P : Platform) (abi : ABIDescriptor) (off : Int) :
    restore_callee_saved_registers P abi off =
      RegSpiller.generate (callee_saved_registers P abi) off false := by
  simp [restore_callee_saved_registers, callee_saved_registers, restore_int_loop_eq,
    restore_float_loop_eq, RegSpiller.generate_append]

theorem std_mem_generate_spill (regs : List VMReg) (off : Int) (r : Register) :
    (∃ o, Instr.std r o R1_SP ∈ RegSpiller.generate regs off true) ↔ VMReg.gpr r ∈ regs := by
  induction regs generalizing off with
  | nil => simp [RegSpiller.generate]
  | cons x xs ih =>
    cases x <;>
      simp [RegSpiller.generate, RegSpiller.pd_store_reg, exists_or, ih, eq_comm]

theorem stfd_mem_generate_spill (regs : List VMReg) (off : Int) (f : FloatRegister) :
    (∃ o, Instr.stfd f o R1_SP ∈ RegSpiller.generate regs off true) ↔ VMReg.fpr f ∈ regs := by
  induction regs generalizing off with
  | nil => simp [RegSpiller.generate]
  | cons x xs ih =>
    cases x <;>
      simp [RegSpiller.generate, RegSpiller.pd_store_reg, exists_or, ih, eq_comm]

theorem ld_mem_generate_fill (regs : List VMReg) (off : Int) (r : Register) :
    (∃ o, Instr.ld r o R1_SP ∈ RegSpiller.generate regs off false) ↔ VMReg.gpr r ∈ regs := by
  induction regs generalizing off with
  | nil => simp [RegSpiller.generate]
  | cons x xs ih =>
    cases x <;>
      simp [RegSpiller.generate, RegSpiller.pd_load_reg, exists_or, ih, eq_comm]

theorem lfd_mem_generate_fill (regs : List VMReg) (off : Int) (f : FloatRegister) :
    (∃ o, Instr.lfd f o R1_SP ∈ RegSpiller.generate regs off false) ↔ VMReg.fpr f ∈ regs := by
  induction regs generalizing off with
  | nil => simp [RegSpiller.generate]
  | cons x xs ih =>
    cases x <;>
      simp [RegSpiller.generate, RegSpiller.pd_load_reg, exists_or, ih, eq_comm]

theorem mem_generate_spill_shape (regs : List VMReg) (off : Int) (i : Instr)
    (h : i ∈ RegSpiller.generate regs off true) :
    (∃ r o, i = Instr.std r o R1_SP) ∨ (∃ f o, i = Instr.stfd f o R1_SP) := by
  induction regs generalizing off with
  | nil => simp [RegSpiller.generate] at h
  | cons x xs ih =>
    cases x <;> simp [RegSpiller.generate, RegSpiller.pd_store_reg] at h
    · rcases h with h | h
      · exact Or.inl ⟨_, _, h⟩
      · exact ih _ h
    · rcases h with h | h
      · exact Or.inr ⟨_, _, h⟩
      · exact ih _ h
    · exact ih _ h
    · exact ih _ h

theorem mem_generate_fill_shape (regs : List VMReg) (off : Int) (i : Instr)
    (h : i ∈ RegSpiller.generate regs off false) :
    (∃ r o, i = Instr.ld r o R1_SP) ∨ (∃ f o, i = Instr.lfd f o R1_SP) := by
  induction regs generalizing off with
  | nil => simp [RegSpiller.generate] at h
  | cons x xs ih =>
    cases x <;> simp [RegSpiller.generate, RegSpiller.pd_load_reg] at h
    · rcases h with h | h
      · exact Or.inl ⟨_, _, h⟩
      · exact ih _ h
    · rcases h with h | h
      · exact Or.inr ⟨_, _, h⟩
      · exact ih _ h
    · exact ih _ h
    · exact ih _ h

theorem gpr_mem_callee_saved (P : Platform) (abi : ABIDescriptor) (r : Register) :
    VMReg.gpr r ∈ callee_saved_registers P abi ↔
      (r.encoding < P.number_of_registers ∧ r ≠ R1_SP ∧ r ≠ R13 ∧
        r ∉ abi._integer_argument_registers ∧
        r ∉ abi._integer_additional_volatile_registers) := by
  simp only [callee_saved_registers, saved_int_registers, List.mem_append, List.mem_map,
    List.mem_filter, List.mem_range, ABIDescriptor.is_volatile_reg, VMReg.gpr.injEq,
    exists_eq_right, reduceCtorEq, and_false, exists_false, or_false, as_Register]
  constructor
  · rintro ⟨⟨i, hi, rfl⟩, h⟩
    simp at h
    exact ⟨hi, h.1.1, h.1.2, h.2.1, h.2.2⟩
  · rintro ⟨h1, h2, h3, h4, h5⟩
    refine ⟨⟨r.encoding, h1, rfl⟩, ?_⟩
    simp [h2, h3, h4, h5]

theorem fpr_mem_callee_saved (P : Platform) (abi : ABIDescriptor) (f : FloatRegister) :
    VMReg.fpr f ∈ callee_saved_registers P abi ↔
      (f.encoding < P.float_number_of_registers ∧
        f ∉ abi._float_argument_registers ∧
        f ∉ abi._float_additional_volatile_registers) := by
  simp only [callee_saved_registers, saved_float_registers, List.mem_append, List.mem_map,
    List.mem_filter, List.mem_range, ABIDescriptor.is_volatile_freg, VMReg.fpr.injEq,
    exists_eq_right, reduceCtorEq, and_false, exists_false, false_or, as_FloatRegister]
  constructor
  · rintro ⟨⟨i, hi, rfl⟩, h⟩
    simp at h
    exact ⟨hi, h.1, h.2⟩
  · rintro ⟨h1, h4, h5⟩
    refine ⟨⟨f.encoding, h1, rfl⟩, ?_⟩
    simp [h4, h5]

/-- C4 (as stated, refuted): for an ABI descriptor that lists `R3` as return register and
`R12` as target address register, but neither as argument nor as additional volatile
register, both registers are stored by `preserve_callee_saved_registers` and reloaded by
`restore_callee_saved_registers`. -/
theorem C4_return_register_saved_counterexample :
    (⟨3⟩ : Register) ∈ returnOnlyABI._integer_return_registers ∧
    returnOnlyABI._target_addr_reg = ⟨12⟩ ∧
    Instr.std ⟨3⟩ 16 R1_SP ∈ preserve_callee_saved_registers samplePlatform returnOnlyABI 0 ∧
    Instr.ld ⟨3⟩ 16 R1_SP ∈ restore_callee_saved_registers samplePlatform returnOnlyABI 0 ∧
    Instr.std ⟨12⟩ 80 R1_SP ∈ preserve_callee_saved_registers samplePlatform returnOnlyABI 0 ∧
    Instr.ld ⟨12⟩ 80 R1_SP ∈ restore_callee_saved_registers samplePlatform returnOnlyABI 0 := by
  decide

/-- C4 (amended): for every ABI descriptor and save-area offset,
`preserve_callee_saved_registers` emits only stores relative to `R1_SP`, and
`restore_callee_saved_registers` only loads relative to `R1_SP`; a general purpose
register is stored (and reloaded) exactly when it is one of the
`RegisterImpl::number_of_registers` registers, is not `R1_SP`, not `R13`, and is listed
neither as integer argument register nor as integer additional volatile register; a
float register exactly when it is one of the `FloatRegisterImpl::number_of_registers`
registers and is listed neither as float argument register nor as float additional
volatile register.  Return registers and the target address register are not left out on
their own account. -/
theorem C4_callee_saved_set (P : Platform) (abi : ABIDescriptor) (off : Int) :
    (∀ i ∈ preserve_callee_saved_registers P abi off,
      (∃ r o, i = Instr.std r o R1_SP) ∨ (∃ f o, i = Instr.stfd f o R1_SP)) ∧
    (∀ i ∈ restore_callee_saved_registers P abi off,
      (∃ r o, i = Instr.ld r o R1_SP) ∨ (∃ f o, i = Instr.lfd f o R1_SP)) ∧
    (∀ r : Register,
      ((∃ o, Instr.std r o R1_SP ∈ preserve_callee_saved_registers P abi off) ↔
        (r.encoding < P.number_of_registers ∧ r ≠ R1_SP ∧ r ≠ R13 ∧
          r ∉ abi._integer_argument_registers ∧
          r ∉ abi._integer_additional_volatile_registers)) ∧
      ((∃ o, Instr.ld r o R1_SP ∈ restore_callee_saved_registers P abi off) ↔
        (r.encoding < P.number_of_registers ∧ r ≠ R1_SP ∧ r ≠ R13 ∧
          r ∉ abi._integer_argument_registers ∧
          r ∉ abi._integer_additional_volatile_registers))) ∧
    (∀ f : FloatRegister,
      ((∃ o, Instr.stfd f o R1_SP ∈ preserve_callee_saved_registers P abi off) ↔
        (f.encoding < P.float_number_of_registers ∧
          f ∉ abi._float_argument_registers ∧
          f ∉ abi._float_additional_volatile_registers)) ∧
      ((∃ o, Instr.lfd f o R1_SP ∈ restore_callee_saved_registers P abi off) ↔
        (f.encoding < P.float_number_of_registers ∧
          f ∉ abi._float_argument_registers ∧
          f ∉ abi._float_additional_volatile_registers))) := by
  rw [preserve_eq_generate, restore_eq_generate]
  refine ⟨fun i h => mem_generate_spill_shape _ _ i h,
    fun i h => mem_generate_fill_shape _ _ i h, fun r => ⟨?_, ?_⟩, fun f => ⟨?_, ?_⟩⟩
  · rw [std_mem_generate_spill, gpr_mem_callee_saved]
  · rw [ld_mem_generate_fill, gpr_mem_callee_saved]
  · rw [stfd_mem_generate_spill, fpr_mem_callee_saved]
  · rw [lfd_mem_generate_fill, fpr_mem_callee_saved]

/-! ## Memory: doublewords and the save area -/

theorem dword_bytes (v : Nat) (h : v < 2 ^ 64) :
    (byteOf v 0 % 256) * 2 ^ 56 + (byteOf v 1 % 256) * 2 ^ 48 +
    (byteOf v 2 % 256) * 2 ^ 40 + (byteOf v 3 % 256) * 2 ^ 32 +
    (byteOf v 4 % 256) * 2 ^ 24 + (byteOf v 5 % 256) * 2 ^ 16 +
    (byteOf v 6 % 256) * 2 ^ 8 + byteOf v 7 % 256 = v := by
  unfold byteOf
  have e1 : v / 2 ^ 8 = v / 256 := by norm_num
  have e2 : v / 2 ^ 16 = v / 256 / 256 := by simp only [Nat.div_div_eq_div_mul]; norm_num
  have e3 : v / 2 ^ 24 = v / 256 / 256 / 256 := by
    simp only [Nat.div_div_eq_div_mul]; norm_num
  have e4 : v / 2 ^ 32 = v / 256 / 256 / 256 / 256 := by
    simp only [Nat.div_div_eq_div_mul]; norm_num
  have e5 : v / 2 ^ 40 = v / 256 / 256 / 256 / 256 / 256 := by
    simp only [Nat.div_div_eq_div_mul]; norm_num
  have e6 : v / 2 ^ 48 = v / 256 / 256 / 256 / 256 / 256 / 256 := by
    simp only [Nat.div_div_eq_div_mul]; norm_num
  have e7 : v / 2 ^ 56 = v / 256 / 256 / 256 / 256 / 256 / 256 / 256 := by
    simp only [Nat.div_div_eq_div_mul]; norm_num
  have s0 : 8 * (7 - 0) = 56 := rfl
  have s1 : 8 * (7 - 1) = 48 := rfl
  have s2 : 8 * (7 - 2) = 40 := rfl
  have s3 : 8 * (7 - 3) = 32 := rfl
  have s4 : 8 * (7 - 4) = 24 := rfl
  have s5 : 8 * (7 - 5) = 16 := rfl
  have s6 : 8 * (7 - 6) = 8 := rfl
  have s7 : 8 * (7 - 7) = 0 := rfl
  rw [s0, s1, s2, s3, s4, s5, s6, s7, e1, e2, e3, e4, e5, e6, e7]
  norm_num
  omega

theorem storeDword_hit (mem : Nat → Nat) (a v : Nat) :
    storeDword mem a v (a % WORD64) = byteOf v 0 ∧
    storeDword mem a v ((a + 1) % WORD64) = byteOf v 1 ∧
    storeDword mem a v ((a + 2) % WORD64) = byteOf v 2 ∧
    storeDword mem a v ((a + 3) % WORD64) = byteOf v 3 ∧
    storeDword mem a v ((a + 4) % WORD64) = byteOf v 4 ∧
    storeDword mem a v ((a + 5) % WORD64) = byteOf v 5 ∧
    storeDword mem a v ((a + 6) % WORD64) = byteOf v 6 ∧
    storeDword mem a v ((a + 7) % WORD64) = byteOf v 7 := by
  simp only [storeDword, WORD64]
  refine ⟨?_, ?_, ?_, ?_, ?_, ?_, ?_, ?_⟩ <;>
    (split_ifs <;> first | rfl | (exfalso; omega))

theorem loadDword_storeDword (mem : Nat → Nat) (a v : Nat) (h : v < 2 ^ 64) :
    loadDword (storeDword mem a v) a = v := by
  obtain ⟨h0, h1, h2, h3, h4, h5, h6, h7⟩ := storeDword_hit mem a v
  unfold loadDword
  rw [h0, h1, h2, h3, h4, h5, h6, h7]
  exact dword_bytes v h

theorem byteOf_mod (v i : Nat) (hi : i < 8) : byteOf (v % 2 ^ 64) i = byteOf v i := by
  unfold byteOf
  have h : 2 ^ 64 = 2 ^ (8 * (7 - i)) * 2 ^ (64 - 8 * (7 - i)) := by
    rw [← pow_add]
    congr 1
    omega
  have h256 : (256 : Nat) ∣ 2 ^ (64 - 8 * (7 - i)) := by
    have : 64 - 8 * (7 - i) = 8 + (8 * i) := by omega
    rw [this, pow_add]
    exact Dvd.intro _ rfl
  rw [h, Nat.mod_mul_right_div_self, Nat.mod_mod_of_dvd _ h256]

theorem loadDword_storeDword_mod (mem : Nat → Nat) (a v : Nat) :
    loadDword (storeDword mem a v) a = v % 2 ^ 64 := by
  have e : storeDword mem a v = storeDword mem a (v % 2 ^ 64) := by
    funext x
    simp only [storeDword, byteOf_mod v _ (by norm_num : 0 < 8),
      byteOf_mod v _ (by norm_num : 1 < 8), byteOf_mod v _ (by norm_num : 2 < 8),
      byteOf_mod v _ (by norm_num : 3 < 8), byteOf_mod v _ (by norm_num : 4 < 8),
      byteOf_mod v _ (by norm_num : 5 < 8), byteOf_mod v _ (by norm_num : 6 < 8),
      byteOf_mod v _ (by norm_num : 7 < 8)]
  rw [e]
  exact loadDword_storeDword mem a _ (Nat.mod_lt _ (by norm_num))

theorem storeDword_miss (mem : Nat → Nat) (a v x : Nat)
    (h : ∀ j : Nat, j < 8 → x ≠ (a + j) % WORD64) : storeDword mem a v x = mem x := by
  have h0 := h 0 (by norm_num)
  have h1 := h 1 (by norm_num)
  have h2 := h 2 (by norm_num)
  have h3 := h 3 (by norm_num)
  have h4 := h 4 (by norm_num)
  have h5 := h 5 (by norm_num)
  have h6 := h 6 (by norm_num)
  have h7 := h 7 (by norm_num)
  simp only [Nat.add_zero] at h0
  simp only [storeDword, if_neg h0, if_neg h1, if_neg h2, if_neg h3, if_neg h4, if_neg h5,
    if_neg h6, if_neg h7]

theorem loadDword_congr (mem1 mem2 : Nat → Nat) (a : Nat)
    (h : ∀ j : Nat, j < 8 → mem1 ((a + j) % WORD64) = mem2 ((a + j) % WORD64)) :
    loadDword mem1 a = loadDword mem2 a := by
  have h0 := h 0 (by norm_num)
  have h1 := h 1 (by norm_num)
  have h2 := h 2 (by norm_num)
  have h3 := h 3 (by norm_num)
  have h4 := h 4 (by norm_num)
  have h5 := h 5 (by norm_num)
  have h6 := h 6 (by norm_num)
  have h7 := h 7 (by norm_num)
  simp only [Nat.add_zero] at h0
  simp only [loadDword, h0, h1, h2, h3, h4, h5, h6, h7]

theorem effAddr_add (m : Machine) (base : Register) (off : Int) (j : Nat) :
    (effAddr m base off + j) % WORD64 = effAddr m base (off + j) := by
  unfold effAddr WORD64
  norm_num
  omega

theorem effAddr_congr (m1 m2 : Machine) (base : Register) (off : Int)
    (h : m1.gpr base = m2.gpr base) : effAddr m1 base off = effAddr m2 base off := by
  unfold effAddr
  rw [h]

theorem effAddr_ne (m : Machine) (base : Register) (off : Int) (j k n : Nat) (hj : j < 8)
    (hk : k < 8 * n) (hn : 8 * (n + 1) ≤ 2 ^ 64) :
    effAddr m base (off + j) ≠ effAddr m base (off + 8 + k) := by
  unfold effAddr WORD64
  norm_num
  omega

theorem execAll_cons (i : Instr) (rest : List Instr) (m m1 : Machine)
    (h : i.exec m = some m1) : execAll (i :: rest) m = execAll rest m1 := by
  simp [execAll, h]

/-- A spill sequence runs to completion, leaves the registers as they are and writes only
into the `8 * regs.length` bytes starting at `R1_SP + off`. -/
theorem exec_spill (regs : List VMReg) (off : Int) (m : Machine) :
    ∃ m1, execAll (RegSpiller.generate regs off true) m = some m1 ∧
      m1.gpr = m.gpr ∧ m1.fpr = m.fpr ∧
      ∀ x, (∀ k : Nat, k < 8 * regs.length → x ≠ effAddr m R1_SP (off + k)) →
        m1.mem x = m.mem x := by
  induction regs generalizing off m with
  | nil => exact ⟨m, rfl, rfl, rfl, fun _ _ => rfl⟩
  | cons v rest ih =>
    have frame : ∀ (val : Nat) (m1 : Machine),
        m1.gpr = m.gpr → m1.fpr = m.fpr →
        m1.mem = storeDword m.mem (effAddr m R1_SP off) val →
        ∃ m2, execAll (RegSpiller.generate rest (off + 8) true) m1 = some m2 ∧
          m2.gpr = m.gpr ∧ m2.fpr = m.fpr ∧
          ∀ x, (∀ k : Nat, k < 8 * (rest.length + 1) → x ≠ effAddr m R1_SP (off + k)) →
            m2.mem x = m.mem x := by
      intro val m1 hg hf hm
      obtain ⟨m2, e2, g2, f2, fr2⟩ := ih (off + 8) m1
      refine ⟨m2, e2, g2.trans hg, f2.trans hf, ?_⟩
      intro x hx
      have hx1 : ∀ k : Nat, k < 8 * rest.length → x ≠ effAddr m1 R1_SP (off + 8 + k) := by
        intro k hk
        have := hx (8 + k) (by omega)
        rw [effAddr_congr m1 m R1_SP _ (by rw [hg])]
        have e : off + ((8 + k : Nat) : Int) = off + 8 + (k : Int) := by push_cast; ring
        rwa [e] at this
      rw [fr2 x hx1, hm]
      apply storeDword_miss
      intro j hj
      rw [effAddr_add]
      exact hx j (by omega)
    cases v with
    | gpr r =>
      simp only [RegSpiller.generate, RegSpiller.pd_store_reg, RegSpiller.pd_reg_size,
        if_true, List.singleton_append, List.length_cons]
      rw [execAll_cons (.std r off R1_SP) _ m
        { m with mem := storeDword m.mem (effAddr m R1_SP off) (m.gpr r) } rfl]
      exact frame (m.gpr r) _ rfl rfl rfl
    | fpr f =>
      simp only [RegSpiller.generate, RegSpiller.pd_store_reg, RegSpiller.pd_reg_size,
        if_true, List.singleton_append, List.length_cons]
      rw [execAll_cons (.stfd f off R1_SP) _ m
        { m with mem := storeDword m.mem (effAddr m R1_SP off) (m.fpr f) } rfl]
      exact frame (m.fpr f) _ rfl rfl rfl
    | stack s =>
      simp only [RegSpiller.generate, RegSpiller.pd_store_reg, RegSpiller.pd_reg_size,
        if_true, List.nil_append, List.length_cons]
      obtain ⟨m2, e2, g2, f2, fr2⟩ := ih (off + 8) m
      refine ⟨m2, e2, g2, f2, ?_⟩
      intro x hx
      apply fr2
      intro k hk
      have := hx (8 + k) (by omega)
      have e : off + ((8 + k : Nat) : Int) = off + 8 + (k : Int) := by push_cast; ring
      rwa [e] at this
    | bad =>
      simp only [RegSpiller.generate, RegSpiller.pd_store_reg, RegSpiller.pd_reg_size,
        if_true, List.nil_append, List.length_cons]
      obtain ⟨m2, e2, g2, f2, fr2⟩ := ih (off + 8) m
      refine ⟨m2, e2, g2, f2, ?_⟩
      intro x hx
      apply fr2
      intro k hk
      have := hx (8 + k) (by omega)
      have e : off + ((8 + k : Nat) : Int) = off + 8 + (k : Int) := by push_cast; ring
      rwa [e] at this

/-- What a load from the first slot of a save area yields once the rest of the area has
been written as well and the area has not changed since. -/
theorem first_slot_value (rest : List VMReg) (off : Int) (m0 m0a m1 m2 : Machine) (val : Nat)
    (hg : m0a.gpr = m0.gpr)
    (hm : m0a.mem = storeDword m0.mem (effAddr m0 R1_SP off) val)
    (hval : val < 2 ^ 64)
    (h1 : execAll (RegSpiller.generate rest (off + 8) true) m0a = some m1)
    (hlen : 8 * (rest.length + 1) ≤ 2 ^ 64)
    (hsp2 : m2.gpr R1_SP = m0.gpr R1_SP)
    (hmem : ∀ k : Nat, k < 8 * (rest.length + 1) →
      m2.mem (effAddr m0 R1_SP (off + k)) = m1.mem (effAddr m0 R1_SP (off + k))) :
    loadDword m2.mem (effAddr m2 R1_SP off) = val := by
  rw [effAddr_congr m2 m0 R1_SP off hsp2]
  obtain ⟨m1a, e1, _, _, fr⟩ := exec_spill rest (off + 8) m0a
  rw [h1] at e1
  cases e1
  have step1 : loadDword m2.mem (effAddr m0 R1_SP off) =
      loadDword m1.mem (effAddr m0 R1_SP off) := by
    apply loadDword_congr
    intro j hj
    rw [effAddr_add]
    exact hmem j (by omega)
  have step2 : loadDword m1.mem (effAddr m0 R1_SP off) =
      loadDword m0a.mem (effAddr m0 R1_SP off) := by
    apply loadDword_congr
    intro j hj
    rw [effAddr_add]
    apply fr
    intro k hk
    rw [effAddr_congr m0a m0 R1_SP _ (by rw [hg])]
    exact effAddr_ne m0 R1_SP off j k rest.length hj hk hlen
  rw [step1, step2, hm]
  exact loadDword_storeDword _ _ _ hval

/-- Spill, arbitrary changes of the registers, then fill: every register of the list has
its value from before the spill again, provided the list has no repetition and does not
contain `R1_SP`, the stack pointer is the same and the save area is unchanged. -/
theorem spill_fill_round_trip (regs : List VMReg) (off : Int) (m0 m1 m2 : Machine)
    (hnd : regs.Nodup) (hsp : VMReg.gpr R1_SP ∉ regs) (hlen : 8 * regs.length ≤ 2 ^ 64)
    (hg : ∀ r, m0.gpr r < 2 ^ 64) (hf : ∀ f, m0.fpr f < 2 ^ 64)
    (h1 : execAll (RegSpiller.generate regs off true) m0 = some m1)
    (hsp2 : m2.gpr R1_SP = m0.gpr R1_SP)
    (hmem : ∀ k : Nat, k < 8 * regs.length →
      m2.mem (effAddr m0 R1_SP (off + k)) = m1.mem (effAddr m0 R1_SP (off + k))) :
    ∃ m3, execAll (RegSpiller.generate regs off false) m2 = some m3 ∧ m3.mem = m2.mem ∧
      (∀ r, m3.gpr r = if VMReg.gpr r ∈ regs then m0.gpr r else m2.gpr r) ∧
      (∀ f, m3.fpr f = if VMReg.fpr f ∈ regs then m0.fpr f else m2.fpr f) := by
  induction regs generalizing off m0 m2 with
  | nil => exact ⟨m2, rfl, rfl, fun _ => by simp, fun _ => by simp⟩
  | cons v rest ih =>
    have hnd1 : rest.Nodup := (List.nodup_cons.mp hnd).2
    have hv : v ∉ rest := (List.nodup_cons.mp hnd).1
    have hsp1 : VMReg.gpr R1_SP ∉ rest := fun h => hsp (List.mem_cons_of_mem _ h)
    have hlen1 : 8 * rest.length ≤ 2 ^ 64 := by
      simp only [List.length_cons] at hlen; omega
    have hlen2 : 8 * (rest.length + 1) ≤ 2 ^ 64 := by
      simpa only [List.length_cons] using hlen
    have shift : ∀ k : Nat, off + ((8 + k : Nat) : Int) = off + 8 + (k : Int) := by
      intro k; push_cast; ring
    have hmem1 : ∀ k : Nat, k < 8 * rest.length →
        m2.mem (effAddr m0 R1_SP (off + 8 + k)) = m1.mem (effAddr m0 R1_SP (off + 8 + k)) := by
      intro k hk
      have := hmem (8 + k) (by simp only [List.length_cons]; omega)
      rwa [shift] at this
    cases v with
    | gpr r0 =>
      have hr0 : r0 ≠ R1_SP := by
        intro h; apply hsp; rw [h]; exact List.mem_cons_self _ _
      simp only [RegSpiller.generate, RegSpiller.pd_store_reg, RegSpiller.pd_load_reg,
        RegSpiller.pd_reg_size, if_true, List.singleton_append] at h1 ⊢
      rw [execAll_cons (.std r0 off R1_SP) _ m0
        { m0 with mem := storeDword m0.mem (effAddr m0 R1_SP off) (m0.gpr r0) } rfl] at h1
      simp only [Bool.false_eq_true, if_false, List.singleton_append]
      rw [execAll_cons (.ld r0 off R1_SP) _ m2
        (m2.setGpr r0 (loadDword m2.mem (effAddr m2 R1_SP off))) rfl]
      have hval := first_slot_value rest off m0
        { m0 with mem := storeDword m0.mem (effAddr m0 R1_SP off) (m0.gpr r0) } m1 m2
        (m0.gpr r0) rfl rfl (hg r0) h1 hlen2
        hsp2 (by simpa only [List.length_cons] using hmem)
      obtain ⟨m3, e3, hm3, hg3, hf3⟩ := ih (off + 8)
        { m0 with mem := storeDword m0.mem (effAddr m0 R1_SP off) (m0.gpr r0) }
        (m2.setGpr r0 (loadDword m2.mem (effAddr m2 R1_SP off)))
        hnd1 hsp1 hlen1 hg hf h1
        (by simp [Machine.setGpr, hr0.symm, hsp2]) hmem1
      refine ⟨m3, e3, hm3, ?_, ?_⟩
      · intro r
        rw [hg3 r]
        by_cases hr : r = r0
        · subst hr
          simp [hv, Machine.setGpr, hval]
        · have : (VMReg.gpr r ∈ VMReg.gpr r0 :: rest) ↔ VMReg.gpr r ∈ rest := by
            simp [hr]
          simp only [this, Machine.setGpr, if_neg hr]
      · intro f
        rw [hf3 f]
        have : (VMReg.fpr f ∈ VMReg.gpr r0 :: rest) ↔ VMReg.fpr f ∈ rest := by simp
        simp only [this, Machine.setGpr]
    | fpr f0 =>
      simp only [RegSpiller.generate, RegSpiller.pd_store_reg, RegSpiller.pd_load_reg,
        RegSpiller.pd_reg_size, if_true, List.singleton_append] at h1 ⊢
      rw [execAll_cons (.stfd f0 off R1_SP) _ m0
        { m0 with mem := storeDword m0.mem (effAddr m0 R1_SP off) (m0.fpr f0) } rfl] at h1
      simp only [Bool.false_eq_true, if_false, List.singleton_append]
      rw [execAll_cons (.lfd f0 off R1_SP) _ m2
        (m2.setFpr f0 (loadDword m2.mem (effAddr m2 R1_SP off))) rfl]
      have hval := first_slot_value rest off m0
        { m0 with mem := storeDword m0.mem (effAddr m0 R1_SP off) (m0.fpr f0) } m1 m2
        (m0.fpr f0) rfl rfl (hf f0) h1 hlen2
        hsp2 (by simpa only [List.length_cons] using hmem)
      obtain ⟨m3, e3, hm3, hg3, hf3⟩ := ih (off + 8)
        { m0 with mem := storeDword m0.mem (effAddr m0 R1_SP off) (m0.fpr f0) }
        (m2.setFpr f0 (loadDword m2.mem (effAddr m2 R1_SP off)))
        hnd1 hsp1 hlen1 hg hf h1 (by simp [Machine.setFpr, hsp2]) hmem1
      refine ⟨m3, e3, hm3, ?_, ?_⟩
      · intro r
        rw [hg3 r]
        have : (VMReg.gpr r ∈ VMReg.fpr f0 :: rest) ↔ VMReg.gpr r ∈ rest := by simp
        simp only [this, Machine.setFpr]
      · intro f
        rw [hf3 f]
        by_cases hr : f = f0
        · subst hr
          simp [hv, Machine.setFpr, hval]
        · have : (VMReg.fpr f ∈ VMReg.fpr f0 :: rest) ↔ VMReg.fpr f ∈ rest := by
            simp [hr]
          simp only [this, Machine.setFpr, if_neg hr]
    | stack s =>
      simp only [RegSpiller.generate, RegSpiller.pd_store_reg, RegSpiller.pd_load_reg,
        RegSpiller.pd_reg_size, if_true, List.nil_append] at h1 ⊢
      simp only [Bool.false_eq_true, if_false, List.nil_append]
      obtain ⟨m3, e3, hm3, hg3, hf3⟩ := ih (off + 8) m0 m2 hnd1 hsp1 hlen1 hg hf h1 hsp2 hmem1
      refine ⟨m3, e3, hm3, ?_, ?_⟩
      · intro r
        have : (VMReg.gpr r ∈ VMReg.stack s :: rest) ↔ VMReg.gpr r ∈ rest := by simp
        simp only [this, hg3 r]
      · intro f
        have : (VMReg.fpr f ∈ VMReg.stack s :: rest) ↔ VMReg.fpr f ∈ rest := by simp
        simp only [this, hf3 f]
    | bad =>
      simp only [RegSpiller.generate, RegSpiller.pd_store_reg, RegSpiller.pd_load_reg,
        RegSpiller.pd_reg_size, if_true, List.nil_append] at h1 ⊢
      simp only [Bool.false_eq_true, if_false, List.nil_append]
      obtain ⟨m3, e3, hm3, hg3, hf3⟩ := ih (off + 8) m0 m2 hnd1 hsp1 hlen1 hg hf h1 hsp2 hmem1
      refine ⟨m3, e3, hm3, ?_, ?_⟩
      · intro r
        have : (VMReg.gpr r ∈ VMReg.bad :: rest) ↔ VMReg.gpr r ∈ rest := by simp
        simp only [this, hg3 r]
      · intro f
        have : (VMReg.fpr f ∈ VMReg.bad :: rest) ↔ VMReg.fpr f ∈ rest := by simp
        simp only [this, hf3 f]

/-! ## Upcall: save and restore -/

theorem generate_fill_eq_map_toLoad (regs : List VMReg) (off : Int) :
    RegSpiller.generate regs off false =
      (RegSpiller.generate regs off true).map Instr.toLoad := by
  induction regs generalizing off with
  | nil => rfl
  | cons v rest ih =>
    cases v <;>
      simp [RegSpiller.generate, RegSpiller.pd_store_reg, RegSpiller.pd_load_reg,
        Instr.toLoad, ih]

theorem generate_slot_lower_bound (regs : List VMReg) (off : Int) (s : Bool) (i : Instr)
    (h : i ∈ RegSpiller.generate regs off s) :
    ∃ a, i.slotOffset = some a ∧ off ≤ a := by
  induction regs generalizing off with
  | nil => simp [RegSpiller.generate] at h
  | cons v rest ih =>
    have tail : i ∈ RegSpiller.generate rest (off + 8) s → ∃ a, i.slotOffset = some a ∧ off ≤ a := by
      intro h1
      obtain ⟨a, ha, hle⟩ := ih (off + 8) h1
      exact ⟨a, ha, by omega⟩
    cases v <;> cases s <;>
      simp [RegSpiller.generate, RegSpiller.pd_store_reg, RegSpiller.pd_load_reg,
        RegSpiller.pd_reg_size] at h
    all_goals first
      | exact tail h
      | (rcases h with h | h
         · exact ⟨off, by rw [h]; rfl, le_refl _⟩
         · exact tail h)

theorem generate_slots_pairwise (regs : List VMReg) (off : Int) (s : Bool) :
    (RegSpiller.generate regs off s).Pairwise
      (fun i j => ∃ a b, i.slotOffset = some a ∧ j.slotOffset = some b ∧ a + 8 ≤ b) := by
  induction regs generalizing off with
  | nil => simp [RegSpiller.generate]
  | cons v rest ih =>
    have head : ∀ i : Instr, i.slotOffset = some off →
        (i :: RegSpiller.generate rest (off + 8) s).Pairwise
          (fun i j => ∃ a b, i.slotOffset = some a ∧ j.slotOffset = some b ∧ a + 8 ≤ b) := by
      intro i hi
      refine List.pairwise_cons.mpr ⟨?_, ih (off + 8)⟩
      intro j hj
      obtain ⟨b, hb, hle⟩ := generate_slot_lower_bound rest (off + 8) s j hj
      exact ⟨off, b, hi, hb, hle⟩
    cases v <;> cases s <;>
      simp only [RegSpiller.generate, RegSpiller.pd_store_reg, RegSpiller.pd_load_reg,
        RegSpiller.pd_reg_size, if_true, Bool.false_eq_true, if_false, List.singleton_append,
        List.nil_append]
    all_goals first
      | exact ih (off + 8)
      | exact head _ rfl

theorem callee_saved_nodup (P : Platform) (abi : ABIDescriptor) :
    (callee_saved_registers P abi).Nodup := by
  unfold callee_saved_registers saved_int_registers saved_float_registers
  rw [List.nodup_append]
  refine ⟨?_, ?_, ?_⟩
  · apply List.Nodup.map
    · intro a b h; cases h; rfl
    · apply List.Nodup.filter
      apply List.Nodup.map
      · intro a b h; simpa [as_Register] using h
      · exact List.nodup_range _
  · apply List.Nodup.map
    · intro a b h; cases h; rfl
    · apply List.Nodup.filter
      apply List.Nodup.map
      · intro a b h; simpa [as_FloatRegister] using h
      · exact List.nodup_range _
  · intro x hx hy
    simp only [List.mem_map] at hx hy
    obtain ⟨r, _, rfl⟩ := hx
    obtain ⟨f, _, hf⟩ := hy
    cases hf

theorem callee_saved_length_le (P : Platform) (abi : ABIDescriptor) :
    (callee_saved_registers P abi).length ≤
      P.number_of_registers + P.float_number_of_registers := by
  unfold callee_saved_registers saved_int_registers saved_float_registers
  simp only [List.length_append, List.length_map]
  have h1 := List.length_filter_le
    (fun reg => !(decide (reg = R1_SP ∨ reg = R13)) && !(abi.is_volatile_reg reg))
    ((List.range P.number_of_registers).map as_Register)
  have h2 := List.length_filter_le (fun reg => !(abi.is_volatile_freg reg))
    ((List.range P.float_number_of_registers).map as_FloatRegister)
  simp only [List.length_map, List.length_range] at h1 h2
  omega

theorem compute_int_loop_eq (abi : ABIDescriptor) (is : List Nat) (size : Int) :
    compute_reg_save_area_size.int_loop abi is size =
      size + 8 * (saved_int_registers abi is).length := by
  induction is generalizing size with
  | nil => simp [compute_reg_save_area_size.int_loop, saved_int_registers]
  | cons i rest ih =>
    unfold compute_reg_save_area_size.int_loop
    simp only [saved_int_registers, List.map_cons, List.filter_cons] at ih ⊢
    by_cases h1 : as_Register i = R1_SP ∨ as_Register i = R13
    · simp [h1, ih]
    · by_cases h2 : abi.is_volatile_reg (as_Register i) = false
      · simp [h1, h2, ih]
        ring
      · simp [h1, h2, ih]

theorem compute_float_loop_eq (abi : ABIDescriptor) (is : List Nat) (size : Int) :
    compute_reg_save_area_size.float_loop abi is size =
      size + 8 * (saved_float_registers abi is).length := by
  induction is generalizing size with
  | nil => simp [compute_reg_save_area_size.float_loop, saved_float_registers]
  | cons i rest ih =>
    unfold compute_reg_save_area_size.float_loop
    simp only [saved_float_registers, List.map_cons, List.filter_cons] at ih ⊢
    by_cases h2 : abi.is_volatile_freg (as_FloatRegister i) = false
    · simp [h2, ih]
      ring
    · simp [h2, ih]

theorem compute_reg_save_area_size_eq (P : Platform) (abi : ABIDescriptor) :
    compute_reg_save_area_size P abi = 8 * ((callee_saved_registers P abi).length : Int) := by
  simp only [compute_reg_save_area_size, compute_int_loop_eq, compute_float_loop_eq,
    callee_saved_registers, List.length_append, List.length_map]
  push_cast
  ring

/-- C5: for every ABI descriptor and save-area offset, `restore_callee_saved_registers`
emits, in the same order, a load for every store of `preserve_callee_saved_registers`,
with the same register and the same offset from `R1_SP`; the stores go to pairwise
disjoint 8-byte slots at ascending offsets; the preserve sequence runs to completion, and
the restore sequence, run with the same stack pointer on any state whose memory agrees
with the one left by the preserve sequence inside the save area, runs to completion and
gives every saved register (every register below the register count that is not `R1_SP`,
not `R13` and not volatile for the ABI) the value it had before the preserve sequence,
whatever the registers held in between. -/
theorem C5_save_restore_round_trip (P : Platform) (abi : ABIDescriptor) (off : Int)
    (m0 : Machine)
    (hsize : 8 * (P.number_of_registers + P.float_number_of_registers) ≤ 2 ^ 64)
    (hg : ∀ r, m0.gpr r < 2 ^ 64) (hf : ∀ f, m0.fpr f < 2 ^ 64) :
    restore_callee_saved_registers P abi off =
      (preserve_callee_saved_registers P abi off).map Instr.toLoad ∧
    (preserve_callee_saved_registers P abi off).Pairwise
      (fun i j => ∃ a b, i.slotOffset = some a ∧ j.slotOffset = some b ∧ a + 8 ≤ b) ∧
    ∃ m1, execAll (preserve_callee_saved_registers P abi off) m0 = some m1 ∧
      ∀ m2 : Machine, m2.gpr R1_SP = m0.gpr R1_SP →
        (∀ k : Nat, (k : Int) < compute_reg_save_area_size P abi →
          m2.mem (effAddr m0 R1_SP (off + k)) = m1.mem (effAddr m0 R1_SP (off + k))) →
        ∃ m3, execAll (restore_callee_saved_registers P abi off) m2 = some m3 ∧
          m3.gpr R1_SP = m0.gpr R1_SP ∧
          (∀ r : Register, r.encoding < P.number_of_registers → r ≠ R1_SP → r ≠ R13 →
            abi.is_volatile_reg r = false → m3.gpr r = m0.gpr r) ∧
          (∀ f : FloatRegister, f.encoding < P.float_number_of_registers →
            abi.is_volatile_freg f = false → m3.fpr f = m0.fpr f) := by
  rw [preserve_eq_generate, restore_eq_generate]
  refine ⟨generate_fill_eq_map_toLoad _ _, generate_slots_pairwise _ _ _, ?_⟩
  obtain ⟨m1, e1, _, _, _⟩ := exec_spill (callee_saved_registers P abi) off m0
  refine ⟨m1, e1, ?_⟩
  intro m2 hsp2 hmem
  have hlen : 8 * (callee_saved_registers P abi).length ≤ 2 ^ 64 := by
    have := callee_saved_length_le P abi
    omega
  have hsp : VMReg.gpr R1_SP ∉ callee_saved_registers P abi := by
    rw [gpr_mem_callee_saved]
    intro h
    exact h.2.1 rfl
  obtain ⟨m3, e3, _, hg3, hf3⟩ := spill_fill_round_trip (callee_saved_registers P abi) off
    m0 m1 m2 (callee_saved_nodup P abi) hsp hlen hg hf e1 hsp2 (by
      intro k hk
      apply hmem
      rw [compute_reg_save_area_size_eq]
      exact_mod_cast hk)
  refine ⟨m3, e3, ?_, ?_, ?_⟩
  · rw [hg3, if_neg hsp, hsp2]
  · intro r h1 h2 h3 h4
    have hin : VMReg.gpr r ∈ callee_saved_registers P abi := by
      rw [gpr_mem_callee_saved]
      simp [ABIDescriptor.is_volatile_reg] at h4
      exact ⟨h1, h2, h3, h4.1, h4.2⟩
    rw [hg3, if_pos hin]
  · intro f h1 h4
    have hin : VMReg.fpr f ∈ callee_saved_registers P abi := by
      rw [fpr_mem_callee_saved]
      simp [ABIDescriptor.is_volatile_freg] at h4
      exact ⟨h1, h4.1, h4.2⟩
    rw [hf3, if_pos hin]

/-- C5 at the sample ABI, save area at offset 128, registers all zero except `R3`. -/
theorem C5_save_restore_round_trip_witness :
    restore_callee_saved_registers samplePlatform sampleABI 128 =
      (preserve_callee_saved_registers samplePlatform sampleABI 128).map Instr.toLoad ∧
    (preserve_callee_saved_registers samplePlatform sampleABI 128).Pairwise
      (fun i j => ∃ a b, i.slotOffset = some a ∧ j.slotOffset = some b ∧ a + 8 ≤ b) ∧
    ∃ m1, execAll (preserve_callee_saved_registers samplePlatform sampleABI 128)
        (machineWithR3 7) = some m1 ∧
      ∀ m2 : Machine, m2.gpr R1_SP = (machineWithR3 7).gpr R1_SP →
        (∀ k : Nat, (k : Int) < compute_reg_save_area_size samplePlatform sampleABI →
          m2.mem (effAddr (machineWithR3 7) R1_SP (128 + k)) =
            m1.mem (effAddr (machineWithR3 7) R1_SP (128 + k))) →
        ∃ m3, execAll (restore_callee_saved_registers samplePlatform sampleABI 128) m2
            = some m3 ∧
          m3.gpr R1_SP = (machineWithR3 7).gpr R1_SP ∧
          (∀ r : Register, r.encoding < samplePlatform.number_of_registers → r ≠ R1_SP →
            r ≠ R13 → sampleABI.is_volatile_reg r = false →
            m3.gpr r = (machineWithR3 7).gpr r) ∧
          (∀ f : FloatRegister, f.encoding < samplePlatform.float_number_of_registers →
            sampleABI.is_volatile_freg f = false → m3.fpr f = (machineWithR3 7).fpr f) :=
  C5_save_restore_round_trip samplePlatform sampleABI 128 (machineWithR3 7)
    (by decide)
    (fun r => by simp only [machineWithR3]; split <;> norm_num)
    (fun f => by simp only [machineWithR3]; norm_num)

/-! ## Frame layout and frame size -/

theorem align_up_spec (size a : Int) (ha : 0 < a) :
    size ≤ align_up size a ∧ align_up size a < size + a ∧ a ∣ align_up size a := by
  unfold align_up
  have h1 := Int.ediv_mul_le (size + a - 1) (ne_of_gt ha)
  have h2 := Int.lt_ediv_add_one_mul_self (size + a - 1) ha
  refine ⟨?_, ?_, Dvd.intro_left _ rfl⟩
  · have : ((size + a - 1) / a + 1) * a = (size + a - 1) / a * a + a := by ring
    omega
  · omega

theorem compute_reg_save_area_size_nonneg (P : Platform) (abi : ABIDescriptor) :
    0 ≤ compute_reg_save_area_size P abi := by
  rw [compute_reg_save_area_size_eq]
  positivity

/-- C6: for every ABI descriptor, non-negative stack slot counts, spill sizes and
return-buffer size, and a positive stack alignment, the regions computed in
`UpcallLinker::make_upcall_stub` are pairwise disjoint byte ranges, each inside
`[0, frame_size)`, and the outgoing-argument area starts at offset 0. -/
theorem C6_upcall_frame_layout (P : Platform) (abi : ABIDescriptor)
    (out_arg_stack_slots result_spill_size arg_spill_size : Int)
    (needs_return_buffer : Bool) (ret_buf_size : Int)
    (halign : 0 < P.StackAlignmentInBytes) (hout : 0 ≤ out_arg_stack_slots)
    (hres : 0 ≤ result_spill_size) (harg : 0 ≤ arg_spill_size) (hrb : 0 ≤ ret_buf_size) :
    (UpcallLinker.frame_layout P abi out_arg_stack_slots result_spill_size arg_spill_size
      needs_return_buffer ret_buf_size).shuffle_area_offset = 0 ∧
    ((UpcallLinker.frame_layout P abi out_arg_stack_slots result_spill_size arg_spill_size
      needs_return_buffer ret_buf_size).regions P needs_return_buffer ret_buf_size).Pairwise
      (fun a b => ∀ x : Int, ¬ (a.1 ≤ x ∧ x < a.1 + a.2 ∧ b.1 ≤ x ∧ x < b.1 + b.2)) ∧
    (∀ r ∈ (UpcallLinker.frame_layout P abi out_arg_stack_slots result_spill_size
        arg_spill_size needs_return_buffer ret_buf_size).regions P needs_return_buffer
        ret_buf_size,
      0 ≤ r.1 ∧ r.1 + r.2 ≤ (UpcallLinker.frame_layout P abi out_arg_stack_slots
        result_spill_size arg_spill_size needs_return_buffer ret_buf_size).frame_size) := by
  have hbytes : 0 ≤ ((P.out_preserve_stack_slots : Int) + out_arg_stack_slots)
      * (P.stack_slot_size : Int) :=
    mul_nonneg (by omega) (Int.natCast_nonneg _)
  have hreg := compute_reg_save_area_size_nonneg P abi
  have hfd : (0 : Int) ≤ (P.sizeof_FrameData : Int) := Int.natCast_nonneg _
  obtain ⟨hA, -, -⟩ := align_up_spec
    (((P.out_preserve_stack_slots : Int) + out_arg_stack_slots) * (P.stack_slot_size : Int))
    P.StackAlignmentInBytes halign
  cases needs_return_buffer
  · obtain ⟨hF, -, -⟩ := align_up_spec
      (0 + align_up (((P.out_preserve_stack_slots : Int) + out_arg_stack_slots)
          * (P.stack_slot_size : Int))
        P.StackAlignmentInBytes + result_spill_size + arg_spill_size +
        compute_reg_save_area_size P abi + (P.sizeof_FrameData : Int))
      P.StackAlignmentInBytes halign
    simp only [UpcallLinker.frame_layout, UpcallFrame.regions, Bool.false_eq_true, if_false,
      List.append_nil, List.pairwise_cons, List.mem_cons, List.mem_singleton,
      List.not_mem_nil, forall_eq_or_imp, forall_eq, List.Pairwise.nil, and_true,
      IsEmpty.forall_iff, implies_true]
    generalize align_up (((P.out_preserve_stack_slots : Int) + out_arg_stack_slots)
          * (P.stack_slot_size : Int))
      P.StackAlignmentInBytes = A at hA hF ⊢
    generalize align_up _ P.StackAlignmentInBytes = F at hF ⊢
    generalize compute_reg_save_area_size P abi = S at hreg hF ⊢
    generalize (P.sizeof_FrameData : Int) = D at hfd hF ⊢
    refine ⟨trivial, ?_, ?_⟩
    · refine ⟨⟨?_, ?_, ?_, ?_⟩, ⟨?_, ?_, ?_⟩, ⟨?_, ?_⟩, ?_⟩ <;> intro x <;> omega
    · refine ⟨?_, ?_, ?_, ?_, ?_⟩ <;> omega
  · obtain ⟨hF, -, -⟩ := align_up_spec
      (0 + align_up (((P.out_preserve_stack_slots : Int) + out_arg_stack_slots)
          * (P.stack_slot_size : Int))
        P.StackAlignmentInBytes + result_spill_size + arg_spill_size +
        compute_reg_save_area_size P abi + (P.sizeof_FrameData : Int) + ret_buf_size)
      P.StackAlignmentInBytes halign
    simp only [UpcallLinker.frame_layout, UpcallFrame.regions, if_true,
      List.cons_append, List.nil_append, List.pairwise_cons, List.mem_cons,
      List.mem_singleton, List.not_mem_nil, forall_eq_or_imp, forall_eq, List.Pairwise.nil,
      and_true, IsEmpty.forall_iff, implies_true]
    generalize align_up (((P.out_preserve_stack_slots : Int) + out_arg_stack_slots)
          * (P.stack_slot_size : Int))
      P.StackAlignmentInBytes = A at hA hF ⊢
    generalize align_up _ P.StackAlignmentInBytes = F at hF ⊢
    generalize compute_reg_save_area_size P abi = S at hreg hF ⊢
    generalize (P.sizeof_FrameData : Int) = D at hfd hF ⊢
    refine ⟨trivial, ?_, ?_⟩
    · refine ⟨⟨?_, ?_, ?_, ?_, ?_⟩, ⟨?_, ?_, ?_, ?_⟩, ⟨?_, ?_, ?_⟩, ⟨?_, ?_⟩, ?_⟩ <;>
        intro x <;> omega
    · refine ⟨?_, ?_, ?_, ?_, ?_, ?_⟩ <;> omega

/-- C6 at the sample platform and ABI, with 4 outgoing stack slots, spill areas of 16 and
64 bytes and a return buffer of 24 bytes. -/
theorem C6_upcall_frame_layout_witness :
    (UpcallLinker.frame_layout samplePlatform sampleABI 4 16 64 true 24).shuffle_area_offset
      = 0 ∧
    ((UpcallLinker.frame_layout samplePlatform sampleABI 4 16 64 true 24).regions
      samplePlatform true 24).Pairwise
      (fun a b => ∀ x : Int, ¬ (a.1 ≤ x ∧ x < a.1 + a.2 ∧ b.1 ≤ x ∧ x < b.1 + b.2)) ∧
    (∀ r ∈ (UpcallLinker.frame_layout samplePlatform sampleABI 4 16 64 true 24).regions
        samplePlatform true 24,
      0 ≤ r.1 ∧ r.1 + r.2 ≤
        (UpcallLinker.frame_layout samplePlatform sampleABI 4 16 64 true 24).frame_size) :=
  C6_upcall_frame_layout samplePlatform sampleABI 4 16 64 true 24 (by decide) (by decide)
    (by decide) (by decide) (by decide)

/-- C7 (as stated, refuted): for an ABI descriptor that asks for 32-byte stack alignment
(and passes both assertions of the generators), the downcall frame size is 112 and the
upcall frame size is 400; both are multiples of 16 but not of 32. -/
theorem C7_abi_alignment_counterexample :
    sampleABI32._stack_alignment_bytes = 32 ∧
    sampleABI32._stack_alignment_bytes % 16 = 0 ∧
    sampleABI32._shadow_space_bytes = samplePlatform.abi_reg_args_size ∧
    (sampleDowncall32.generate samplePlatform).error = none ∧
    (sampleDowncall32.generate samplePlatform).allocated_frame_size = 112 ∧
    (sampleDowncall32.generate samplePlatform).allocated_frame_size
      % sampleABI32._stack_alignment_bytes = 16 ∧
    (UpcallLinker.frame_layout samplePlatform sampleABI32 0 16 16 false 0).frame_size = 400 ∧
    (UpcallLinker.frame_layout samplePlatform sampleABI32 0 16 16 false 0).frame_size
      % sampleABI32._stack_alignment_bytes = 16 := by
  decide

/-- C7 (amended): with positive platform alignment constants, the frame size computed by
`DowncallStubGenerator::generate` without a return buffer is the region total (the larger
of the argument area and the spill area, each on top of `frame::abi_reg_args_size`)
rounded up to a multiple of `frame::alignment_in_bytes`, and the frame size computed by
`UpcallLinker::make_upcall_stub` is `frame_bottom_offset` rounded up to a multiple of
`StackAlignmentInBytes`: each is a multiple of that constant, not below the total and
less than one alignment unit above it.  The field `_stack_alignment_bytes` of the ABI
descriptor does not enter. -/
theorem C7_frame_size_alignment (P : Platform) (g : DowncallStubGenerator)
    (abi : ABIDescriptor) (out_arg_stack_slots result_spill_size arg_spill_size : Int)
    (needs_return_buffer : Bool) (ret_buf_size : Int)
    (hrb : g._needs_return_buffer = false)
    (ha : 0 < P.alignment_in_bytes) (hs : 0 < P.StackAlignmentInBytes) :
    (g.generate P).allocated_frame_size =
      align_up (MAX2 (RegSpiller.spill_size_bytes g._output_registers + P.abi_reg_args_size)
        (P.abi_reg_args_size + g.arg_shuffle._out_arg_stack_slots * 4))
        P.alignment_in_bytes ∧
    P.alignment_in_bytes ∣ (g.generate P).allocated_frame_size ∧
    MAX2 (RegSpiller.spill_size_bytes g._output_registers + P.abi_reg_args_size)
        (P.abi_reg_args_size + g.arg_shuffle._out_arg_stack_slots * 4)
      ≤ (g.generate P).allocated_frame_size ∧
    (g.generate P).allocated_frame_size <
      MAX2 (RegSpiller.spill_size_bytes g._output_registers + P.abi_reg_args_size)
        (P.abi_reg_args_size + g.arg_shuffle._out_arg_stack_slots * 4)
      + P.alignment_in_bytes ∧
    (UpcallLinker.frame_layout P abi out_arg_stack_slots result_spill_size arg_spill_size
      needs_return_buffer ret_buf_size).frame_size =
      align_up (UpcallLinker.frame_layout P abi out_arg_stack_slots result_spill_size
        arg_spill_size needs_return_buffer ret_buf_size).frame_bottom_offset
        P.StackAlignmentInBytes ∧
    P.StackAlignmentInBytes ∣ (UpcallLinker.frame_layout P abi out_arg_stack_slots
      result_spill_size arg_spill_size needs_return_buffer ret_buf_size).frame_size ∧
    (UpcallLinker.frame_layout P abi out_arg_stack_slots result_spill_size arg_spill_size
      needs_return_buffer ret_buf_size).frame_bottom_offset ≤
      (UpcallLinker.frame_layout P abi out_arg_stack_slots result_spill_size arg_spill_size
        needs_return_buffer ret_buf_size).frame_size ∧
    (UpcallLinker.frame_layout P abi out_arg_stack_slots result_spill_size arg_spill_size
      needs_return_buffer ret_buf_size).frame_size <
      (UpcallLinker.frame_layout P abi out_arg_stack_slots result_spill_size arg_spill_size
        needs_return_buffer ret_buf_size).frame_bottom_offset + P.StackAlignmentInBytes := by
  have hd : (g.generate P).allocated_frame_size =
      align_up (MAX2 (RegSpiller.spill_size_bytes g._output_registers + P.abi_reg_args_size)
        (P.abi_reg_args_size + g.arg_shuffle._out_arg_stack_slots * 4))
        P.alignment_in_bytes := by
    simp only [DowncallStubGenerator.generate, hrb, Bool.false_eq_true, if_false]
    split
    · rfl
    · split <;> rfl
  have hu : (UpcallLinker.frame_layout P abi out_arg_stack_slots result_spill_size
      arg_spill_size needs_return_buffer ret_buf_size).frame_size =
      align_up (UpcallLinker.frame_layout P abi out_arg_stack_slots result_spill_size
        arg_spill_size needs_return_buffer ret_buf_size).frame_bottom_offset
        P.StackAlignmentInBytes := rfl
  obtain ⟨d1, d2, d3⟩ := align_up_spec
    (MAX2 (RegSpiller.spill_size_bytes g._output_registers + P.abi_reg_args_size)
      (P.abi_reg_args_size + g.arg_shuffle._out_arg_stack_slots * 4)) P.alignment_in_bytes ha
  obtain ⟨u1, u2, u3⟩ := align_up_spec
    (UpcallLinker.frame_layout P abi out_arg_stack_slots result_spill_size
      arg_spill_size needs_return_buffer ret_buf_size).frame_bottom_offset
    P.StackAlignmentInBytes hs
  rw [hd, hu]
  exact ⟨rfl, d3, d1, d2, rfl, u3, u1, u2⟩

/-- C7 (amended) at the sample downcall and the sample upcall layout. -/
theorem C7_frame_size_alignment_witness :
    ((sampleDowncall .T_INT).generate samplePlatform).allocated_frame_size =
      align_up (MAX2 (RegSpiller.spill_size_bytes (sampleDowncall .T_INT)._output_registers
          + samplePlatform.abi_reg_args_size)
        (samplePlatform.abi_reg_args_size
          + (sampleDowncall .T_INT).arg_shuffle._out_arg_stack_slots * 4))
        samplePlatform.alignment_in_bytes ∧
    samplePlatform.alignment_in_bytes ∣
      ((sampleDowncall .T_INT).generate samplePlatform).allocated_frame_size ∧
    MAX2 (RegSpiller.spill_size_bytes (sampleDowncall .T_INT)._output_registers
          + samplePlatform.abi_reg_args_size)
        (samplePlatform.abi_reg_args_size
          + (sampleDowncall .T_INT).arg_shuffle._out_arg_stack_slots * 4)
      ≤ ((sampleDowncall .T_INT).generate samplePlatform).allocated_frame_size ∧
    ((sampleDowncall .T_INT).generate samplePlatform).allocated_frame_size <
      MAX2 (RegSpiller.spill_size_bytes (sampleDowncall .T_INT)._output_registers
          + samplePlatform.abi_reg_args_size)
        (samplePlatform.abi_reg_args_size
          + (sampleDowncall .T_INT).arg_shuffle._out_arg_stack_slots * 4)
      + samplePlatform.alignment_in_bytes ∧
    (UpcallLinker.frame_layout samplePlatform sampleABI 4 16 64 true 24).frame_size =
      align_up (UpcallLinker.frame_layout samplePlatform sampleABI 4 16 64 true
        24).frame_bottom_offset samplePlatform.StackAlignmentInBytes ∧
    samplePlatform.StackAlignmentInBytes ∣
      (UpcallLinker.frame_layout samplePlatform sampleABI 4 16 64 true 24).frame_size ∧
    (UpcallLinker.frame_layout samplePlatform sampleABI 4 16 64 true 24).frame_bottom_offset ≤
      (UpcallLinker.frame_layout samplePlatform sampleABI 4 16 64 true 24).frame_size ∧
    (UpcallLinker.frame_layout samplePlatform sampleABI 4 16 64 true 24).frame_size <
      (UpcallLinker.frame_layout samplePlatform sampleABI 4 16 64 true 24).frame_bottom_offset
        + samplePlatform.StackAlignmentInBytes :=
  C7_frame_size_alignment samplePlatform (sampleDowncall .T_INT) sampleABI 4 16 64 true 24
    rfl (by decide) (by decide)

/-! ## Control flow of the downcall stub -/

theorem pd_generate_straight (moves : List Move) (tmp : Register) (a b : Int) :
    ∀ i ∈ (ArgumentShuffle.pd_generate moves tmp a b).code, i.isStraight = true := by
  induction moves with
  | nil => simp [ArgumentShuffle.pd_generate]
  | cons mv rest ih =>
    intro i hi
    unfold ArgumentShuffle.pd_generate at hi
    cases hbt : mv.bt <;>
      simp [ArgumentShuffle.pd_generate_move, hbt] at hi <;>
      (rcases hi with hi | hi
       · rw [hi]; rfl
       · exact ih i hi)

theorem unpack_straight (bt : BasicType) (u : List Instr)
    (h : unpack_native_result bt = .ok u) : ∀ i ∈ u, i.isStraight = true := by
  cases bt <;> simp [unpack_native_result] at h <;> subst h <;> simp [Instr.isStraight]

theorem generate_straight (regs : List VMReg) (off : Int) (s : Bool) :
    ∀ i ∈ RegSpiller.generate regs off s, i.isStraight = true := by
  intro i hi
  cases s
  · rcases mem_generate_fill_shape regs off i hi with ⟨r, o, h⟩ | ⟨f, o, h⟩ <;> rw [h] <;> rfl
  · rcases mem_generate_spill_shape regs off i hi with ⟨r, o, h⟩ | ⟨f, o, h⟩ <;> rw [h] <;> rfl

theorem run_straight (code : List Instr) (env : Env) (seg : List Instr)
    (hseg : ∀ i ∈ seg, i.isStraight = true) (k : Nat) (c : Ctl) (rest : List Instr) :
    run code env (seg.length + k) c (seg ++ rest) =
      (seg ++ (run code env k (seg.foldl (Ctl.step env) c) rest).1,
        (run code env k (seg.foldl (Ctl.step env) c) rest).2) := by
  induction seg generalizing c with
  | nil => simp
  | cons i seg ih =>
    have hi : i.isStraight = true := hseg i (List.mem_cons_self _ _)
    have hrest : ∀ j ∈ seg, j.isStraight = true :=
      fun j hj => hseg j (List.mem_cons_of_mem _ hj)
    have e : (i :: seg).length + k = (seg.length + k) + 1 := by
      simp only [List.length_cons]; omega
    rw [e, List.cons_append]
    cases i <;> simp [Instr.isStraight] at hi <;>
      simp [run, andThen, ih hrest, List.foldl_cons]

theorem jump_append (A B : List Instr) (l : Label) (h : ∀ i ∈ A, i ≠ Instr.bind l) :
    jump (A ++ Instr.bind l :: B) l = some (Instr.bind l :: B) := by
  unfold jump
  have : (A ++ Instr.bind l :: B).dropWhile (fun i => i != Instr.bind l) =
      Instr.bind l :: B := by
    induction A with
    | nil => simp [List.dropWhile]
    | cons a A ih =>
      have ha : a ≠ Instr.bind l := h a (List.mem_cons_self _ _)
      simp only [List.cons_append, List.dropWhile_cons, bne_iff_ne, ne_eq, ha,
        not_false_eq_true, if_true]
      exact ih (fun i hi => h i (List.mem_cons_of_mem _ hi))
  rw [this]

theorem straight_ne_bind (i : Instr) (h : i.isStraight = true) (l : Label) :
    i ≠ Instr.bind l := by
  intro e
  rw [e] at h
  simp [Instr.isStraight] at h

theorem run_straight_le (code : List Instr) (env : Env) (seg : List Instr)
    (hseg : ∀ i ∈ seg, i.isStraight = true) (F : Nat) (hF : seg.length ≤ F) (c : Ctl)
    (rest : List Instr) :
    run code env F c (seg ++ rest) =
      (seg ++ (run code env (F - seg.length) (seg.foldl (Ctl.step env) c) rest).1,
        (run code env (F - seg.length) (seg.foldl (Ctl.step env) c) rest).2) := by
  obtain ⟨k, rfl⟩ : ∃ k, F = seg.length + k := ⟨F - seg.length, by omega⟩
  rw [run_straight code env seg hseg k c rest]
  simp

theorem run_prologue (code : List Instr) (env : Env) (afs : Int) (F : Nat) (hF : 7 ≤ F)
    (c : Ctl) (rest : List Instr) :
    run code env F c (DowncallStubGenerator.prologue afs ++ rest) =
      (DowncallStubGenerator.prologue afs ++ (run code env (F - 7) Ctl.unknown rest).1,
        (run code env (F - 7) Ctl.unknown rest).2) := by
  obtain ⟨k, rfl⟩ : ∃ k, F = k + 7 := ⟨F - 7, by omega⟩
  simp [DowncallStubGenerator.prologue, run, andThen, Ctl.step]

theorem run_native_call (code : List Instr) (env : Env) (tgt : Register) (F : Nat)
    (hF : 2 ≤ F) (c : Ctl) (rest : List Instr) :
    run code env F c (Instr.mtctr tgt :: Instr.bctrl :: rest) =
      (Instr.mtctr tgt :: Instr.bctrl :: (run code env (F - 2) Ctl.unknown rest).1,
        (run code env (F - 2) Ctl.unknown rest).2) := by
  obtain ⟨k, rfl⟩ : ∃ k, F = k + 2 := ⟨F - 2, by omega⟩
  simp [run, andThen, Ctl.step]

theorem run_transition_back_quiet (code : List Instr) (env : Env)
    (hpoll : env.poll_armed = false)
    (hsus : env.field_eq .suspend_flags_offset (.int 0) = true)
    (hgd : env.field_eq .stack_guard_state_offset .stack_guard_yellow_reserved_disabled = false)
    (F : Nat) (hF : 20 ≤ F) (c : Ctl) (rest : List Instr) :
    run code env F c (DowncallStubGenerator.transition_back ++ rest) =
      (DowncallStubGenerator.transition_back, .returned) := by
  obtain ⟨k, rfl⟩ : ∃ k, F = k + 20 := ⟨F - 20, by omega⟩
  simp [DowncallStubGenerator.transition_back, run, andThen, Ctl.step, Ctl.unknown, hpoll,
    hsus, hgd]

/-- The shape of the code of a downcall stub that was generated without a fatal error. -/
theorem generate_code_eq (P : Platform) (g : DowncallStubGenerator)
    (hok : (g.generate P).error = none) :
    g._needs_return_buffer = false ∧
    (g.arg_shuffle.generate R11_scratch1 P.jit_out_preserve_size
      g._abi._shadow_space_bytes).error = none ∧
    ∃ un, unpack_native_result g._ret_bt = .ok un ∧
      (g.generate P).code =
        DowncallStubGenerator.prologue (g.allocated_frame_size P)
          ++ (g.arg_shuffle.generate R11_scratch1 P.jit_out_preserve_size
                g._abi._shadow_space_bytes).code
          ++ [.mtctr g._abi._target_addr_reg, .bctrl]
          ++ un
          ++ DowncallStubGenerator.transition_back
          ++ DowncallStubGenerator.safepoint_slow_path g._output_registers P.abi_reg_args_size
          ++ DowncallStubGenerator.reguard_slow_path g._output_registers P.abi_reg_args_size := by
  unfold DowncallStubGenerator.generate at hok ⊢
  cases hrb : g._needs_return_buffer
  · simp only [hrb, Bool.false_eq_true, if_false] at hok ⊢
    cases hs : (g.arg_shuffle.generate R11_scratch1 P.jit_out_preserve_size
        g._abi._shadow_space_bytes).error with
    | some e => simp [hs] at hok
    | none =>
      simp only [hs] at hok ⊢
      cases hu : unpack_native_result g._ret_bt with
      | error e => simp [hu] at hok
      | ok un => exact ⟨trivial, trivial, un, rfl, rfl⟩
  · simp [hrb] at hok

theorem tss_straight (seg : List Instr) (hseg : ∀ i ∈ seg, i.isStraight = true)
    (p2 p1 : Option Instr) (rest : List Instr) :
    threadStateStores p2 p1 (seg ++ rest) =
      threadStateStores (seg.foldl (fun w i => (w.2, some i)) (p2, p1)).1
        (seg.foldl (fun w i => (w.2, some i)) (p2, p1)).2 rest := by
  induction seg generalizing p2 p1 with
  | nil => rfl
  | cons i seg ih =>
    have hi : i.isStraight = true := hseg i (List.mem_cons_self _ _)
    have hns : i.isThreadStateStore = false := by
      cases i <;> simp [Instr.isStraight] at hi <;> rfl
    simp [threadStateStores, hns, ih (fun j hj => hseg j (List.mem_cons_of_mem _ hj))]

/-- The stores to the thread-state field in the code of a downcall stub, each with the
two items emitted before it. -/
theorem tss_stub (afs : Int) (tgt : Register) (sh un sp1 fl1 sp2 fl2 : List Instr)
    (hsh : ∀ i ∈ sh, i.isStraight = true) (hun : ∀ i ∈ un, i.isStraight = true)
    (hsp1 : ∀ i ∈ sp1, i.isStraight = true) (hfl1 : ∀ i ∈ fl1, i.isStraight = true)
    (hsp2 : ∀ i ∈ sp2, i.isStraight = true) (hfl2 : ∀ i ∈ fl2, i.isStraight = true) :
    threadStateStores none none
      (DowncallStubGenerator.prologue afs ++ sh ++ [.mtctr tgt, .bctrl] ++ un
        ++ DowncallStubGenerator.transition_back
        ++ ([.bind .L_safepoint_poll_slow_path] ++ sp1
            ++ [.untested .downcall_trans,
                .call_VM_leaf .check_special_condition_for_native_trans [R16_thread]]
            ++ fl1 ++ [.b .L_after_safepoint_poll])
        ++ ([.bind .L_reguard] ++ sp2
            ++ [.untested .downcall_reguard, .call_VM_leaf .reguard_yellow_pages []]
            ++ fl2 ++ [.b .L_after_reguard])) =
      [ (some (.li R11_scratch1 (.thread_state ._thread_in_native)), some .release,
          .stw R11_scratch1 .thread_state_offset R16_thread),
        (some (.li R11_scratch1 (.thread_state ._thread_in_native_trans)), some .release,
          .stw R11_scratch1 .thread_state_offset R16_thread),
        (some (.li R11_scratch1 (.thread_state ._thread_in_Java)), some .lwsync,
          .stw R11_scratch1 .thread_state_offset R16_thread) ] := by
  simp only [DowncallStubGenerator.prologue, DowncallStubGenerator.transition_back,
    List.append_assoc, List.cons_append, List.nil_append]
  simp only [threadStateStores, Instr.isThreadStateStore, List.nil_append, List.cons_append,
    Bool.false_eq_true, if_false, if_true]
  rw [tss_straight sh hsh]
  simp only [threadStateStores, Instr.isThreadStateStore, List.nil_append, List.cons_append,
    Bool.false_eq_true, if_false, if_true]
  rw [tss_straight un hun]
  simp only [threadStateStores, Instr.isThreadStateStore, List.nil_append, List.cons_append,
    Bool.false_eq_true, if_false, if_true]
  rw [tss_straight sp1 hsp1]
  simp only [threadStateStores, Instr.isThreadStateStore, List.nil_append, List.cons_append,
    Bool.false_eq_true, if_false, if_true]
  rw [tss_straight fl1 hfl1]
  simp only [threadStateStores, Instr.isThreadStateStore, List.nil_append, List.cons_append,
    Bool.false_eq_true, if_false, if_true]
  rw [tss_straight sp2 hsp2]
  simp only [threadStateStores, Instr.isThreadStateStore, List.nil_append, List.cons_append,
    Bool.false_eq_true, if_false, if_true]
  rw [tss_straight fl2 hfl2]
  simp [threadStateStores, Instr.isThreadStateStore]

/-- C8: for a downcall stub generated without fatal error, run from its entry with enough
fuel in an environment where no safepoint or suspend is pending and the stack guard is in
place, the executed items are, in this order: the frame set-up, `li tmp,_thread_in_native;
release; stw` to the thread state, the argument moves, `mtctr target; bctrl`, the result
unpacking, `li tmp,_thread_in_native_trans; release; stw`, `fence`, the safepoint poll,
the suspend-flags check, `li tmp,_thread_in_Java; lwsync; stw`, the stack guard check and
the return.  The emitted code (slow paths included) has exactly these three stores to the
thread-state field, each directly preceded by `release` or `lwsync` and, before that, by
the `li` of the state. -/
theorem C8_thread_state_ordering (P : Platform) (g : DowncallStubGenerator) (env : Env)
    (fuel : Nat)
    (hok : (g.generate P).error = none)
    (hpoll : env.poll_armed = false)
    (hsus : env.field_eq .suspend_flags_offset (.int 0) = true)
    (hgd : env.field_eq .stack_guard_state_offset .stack_guard_yellow_reserved_disabled = false)
    (hfuel : (g.generate P).code.length ≤ fuel) :
    ∃ un, unpack_native_result g._ret_bt = .ok un ∧
      runStub (g.generate P).code env fuel =
        ([ .save_LR_CR R11_scratch1,
           .push_frame (g.generate P).allocated_frame_size R11_scratch1,
           .calculate_address_from_global_toc R11_scratch1,
           .set_last_Java_frame R1_SP R11_scratch1,
           .li R11_scratch1 (.thread_state ._thread_in_native),
           .release,
           .stw R11_scratch1 .thread_state_offset R16_thread ]
         ++ (ArgumentShuffle.pd_generate g.arg_shuffle._moves R11_scratch1
              P.jit_out_preserve_size g._abi._shadow_space_bytes).code
         ++ [ .mtctr g._abi._target_addr_reg, .bctrl ]
         ++ un
         ++ [ .li R11_scratch1 (.thread_state ._thread_in_native_trans),
              .release,
              .stw R11_scratch1 .thread_state_offset R16_thread,
              .fence,
              .safepoint_poll .L_safepoint_poll_slow_path R11_scratch1 true false,
              .lwz R11_scratch1 .suspend_flags_offset R16_thread,
              .cmpwi .CCR0 R11_scratch1 (.int 0),
              .bne .CCR0 .L_safepoint_poll_slow_path,
              .bind .L_after_safepoint_poll,
              .li R11_scratch1 (.thread_state ._thread_in_Java),
              .lwsync,
              .stw R11_scratch1 .thread_state_offset R16_thread,
              .lwz R11_scratch1 .stack_guard_state_offset R16_thread,
              .cmpwi .CCR0 R11_scratch1 .stack_guard_yellow_reserved_disabled,
              .beq .CCR0 .L_reguard,
              .bind .L_after_reguard,
              .reset_last_Java_frame,
              .pop_frame,
              .restore_LR_CR R11_scratch1,
              .blr ],
         .returned) ∧
      threadStateStores none none (g.generate P).code =
        [ (some (.li R11_scratch1 (.thread_state ._thread_in_native)), some .release,
            .stw R11_scratch1 .thread_state_offset R16_thread),
          (some (.li R11_scratch1 (.thread_state ._thread_in_native_trans)), some .release,
            .stw R11_scratch1 .thread_state_offset R16_thread),
          (some (.li R11_scratch1 (.thread_state ._thread_in_Java)), some .lwsync,
            .stw R11_scratch1 .thread_state_offset R16_thread) ] := by
  obtain ⟨hrb, hs, un, hu, hcode⟩ := generate_code_eq P g hok
  have hafs : (g.generate P).allocated_frame_size = g.allocated_frame_size P := by
    simp only [DowncallStubGenerator.generate, hrb, Bool.false_eq_true, if_false]
    split
    · rfl
    · split <;> rfl
  have hsh := pd_generate_straight g.arg_shuffle._moves R11_scratch1 P.jit_out_preserve_size
    g._abi._shadow_space_bytes
  have hun := unpack_straight g._ret_bt un hu
  refine ⟨un, hu, ?_, ?_⟩
  · rw [hcode] at hfuel
    simp only [List.length_append, List.length_cons, List.length_nil,
      DowncallStubGenerator.prologue, DowncallStubGenerator.transition_back,
      ArgumentShuffle.generate] at hfuel
    have key : ∀ code : List Instr, run code env fuel Ctl.unknown
        (DowncallStubGenerator.prologue (g.allocated_frame_size P)
          ++ ((ArgumentShuffle.pd_generate g.arg_shuffle._moves R11_scratch1
                P.jit_out_preserve_size g._abi._shadow_space_bytes).code
          ++ (Instr.mtctr g._abi._target_addr_reg :: Instr.bctrl
          :: (un ++ (DowncallStubGenerator.transition_back
          ++ (DowncallStubGenerator.safepoint_slow_path g._output_registers
                P.abi_reg_args_size
          ++ DowncallStubGenerator.reguard_slow_path g._output_registers
                P.abi_reg_args_size)))))) =
        (DowncallStubGenerator.prologue (g.allocated_frame_size P)
          ++ ((ArgumentShuffle.pd_generate g.arg_shuffle._moves R11_scratch1
                P.jit_out_preserve_size g._abi._shadow_space_bytes).code
          ++ (Instr.mtctr g._abi._target_addr_reg :: Instr.bctrl
          :: (un ++ DowncallStubGenerator.transition_back))), .returned) := by
      intro code
      rw [run_prologue code env _ fuel (by omega),
        run_straight_le code env _ hsh _ (by omega),
        run_native_call code env _ _ (by omega),
        run_straight_le code env _ hun _ (by omega),
        run_transition_back_quiet code env hpoll hsus hgd _ (by omega)]
    unfold runStub
    rw [hafs, hcode]
    simp only [List.append_assoc, ArgumentShuffle.generate, List.cons_append,
      List.nil_append] at key ⊢
    rw [key]
    simp [DowncallStubGenerator.prologue, DowncallStubGenerator.transition_back]
  · rw [hcode]
    exact tss_stub _ _ _ _ _ _ _ _ hsh hun
      (generate_straight _ _ _) (generate_straight _ _ _)
      (generate_straight _ _ _) (generate_straight _ _ _)

/-- C8 at the sample downcall returning `boolean`, in the quiet environment. -/
theorem C8_thread_state_ordering_witness :
    (runStub ((sampleDowncall .T_BOOLEAN).generate samplePlatform).code quietEnv 50).2
      = .returned ∧
    threadStateStores none none ((sampleDowncall .T_BOOLEAN).generate samplePlatform).code =
      [ (some (.li R11_scratch1 (.thread_state ._thread_in_native)), some .release,
          .stw R11_scratch1 .thread_state_offset R16_thread),
        (some (.li R11_scratch1 (.thread_state ._thread_in_native_trans)), some .release,
          .stw R11_scratch1 .thread_state_offset R16_thread),
        (some (.li R11_scratch1 (.thread_state ._thread_in_Java)), some .lwsync,
          .stw R11_scratch1 .thread_state_offset R16_thread) ] := by
  obtain ⟨un, _, hrun, hstores⟩ := C8_thread_state_ordering samplePlatform
    (sampleDowncall .T_BOOLEAN) quietEnv 50 rfl rfl rfl rfl (by decide)
  exact ⟨by rw [hrun], hstores⟩

theorem generate_code_eq_stubCode (P : Platform) (g : DowncallStubGenerator)
    (hok : (g.generate P).error = none) :
    ∃ un, unpack_native_result g._ret_bt = .ok un ∧
      (g.generate P).code =
        stubCode (g.generate P).allocated_frame_size g._abi._target_addr_reg
          (ArgumentShuffle.pd_generate g.arg_shuffle._moves R11_scratch1
            P.jit_out_preserve_size g._abi._shadow_space_bytes).code
          un
          (RegSpiller.generate_spill g._output_registers P.abi_reg_args_size)
          (RegSpiller.generate_fill g._output_registers P.abi_reg_args_size)
          (RegSpiller.generate_spill g._output_registers P.abi_reg_args_size)
          (RegSpiller.generate_fill g._output_registers P.abi_reg_args_size) := by
  obtain ⟨hrb, hs, un, hu, hcode⟩ := generate_code_eq P g hok
  have hafs : (g.generate P).allocated_frame_size = g.allocated_frame_size P := by
    simp only [DowncallStubGenerator.generate, hrb, Bool.false_eq_true, if_false]
    split
    · rfl
    · split <;> rfl
  refine ⟨un, hu, ?_⟩
  rw [hcode, hafs]
  simp [stubCode, slowBlock, stubPollPart, stubAfterPoll, stubAfterReguard,
    DowncallStubGenerator.transition_back, DowncallStubGenerator.safepoint_slow_path,
    DowncallStubGenerator.reguard_slow_path, ArgumentShuffle.generate]

theorem prologue_ne_bind (afs : Int) (l : Label) :
    ∀ i ∈ DowncallStubGenerator.prologue afs, i ≠ Instr.bind l := by
  intro i hi
  simp only [DowncallStubGenerator.prologue, List.mem_cons, List.mem_singleton,
    List.not_mem_nil, or_false] at hi
  rcases hi with rfl | rfl | rfl | rfl | rfl | rfl | rfl <;> simp

theorem stub_jumps (afs : Int) (tgt : Register) (sh un sp1 fl1 sp2 fl2 : List Instr)
    (hsh : ∀ i ∈ sh, i.isStraight = true) (hun : ∀ i ∈ un, i.isStraight = true)
    (hsp1 : ∀ i ∈ sp1, i.isStraight = true) (hfl1 : ∀ i ∈ fl1, i.isStraight = true) :
    jump (stubCode afs tgt sh un sp1 fl1 sp2 fl2) .L_safepoint_poll_slow_path =
      some (slowBlock .L_safepoint_poll_slow_path sp1 .downcall_trans
          .check_special_condition_for_native_trans [R16_thread] fl1 .L_after_safepoint_poll
        ++ slowBlock .L_reguard sp2 .downcall_reguard .reguard_yellow_pages [] fl2
          .L_after_reguard) ∧
    jump (stubCode afs tgt sh un sp1 fl1 sp2 fl2) .L_after_safepoint_poll =
      some (stubAfterPoll
        ++ (slowBlock .L_safepoint_poll_slow_path sp1 .downcall_trans
          .check_special_condition_for_native_trans [R16_thread] fl1 .L_after_safepoint_poll
        ++ slowBlock .L_reguard sp2 .downcall_reguard .reguard_yellow_pages [] fl2
          .L_after_reguard)) ∧
    jump (stubCode afs tgt sh un sp1 fl1 sp2 fl2) .L_reguard =
      some (slowBlock .L_reguard sp2 .downcall_reguard .reguard_yellow_pages [] fl2
          .L_after_reguard) ∧
    jump (stubCode afs tgt sh un sp1 fl1 sp2 fl2) .L_after_reguard =
      some (stubAfterReguard
        ++ (slowBlock .L_safepoint_poll_slow_path sp1 .downcall_trans
          .check_special_condition_for_native_trans [R16_thread] fl1 .L_after_safepoint_poll
        ++ slowBlock .L_reguard sp2 .downcall_reguard .reguard_yellow_pages [] fl2
          .L_after_reguard)) := by
  have nb : ∀ (seg : List Instr), (∀ i ∈ seg, i.isStraight = true) →
      ∀ l : Label, ∀ i ∈ seg, i ≠ Instr.bind l :=
    fun seg h l i hi => straight_ne_bind i (h i hi) l
  refine ⟨?_, ?_, ?_, ?_⟩
  · have e : stubCode afs tgt sh un sp1 fl1 sp2 fl2 =
        (DowncallStubGenerator.prologue afs ++ sh ++ [.mtctr tgt, .bctrl] ++ un ++ stubPollPart
          ++ stubAfterPoll) ++ Instr.bind .L_safepoint_poll_slow_path ::
          ((sp1 ++ (.untested .downcall_trans ::
              .call_VM_leaf .check_special_condition_for_native_trans [R16_thread] ::
              (fl1 ++ [.b .L_after_safepoint_poll])))
            ++ slowBlock .L_reguard sp2 .downcall_reguard .reguard_yellow_pages [] fl2
              .L_after_reguard) := by
      simp [stubCode, slowBlock]
    rw [e, jump_append]
    · simp [slowBlock]
    · intro i hi
      simp only [List.mem_append] at hi
      rcases hi with ((((hi | hi) | hi) | hi) | hi) | hi
      · exact prologue_ne_bind afs _ i hi
      · exact nb sh hsh _ i hi
      · simp at hi; rcases hi with rfl | rfl <;> simp
      · exact nb un hun _ i hi
      · revert i; decide
      · revert i; decide
  · have e : stubCode afs tgt sh un sp1 fl1 sp2 fl2 =
        (DowncallStubGenerator.prologue afs ++ sh ++ [.mtctr tgt, .bctrl] ++ un ++ stubPollPart)
          ++ Instr.bind .L_after_safepoint_poll ::
          (stubAfterPoll.tail
            ++ (slowBlock .L_safepoint_poll_slow_path sp1 .downcall_trans
              .check_special_condition_for_native_trans [R16_thread] fl1
              .L_after_safepoint_poll
            ++ slowBlock .L_reguard sp2 .downcall_reguard .reguard_yellow_pages [] fl2
              .L_after_reguard)) := by
      simp [stubCode, stubAfterPoll]
    rw [e, jump_append]
    · simp [stubAfterPoll]
    · intro i hi
      simp only [List.mem_append] at hi
      rcases hi with (((hi | hi) | hi) | hi) | hi
      · exact prologue_ne_bind afs _ i hi
      · exact nb sh hsh _ i hi
      · simp at hi; rcases hi with rfl | rfl <;> simp
      · exact nb un hun _ i hi
      · revert i; decide
  · have e : stubCode afs tgt sh un sp1 fl1 sp2 fl2 =
        (DowncallStubGenerator.prologue afs ++ sh ++ [.mtctr tgt, .bctrl] ++ un ++ stubPollPart
          ++ stubAfterPoll ++ [Instr.bind .L_safepoint_poll_slow_path] ++ sp1
          ++ [.untested .downcall_trans,
              .call_VM_leaf .check_special_condition_for_native_trans [R16_thread]]
          ++ fl1 ++ [.b .L_after_safepoint_poll])
          ++ Instr.bind .L_reguard ::
          (sp2 ++ (.untested .downcall_reguard :: .call_VM_leaf .reguard_yellow_pages [] ::
              (fl2 ++ [.b .L_after_reguard]))) := by
      simp [stubCode, slowBlock]
    rw [e, jump_append]
    · simp [slowBlock]
    · intro i hi
      simp only [List.mem_append] at hi
      rcases hi with ((((((((((hi | hi) | hi) | hi) | hi) | hi) | hi) | hi) | hi) | hi) | hi)
      · exact prologue_ne_bind afs _ i hi
      · exact nb sh hsh _ i hi
      · simp at hi; rcases hi with rfl | rfl <;> simp
      · exact nb un hun _ i hi
      · revert i; decide
      · revert i; decide
      · revert i; decide
      · exact nb sp1 hsp1 _ i hi
      · revert i; decide
      · exact nb fl1 hfl1 _ i hi
      · revert i; decide
  · have e : stubCode afs tgt sh un sp1 fl1 sp2 fl2 =
        (DowncallStubGenerator.prologue afs ++ sh ++ [.mtctr tgt, .bctrl] ++ un ++ stubPollPart
          ++ stubAfterPoll.take 7)
          ++ Instr.bind .L_after_reguard ::
          (stubAfterReguard.tail
            ++ (slowBlock .L_safepoint_poll_slow_path sp1 .downcall_trans
              .check_special_condition_for_native_trans [R16_thread] fl1
              .L_after_safepoint_poll
            ++ slowBlock .L_reguard sp2 .downcall_reguard .reguard_yellow_pages [] fl2
              .L_after_reguard)) := by
      simp [stubCode, stubAfterPoll, stubAfterReguard]
    rw [e, jump_append]
    · simp [stubAfterReguard]
    · intro i hi
      simp only [List.mem_append] at hi
      rcases hi with ((((hi | hi) | hi) | hi) | hi) | hi
      · exact prologue_ne_bind afs _ i hi
      · exact nb sh hsh _ i hi
      · simp at hi; rcases hi with rfl | rfl <;> simp
      · exact nb un hun _ i hi
      · revert i; decide
      · revert i; decide

theorem run_after_reguard (code : List Instr) (env : Env) (F : Nat) (hF : 5 ≤ F) (c : Ctl)
    (rest : List Instr) :
    run code env F c (stubAfterReguard ++ rest) = (stubAfterReguard, .returned) := by
  obtain ⟨k, rfl⟩ : ∃ k, F = k + 5 := ⟨F - 5, by omega⟩
  simp [stubAfterReguard, run, andThen, Ctl.step]

theorem run_bind (code : List Instr) (env : Env) (F : Nat) (c : Ctl) (l : Label)
    (rest : List Instr) :
    run code env (F + 1) c (Instr.bind l :: rest) =
      (Instr.bind l :: (run code env F c rest).1, (run code env F c rest).2) := by
  simp [run, andThen, Ctl.step]

/-- Running a slow-path block whose `untested` mark stops the run. -/
theorem run_slow_block_stops (code : List Instr) (env : Env) (l back : Label)
    (sp fl : List Instr) (site : UntestedSite) (entry : RuntimeEntry) (args : List Register)
    (hsp : ∀ i ∈ sp, i.isStraight = true) (hstop : env.untested_stops = true)
    (F : Nat) (hF : sp.length + 2 ≤ F) (c : Ctl) (rest : List Instr) :
    run code env F c (slowBlock l sp site entry args fl back ++ rest) =
      (Instr.bind l :: (sp ++ [Instr.untested site]), .stopped) := by
  obtain ⟨k, rfl⟩ : ∃ k, F = (sp.length + (k + 1)) + 1 := ⟨F - (sp.length + 2), by omega⟩
  simp only [slowBlock, List.cons_append, List.append_assoc]
  rw [run_bind, run_straight code env sp hsp (k + 1)]
  simp [run, hstop]

/-- Running a slow-path block whose `untested` mark falls through: spill, mark, call,
fill, then on at the label behind the branch. -/
theorem run_slow_block_through (code : List Instr) (env : Env) (l back : Label)
    (sp fl after : List Instr) (site : UntestedSite) (entry : RuntimeEntry)
    (args : List Register)
    (hsp : ∀ i ∈ sp, i.isStraight = true) (hfl : ∀ i ∈ fl, i.isStraight = true)
    (hstop : env.untested_stops = false) (hj : jump code back = some after)
    (F : Nat) (hF : sp.length + fl.length + 4 ≤ F) (c : Ctl) (rest : List Instr) :
    run code env F c (slowBlock l sp site entry args fl back ++ rest) =
      (Instr.bind l :: (sp ++ (Instr.untested site :: Instr.call_VM_leaf entry args ::
          (fl ++ (Instr.b back ::
            (run code env (F - (sp.length + fl.length + 4))
              (fl.foldl (Ctl.step env) Ctl.unknown) after).1)))),
        (run code env (F - (sp.length + fl.length + 4))
          (fl.foldl (Ctl.step env) Ctl.unknown) after).2) := by
  obtain ⟨k, rfl⟩ : ∃ k, F = (sp.length + ((fl.length + (k + 1)) + 2)) + 1 :=
    ⟨F - (sp.length + fl.length + 4), by omega⟩
  have e : sp.length + (fl.length + (k + 1) + 2) + 1 - (sp.length + fl.length + 4) = k := by
    omega
  simp only [slowBlock, List.cons_append, List.append_assoc, e]
  rw [run_bind, run_straight code env sp hsp]
  simp only [run, hstop, Bool.false_eq_true, if_false, andThen, Ctl.step]
  rw [run_straight code env fl hfl]
  simp [run, hj, andThen]

/-- Running from `L_after_safepoint_poll` to the return, when `untested` marks fall
through: the store of `_thread_in_Java` comes first, the return last. -/
theorem run_after_poll (code : List Instr) (env : Env) (sp2 fl2 tail2 : List Instr)
    (hsp : ∀ i ∈ sp2, i.isStraight = true) (hfl : ∀ i ∈ fl2, i.isStraight = true)
    (hstop : env.untested_stops = false)
    (hj1 : jump code .L_reguard =
      some (slowBlock .L_reguard sp2 .downcall_reguard .reguard_yellow_pages [] fl2
        .L_after_reguard))
    (hj2 : jump code .L_after_reguard = some (stubAfterReguard ++ tail2))
    (F : Nat) (hF : sp2.length + fl2.length + 16 ≤ F) (c : Ctl) (rest : List Instr) :
    ∃ more, run code env F c (stubAfterPoll ++ rest) =
      (Instr.bind .L_after_safepoint_poll ::
        Instr.li R11_scratch1 (.thread_state ._thread_in_Java) ::
        Instr.lwsync ::
        Instr.stw R11_scratch1 .thread_state_offset R16_thread :: more, .returned) ∧
      Instr.blr ∈ more := by
  obtain ⟨k, rfl⟩ : ∃ k, F = k + 7 := ⟨F - 7, by omega⟩
  cases hgd : env.field_eq .stack_guard_state_offset .stack_guard_yellow_reserved_disabled
  · refine ⟨Instr.lwz R11_scratch1 .stack_guard_state_offset R16_thread ::
      Instr.cmpwi .CCR0 R11_scratch1 .stack_guard_yellow_reserved_disabled ::
      Instr.beq .CCR0 .L_reguard :: stubAfterReguard, ?_, ?_⟩
    · simp only [stubAfterPoll, List.cons_append, List.append_assoc, List.nil_append]
      simp only [run, andThen, Ctl.step, Ctl.unknown, hgd, if_true, Option.map_some']
      rw [run_after_reguard code env k (by omega)]
    · simp [stubAfterReguard]
  · have e1 := fun c => run_slow_block_through code env .L_reguard .L_after_reguard sp2 fl2
      (stubAfterReguard ++ tail2) .downcall_reguard .reguard_yellow_pages [] hsp hfl hstop hj2
      k (by omega) c []
    simp only [List.append_nil] at e1
    refine ⟨Instr.lwz R11_scratch1 .stack_guard_state_offset R16_thread ::
      Instr.cmpwi .CCR0 R11_scratch1 .stack_guard_yellow_reserved_disabled ::
      Instr.beq .CCR0 .L_reguard ::
      Instr.bind .L_reguard :: (sp2 ++ (Instr.untested .downcall_reguard ::
        Instr.call_VM_leaf .reguard_yellow_pages [] ::
        (fl2 ++ (Instr.b .L_after_reguard :: stubAfterReguard)))), ?_, ?_⟩
    · simp only [stubAfterPoll, List.cons_append, List.append_assoc, List.nil_append]
      simp only [run, andThen, Ctl.step, Ctl.unknown, hgd, if_true, Option.map_some', hj1]
      rw [e1, run_after_reguard code env _ (by omega)]
    · simp [stubAfterReguard]

theorem run_poll_armed (code : List Instr) (env : Env) (slow : List Instr)
    (hpoll : env.poll_armed = true)
    (hj : jump code .L_safepoint_poll_slow_path = some slow)
    (F : Nat) (hF : 5 ≤ F) (c : Ctl) (rest : List Instr) :
    run code env F c (stubPollPart ++ rest) =
      (stubPollPart.take 5 ++ (run code env (F - 5) Ctl.unknown slow).1,
        (run code env (F - 5) Ctl.unknown slow).2) := by
  obtain ⟨k, rfl⟩ : ∃ k, F = k + 5 := ⟨F - 5, by omega⟩
  simp [stubPollPart, run, andThen, Ctl.step, hpoll, hj]

theorem run_poll_suspended (code : List Instr) (env : Env) (slow : List Instr)
    (hpoll : env.poll_armed = false)
    (hsus : env.field_eq .suspend_flags_offset (.int 0) = false)
    (hj : jump code .L_safepoint_poll_slow_path = some slow)
    (F : Nat) (hF : 8 ≤ F) (c : Ctl) (rest : List Instr) :
    run code env F c (stubPollPart ++ rest) =
      (stubPollPart ++ (run code env (F - 8)
          (Ctl.step env (Ctl.step env Ctl.unknown
            (Instr.lwz R11_scratch1 .suspend_flags_offset R16_thread))
            (Instr.cmpwi .CCR0 R11_scratch1 (.int 0))) slow).1,
        (run code env (F - 8)
          (Ctl.step env (Ctl.step env Ctl.unknown
            (Instr.lwz R11_scratch1 .suspend_flags_offset R16_thread))
            (Instr.cmpwi .CCR0 R11_scratch1 (.int 0))) slow).2) := by
  obtain ⟨k, rfl⟩ : ∃ k, F = k + 8 := ⟨F - 8, by omega⟩
  simp [stubPollPart, run, andThen, Ctl.step, Ctl.unknown, hpoll, hsus, hj]

theorem straight_ne_marks (i : Instr) (h : i.isStraight = true) :
    i ≠ Instr.li R11_scratch1 (.thread_state ._thread_in_Java) ∧ i ≠ Instr.blr ∧
    i ≠ Instr.call_VM_leaf .check_special_condition_for_native_trans [R16_thread] := by
  refine ⟨?_, ?_, ?_⟩ <;> intro e <;> rw [e] at h <;> simp [Instr.isStraight] at h

/-- The run of a downcall stub in which a safepoint or suspend is pending, up to the
entry of the slow path and through it, for any code with the label targets of the stub. -/
theorem run_pending_core (code : List Instr) (afs : Int) (tgt : Register)
    (sh un sp fl : List Instr) (env : Env)
    (hsh : ∀ i ∈ sh, i.isStraight = true) (hun : ∀ i ∈ un, i.isStraight = true)
    (hsp : ∀ i ∈ sp, i.isStraight = true) (hfl : ∀ i ∈ fl, i.isStraight = true)
    (hpending : env.poll_armed = true ∨ env.field_eq .suspend_flags_offset (.int 0) = false)
    (j1 : jump code .L_safepoint_poll_slow_path =
      some (slowBlock .L_safepoint_poll_slow_path sp .downcall_trans
          .check_special_condition_for_native_trans [R16_thread] fl .L_after_safepoint_poll
        ++ slowBlock .L_reguard sp .downcall_reguard .reguard_yellow_pages [] fl
          .L_after_reguard))
    (j2 : jump code .L_after_safepoint_poll =
      some (stubAfterPoll
        ++ (slowBlock .L_safepoint_poll_slow_path sp .downcall_trans
          .check_special_condition_for_native_trans [R16_thread] fl .L_after_safepoint_poll
        ++ slowBlock .L_reguard sp .downcall_reguard .reguard_yellow_pages [] fl
          .L_after_reguard)))
    (j3 : jump code .L_reguard =
      some (slowBlock .L_reguard sp .downcall_reguard .reguard_yellow_pages [] fl
          .L_after_reguard))
    (j4 : jump code .L_after_reguard =
      some (stubAfterReguard
        ++ (slowBlock .L_safepoint_poll_slow_path sp .downcall_trans
          .check_special_condition_for_native_trans [R16_thread] fl .L_after_safepoint_poll
        ++ slowBlock .L_reguard sp .downcall_reguard .reguard_yellow_pages [] fl
          .L_after_reguard)))
    (fuel : Nat) (hfuel : sh.length + un.length + 2 * sp.length + 2 * fl.length + 37 ≤ fuel) :
    ∃ pre,
      (∀ i ∈ pre, i ≠ Instr.li R11_scratch1 (.thread_state ._thread_in_Java) ∧
        i ≠ Instr.blr ∧
        i ≠ Instr.call_VM_leaf .check_special_condition_for_native_trans [R16_thread]) ∧
      (env.untested_stops = true →
        run code env fuel Ctl.unknown (stubCode afs tgt sh un sp fl sp fl) =
          (pre ++ Instr.bind .L_safepoint_poll_slow_path ::
            (sp ++ [Instr.untested .downcall_trans]), .stopped)) ∧
      (env.untested_stops = false →
        ∃ more, run code env fuel Ctl.unknown (stubCode afs tgt sh un sp fl sp fl) =
          (pre ++ Instr.bind .L_safepoint_poll_slow_path ::
            (sp ++ (Instr.untested .downcall_trans ::
              Instr.call_VM_leaf .check_special_condition_for_native_trans [R16_thread] ::
              (fl ++ (Instr.b .L_after_safepoint_poll ::
                Instr.bind .L_after_safepoint_poll ::
                Instr.li R11_scratch1 (.thread_state ._thread_in_Java) ::
                Instr.lwsync ::
                Instr.stw R11_scratch1 .thread_state_offset R16_thread :: more)))),
            .returned) ∧
          Instr.blr ∈ more) := by
  have hpre : ∀ tpre : List Instr, (∀ i ∈ tpre, i ∈ stubPollPart) →
      ∀ i ∈ DowncallStubGenerator.prologue afs
        ++ (sh ++ (Instr.mtctr tgt :: Instr.bctrl :: (un ++ tpre))),
      i ≠ Instr.li R11_scratch1 (.thread_state ._thread_in_Java) ∧ i ≠ Instr.blr ∧
      i ≠ Instr.call_VM_leaf .check_special_condition_for_native_trans [R16_thread] := by
    intro tpre htpre i hi
    simp only [List.mem_append, List.mem_cons] at hi
    rcases hi with hi | hi | hi | hi | hi | hi
    · simp only [DowncallStubGenerator.prologue, List.mem_cons, List.mem_singleton,
        List.not_mem_nil, or_false] at hi
      rcases hi with rfl | rfl | rfl | rfl | rfl | rfl | rfl <;> simp
    · exact straight_ne_marks i (hsh i hi)
    · rw [hi]; simp
    · rw [hi]; simp
    · exact straight_ne_marks i (hun i hi)
    · have := htpre i hi
      simp only [stubPollPart, List.mem_cons, List.mem_singleton, List.not_mem_nil,
        or_false] at this
      rcases this with rfl | rfl | rfl | rfl | rfl | rfl | rfl | rfl <;> simp
  simp only [stubCode]
  rw [run_prologue code env _ fuel (by omega),
    run_straight_le code env _ hsh _ (by omega),
    run_native_call code env _ _ (by omega),
    run_straight_le code env _ hun _ (by omega)]
  rcases Bool.eq_false_or_eq_true env.poll_armed with hpoll | hpoll
  · -- the poll itself branches
    rw [run_poll_armed code env _ hpoll j1 _ (by omega)]
    refine ⟨DowncallStubGenerator.prologue afs
        ++ (sh ++ (Instr.mtctr tgt :: Instr.bctrl :: (un ++ stubPollPart.take 5))),
      hpre _ (fun i hi => List.mem_of_mem_take hi), ?_, ?_⟩
    · intro hstop
      rw [run_slow_block_stops code env _ _ sp fl _ _ _ hsp hstop _ (by omega)]
      simp
    · intro hstop
      rw [run_slow_block_through code env _ _ sp fl _ _ _ _ hsp hfl hstop j2 _ (by omega)]
      obtain ⟨more, hm, hblr⟩ := run_after_poll code env sp fl _ hsp hfl hstop j3 j4
        (fuel - 7 - sh.length - 2 - un.length - 5 - (sp.length + fl.length + 4)) (by omega)
        (List.foldl (Ctl.step env) Ctl.unknown fl)
        (slowBlock .L_safepoint_poll_slow_path sp .downcall_trans
            .check_special_condition_for_native_trans [R16_thread] fl .L_after_safepoint_poll
          ++ slowBlock .L_reguard sp .downcall_reguard .reguard_yellow_pages [] fl
            .L_after_reguard)
      refine ⟨more, ?_, hblr⟩
      rw [hm]
      simp
  · -- the poll falls through, the suspend flags are not zero
    have hsus : env.field_eq .suspend_flags_offset (.int 0) = false := by
      rcases hpending with h | h
      · rw [h] at hpoll; cases hpoll
      · exact h
    rw [run_poll_suspended code env _ hpoll hsus j1 _ (by omega)]
    refine ⟨DowncallStubGenerator.prologue afs
        ++ (sh ++ (Instr.mtctr tgt :: Instr.bctrl :: (un ++ stubPollPart))),
      hpre _ (fun i hi => hi), ?_, ?_⟩
    · intro hstop
      rw [run_slow_block_stops code env _ _ sp fl _ _ _ hsp hstop _ (by omega)]
      simp
    · intro hstop
      rw [run_slow_block_through code env _ _ sp fl _ _ _ _ hsp hfl hstop j2 _ (by omega)]
      obtain ⟨more, hm, hblr⟩ := run_after_poll code env sp fl _ hsp hfl hstop j3 j4
        (fuel - 7 - sh.length - 2 - un.length - 8 - (sp.length + fl.length + 4)) (by omega)
        (List.foldl (Ctl.step env) Ctl.unknown fl)
        (slowBlock .L_safepoint_poll_slow_path sp .downcall_trans
            .check_special_condition_for_native_trans [R16_thread] fl .L_after_safepoint_poll
          ++ slowBlock .L_reguard sp .downcall_reguard .reguard_yellow_pages [] fl
            .L_after_reguard)
      refine ⟨more, ?_, hblr⟩
      rw [hm]
      simp

theorem stubCode_length (afs : Int) (tgt : Register) (sh un sp1 fl1 sp2 fl2 : List Instr) :
    (stubCode afs tgt sh un sp1 fl1 sp2 fl2).length =
      sh.length + un.length + sp1.length + fl1.length + sp2.length + fl2.length + 37 := by
  simp [stubCode, slowBlock, stubPollPart, stubAfterPoll, stubAfterReguard,
    DowncallStubGenerator.prologue]
  omega

/-- C9: for a downcall stub generated without fatal error, the code is the main line
followed by the block `L_safepoint_poll_slow_path` and the block `L_reguard`; the
safepoint poll and the `bne` after the suspend-flags comparison both target
`L_safepoint_poll_slow_path`; that block spills exactly the registers of
`_output_registers` at `spill_offset = frame::abi_reg_args_size`, has the `untested` mark,
calls `JavaThread::check_special_condition_for_native_trans` with `R16_thread`, fills the
same registers from the same offsets and branches to `L_after_safepoint_poll`, which is
bound directly before `li tmp,_thread_in_Java; lwsync; stw`.  In every run from the stub
entry with enough fuel in which the poll is armed or the suspend flags are not zero,
nothing executed before the slow path is entered loads `_thread_in_Java`, returns or calls
the check routine; if the code behind `untested` stops the run, the run ends there,
before the call; otherwise the call of the check routine is executed, then the fill, then
the store of `_thread_in_Java`, and the run ends with the return. -/
theorem C9_safepoint_slow_path (P : Platform) (g : DowncallStubGenerator) (env : Env)
    (fuel : Nat)
    (hok : (g.generate P).error = none)
    (hpending : env.poll_armed = true ∨ env.field_eq .suspend_flags_offset (.int 0) = false)
    (hfuel : (g.generate P).code.length ≤ fuel) :
    ∃ un pre,
      unpack_native_result g._ret_bt = .ok un ∧
      (g.generate P).code =
        stubCode (g.generate P).allocated_frame_size g._abi._target_addr_reg
          (ArgumentShuffle.pd_generate g.arg_shuffle._moves R11_scratch1
            P.jit_out_preserve_size g._abi._shadow_space_bytes).code
          un
          (RegSpiller.generate_spill g._output_registers P.abi_reg_args_size)
          (RegSpiller.generate_fill g._output_registers P.abi_reg_args_size)
          (RegSpiller.generate_spill g._output_registers P.abi_reg_args_size)
          (RegSpiller.generate_fill g._output_registers P.abi_reg_args_size) ∧
      jump (g.generate P).code .L_safepoint_poll_slow_path =
        some (slowBlock .L_safepoint_poll_slow_path
            (RegSpiller.generate_spill g._output_registers P.abi_reg_args_size)
            .downcall_trans .check_special_condition_for_native_trans [R16_thread]
            (RegSpiller.generate_fill g._output_registers P.abi_reg_args_size)
            .L_after_safepoint_poll
          ++ slowBlock .L_reguard
            (RegSpiller.generate_spill g._output_registers P.abi_reg_args_size)
            .downcall_reguard .reguard_yellow_pages []
            (RegSpiller.generate_fill g._output_registers P.abi_reg_args_size)
            .L_after_reguard) ∧
      (∃ behind, jump (g.generate P).code .L_after_safepoint_poll =
        some (Instr.bind .L_after_safepoint_poll ::
          Instr.li R11_scratch1 (.thread_state ._thread_in_Java) ::
          Instr.lwsync ::
          Instr.stw R11_scratch1 .thread_state_offset R16_thread :: behind)) ∧
      RegSpiller.generate_fill g._output_registers P.abi_reg_args_size =
        (RegSpiller.generate_spill g._output_registers P.abi_reg_args_size).map Instr.toLoad ∧
      (∀ r : Register, VMReg.gpr r ∈ g._output_registers ↔
        ∃ o, Instr.std r o R1_SP ∈
          RegSpiller.generate_spill g._output_registers P.abi_reg_args_size) ∧
      (∀ f : FloatRegister, VMReg.fpr f ∈ g._output_registers ↔
        ∃ o, Instr.stfd f o R1_SP ∈
          RegSpiller.generate_spill g._output_registers P.abi_reg_args_size) ∧
      (∀ i ∈ pre ++ RegSpiller.generate_spill g._output_registers P.abi_reg_args_size,
        i ≠ Instr.li R11_scratch1 (.thread_state ._thread_in_Java) ∧ i ≠ Instr.blr ∧
        i ≠ Instr.call_VM_leaf .check_special_condition_for_native_trans [R16_thread]) ∧
      (env.untested_stops = true →
        runStub (g.generate P).code env fuel =
          (pre ++ Instr.bind .L_safepoint_poll_slow_path ::
            (RegSpiller.generate_spill g._output_registers P.abi_reg_args_size
              ++ [Instr.untested .downcall_trans]), .stopped)) ∧
      (env.untested_stops = false →
        ∃ more, runStub (g.generate P).code env fuel =
          (pre ++ Instr.bind .L_safepoint_poll_slow_path ::
            (RegSpiller.generate_spill g._output_registers P.abi_reg_args_size
              ++ (Instr.untested .downcall_trans ::
              Instr.call_VM_leaf .check_special_condition_for_native_trans [R16_thread] ::
              (RegSpiller.generate_fill g._output_registers P.abi_reg_args_size
                ++ (Instr.b .L_after_safepoint_poll ::
                Instr.bind .L_after_safepoint_poll ::
                Instr.li R11_scratch1 (.thread_state ._thread_in_Java) ::
                Instr.lwsync ::
                Instr.stw R11_scratch1 .thread_state_offset R16_thread :: more)))),
            .returned) ∧
          Instr.blr ∈ more) := by
  obtain ⟨un, hu, hcode⟩ := generate_code_eq_stubCode P g hok
  have hsh := pd_generate_straight g.arg_shuffle._moves R11_scratch1 P.jit_out_preserve_size
    g._abi._shadow_space_bytes
  have hun := unpack_straight g._ret_bt un hu
  have hsp : ∀ i ∈ RegSpiller.generate_spill g._output_registers P.abi_reg_args_size,
      i.isStraight = true := generate_straight _ _ _
  have hfl : ∀ i ∈ RegSpiller.generate_fill g._output_registers P.abi_reg_args_size,
      i.isStraight = true := generate_straight _ _ _
  obtain ⟨j1, j2, j3, j4⟩ := stub_jumps (g.generate P).allocated_frame_size
    g._abi._target_addr_reg _ un _ _
    (RegSpiller.generate_spill g._output_registers P.abi_reg_args_size)
    (RegSpiller.generate_fill g._output_registers P.abi_reg_args_size) hsh hun hsp hfl
  rw [← hcode] at j1 j2 j3 j4
  have hlen := stubCode_length (g.generate P).allocated_frame_size g._abi._target_addr_reg
    (ArgumentShuffle.pd_generate g.arg_shuffle._moves R11_scratch1
      P.jit_out_preserve_size g._abi._shadow_space_bytes).code un
    (RegSpiller.generate_spill g._output_registers P.abi_reg_args_size)
    (RegSpiller.generate_fill g._output_registers P.abi_reg_args_size)
    (RegSpiller.generate_spill g._output_registers P.abi_reg_args_size)
    (RegSpiller.generate_fill g._output_registers P.abi_reg_args_size)
  rw [← hcode] at hlen
  obtain ⟨pre, hpre, hstopped, hthrough⟩ := run_pending_core (g.generate P).code
    (g.generate P).allocated_frame_size g._abi._target_addr_reg _ un _ _ env hsh hun hsp hfl
    hpending j1 j2 j3 j4 fuel (by omega)
  rw [← hcode] at hstopped hthrough
  refine ⟨un, pre, hu, hcode, j1, ⟨_, by rw [j2]; rfl⟩,
    generate_fill_eq_map_toLoad _ _, fun r => (std_mem_generate_spill _ _ r).symm,
    fun f => (stfd_mem_generate_spill _ _ f).symm, ?_, hstopped, hthrough⟩
  intro i hi
  rcases List.mem_append.mp hi with h | h
  · exact hpre i h
  · exact straight_ne_marks i (hsp i h)

/-- C9 at the sample downcall returning `boolean`, with the safepoint poll armed and
`untested` falling through: the run returns and has called the check routine. -/
theorem C9_safepoint_slow_path_witness :
    ∃ t, runStub ((sampleDowncall .T_BOOLEAN).generate samplePlatform).code
        (safepointEnv false) 50 = (t, .returned) ∧
      Instr.call_VM_leaf .check_special_condition_for_native_trans [R16_thread] ∈ t := by
  obtain ⟨un, pre, _, _, _, _, _, _, _, _, _, hthrough⟩ := C9_safepoint_slow_path
    samplePlatform (sampleDowncall .T_BOOLEAN) (safepointEnv false) 50 rfl (Or.inl rfl)
    (by decide)
  obtain ⟨more, hrun, _⟩ := hthrough rfl
  exact ⟨_, hrun, by simp⟩

/-! ## The argument shuffle -/

theorem pd_generate_ok_cons (mv : Move) (rest : List Move) (tmp : Register) (a b : Int)
    (hok : (ArgumentShuffle.pd_generate (mv :: rest) tmp a b).error = none) :
    ∃ i, ArgumentShuffle.pd_generate_move mv tmp a b = .ok i ∧
      (ArgumentShuffle.pd_generate (mv :: rest) tmp a b).code =
        i :: (ArgumentShuffle.pd_generate rest tmp a b).code ∧
      (ArgumentShuffle.pd_generate rest tmp a b).error = none := by
  cases h : ArgumentShuffle.pd_generate_move mv tmp a b with
  | error e => simp [ArgumentShuffle.pd_generate, h] at hok
  | ok i =>
    simp only [ArgumentShuffle.pd_generate, h] at hok ⊢
    exact ⟨i, rfl, rfl, hok⟩

theorem pd_generate_move_self (mv : Move) (tmp : Register) (a b : Int) (i : Instr)
    (h : ArgumentShuffle.pd_generate_move mv tmp a b = .ok i) (hself : mv.src = mv.dst) :
    i = .int_move mv.src mv.src tmp R0 a b ∨ i = .float_move mv.src mv.src tmp R0 a b ∨
    i = .double_move mv.src mv.src tmp R0 a b ∨ i = .long_move mv.src mv.src tmp R0 a b := by
  unfold ArgumentShuffle.pd_generate_move at h
  rw [← hself] at h
  cases hbt : mv.bt <;> simp [hbt] at h <;> simp [← h]

/-- C10 (as stated, refuted): for a move list whose first move has `R3` both as source and
as destination, `pd_generate` emits the move operation `int_move` for that move, with
`R3` as source and as destination. -/
theorem C10_self_move_emitted_counterexample :
    (selfMoveList.head?.map (fun mv => decide (mv.src = mv.dst))) = some true ∧
    ArgumentShuffle.pd_generate selfMoveList R11_scratch1 32 96 =
      { code := [ .int_move ⟨.gpr ⟨3⟩, .bad⟩ ⟨.gpr ⟨3⟩, .bad⟩ R11_scratch1 R0 32 96,
                  .long_move ⟨.gpr ⟨4⟩, .gpr ⟨4⟩⟩ ⟨.gpr ⟨5⟩, .gpr ⟨5⟩⟩ R11_scratch1 R0 32 96 ],
        error := none } := by
  decide

/-- C10 (amended): for every move list with which `pd_generate` ends without fatal
error, one item is emitted per move (the emitted sequence is as long as the list), and
for a move whose source and destination coincide this item is the move operation of its
type (`int_move`, `float_move`, `double_move` or `long_move`) with that location as source
and as destination: `pd_generate` itself leaves out no move. -/
theorem C10_self_moves_handed_on (moves : List Move) (tmp : Register) (a b : Int)
    (hok : (ArgumentShuffle.pd_generate moves tmp a b).error = none) :
    (ArgumentShuffle.pd_generate moves tmp a b).code.length = moves.length ∧
    ∀ mv ∈ moves, mv.src = mv.dst →
      (Instr.int_move mv.src mv.src tmp R0 a b ∈ (ArgumentShuffle.pd_generate moves tmp a b).code ∨
       Instr.float_move mv.src mv.src tmp R0 a b ∈
         (ArgumentShuffle.pd_generate moves tmp a b).code ∨
       Instr.double_move mv.src mv.src tmp R0 a b ∈
         (ArgumentShuffle.pd_generate moves tmp a b).code ∨
       Instr.long_move mv.src mv.src tmp R0 a b ∈
         (ArgumentShuffle.pd_generate moves tmp a b).code) := by
  induction moves with
  | nil => simp [ArgumentShuffle.pd_generate]
  | cons m rest ih =>
    obtain ⟨i, hi, hcode, hrest⟩ := pd_generate_ok_cons m rest tmp a b hok
    obtain ⟨hlen, hmem⟩ := ih hrest
    rw [hcode]
    refine ⟨by simp [hlen], ?_⟩
    intro mv hmv hself
    rcases List.mem_cons.mp hmv with rfl | hin
    · rcases pd_generate_move_self mv tmp a b i hi hself with h | h | h | h
      · exact Or.inl (by rw [h]; exact List.mem_cons_self _ _)
      · exact Or.inr (Or.inl (by rw [h]; exact List.mem_cons_self _ _))
      · exact Or.inr (Or.inr (Or.inl (by rw [h]; exact List.mem_cons_self _ _)))
      · exact Or.inr (Or.inr (Or.inr (by rw [h]; exact List.mem_cons_self _ _)))
    · rcases hmem mv hin hself with h | h | h | h
      · exact Or.inl (List.mem_cons_of_mem _ h)
      · exact Or.inr (Or.inl (List.mem_cons_of_mem _ h))
      · exact Or.inr (Or.inr (Or.inl (List.mem_cons_of_mem _ h)))
      · exact Or.inr (Or.inr (Or.inr (List.mem_cons_of_mem _ h)))

/-- C10 (amended) at the sample move list. -/
theorem C10_self_moves_handed_on_witness :
    (ArgumentShuffle.pd_generate selfMoveList R11_scratch1 32 96).code.length
      = selfMoveList.length ∧
    ∀ mv ∈ selfMoveList, mv.src = mv.dst →
      (Instr.int_move mv.src mv.src R11_scratch1 R0 32 96 ∈
         (ArgumentShuffle.pd_generate selfMoveList R11_scratch1 32 96).code ∨
       Instr.float_move mv.src mv.src R11_scratch1 R0 32 96 ∈
         (ArgumentShuffle.pd_generate selfMoveList R11_scratch1 32 96).code ∨
       Instr.double_move mv.src mv.src R11_scratch1 R0 32 96 ∈
         (ArgumentShuffle.pd_generate selfMoveList R11_scratch1 32 96).code ∨
       Instr.long_move mv.src mv.src R11_scratch1 R0 32 96 ∈
         (ArgumentShuffle.pd_generate selfMoveList R11_scratch1 32 96).code) :=
  C10_self_moves_handed_on selfMoveList R11_scratch1 32 96 rfl

/-! ## Downcall: fatal errors -/

theorem unpack_supported (bt : BasicType) :
    (bt ∈ supported_return_types → ∃ u, unpack_native_result bt = .ok u) ∧
    (bt ∉ supported_return_types → unpack_native_result bt = .error .ShouldNotReachHere) := by
  cases bt <;> simp [supported_return_types, unpack_native_result]

/-- C11: without a return buffer, `DowncallStubGenerator::generate` ends in a fatal error
for every return type outside `T_BOOLEAN`, `T_CHAR`, `T_BYTE`, `T_SHORT`, `T_INT`,
`T_LONG`, `T_FLOAT`, `T_DOUBLE`, `T_VOID`; when the argument shuffle has been emitted
without fatal error, so that the `switch (_ret_bt)` is reached, this error is
`ShouldNotReachHere` and the code emitted up to then ends with the native call.  For
every return type inside that set the `switch` does not fail, and the generation ends
without fatal error when the argument shuffle does.  The `switch` alone fails exactly for
the types outside the set. -/
theorem C11_return_type_closure (P : Platform) (g : DowncallStubGenerator)
    (hrb : g._needs_return_buffer = false) :
    (g._ret_bt ∉ supported_return_types →
      (g.generate P).error ≠ none ∧
      ((g.arg_shuffle.generate R11_scratch1 P.jit_out_preserve_size
          g._abi._shadow_space_bytes).error = none →
        (g.generate P).error = some .ShouldNotReachHere ∧
        (g.generate P).code =
          DowncallStubGenerator.prologue (g.allocated_frame_size P)
            ++ (g.arg_shuffle.generate R11_scratch1 P.jit_out_preserve_size
                  g._abi._shadow_space_bytes).code
            ++ [.mtctr g._abi._target_addr_reg, .bctrl])) ∧
    (g._ret_bt ∈ supported_return_types →
      (∃ u, unpack_native_result g._ret_bt = .ok u) ∧
      (g.generate P).error =
        (g.arg_shuffle.generate R11_scratch1 P.jit_out_preserve_size
          g._abi._shadow_space_bytes).error) ∧
    (∀ bt : BasicType, bt ∉ supported_return_types ↔
      unpack_native_result bt = .error .ShouldNotReachHere) ∧
    (∀ bt : BasicType, bt ∈ supported_return_types ↔
      ∃ u, unpack_native_result bt = .ok u) := by
  refine ⟨?_, ?_, ?_, ?_⟩
  · intro hbt
    have hu := (unpack_supported g._ret_bt).2 hbt
    constructor
    · cases hs : (g.arg_shuffle.generate R11_scratch1 P.jit_out_preserve_size
          g._abi._shadow_space_bytes).error <;>
        simp [DowncallStubGenerator.generate, hrb, hs, hu]
    · intro hs
      simp [DowncallStubGenerator.generate, hrb, hs, hu]
  · intro hbt
    obtain ⟨u, hu⟩ := (unpack_supported g._ret_bt).1 hbt
    refine ⟨⟨u, hu⟩, ?_⟩
    cases hs : (g.arg_shuffle.generate R11_scratch1 P.jit_out_preserve_size
        g._abi._shadow_space_bytes).error <;>
      simp [DowncallStubGenerator.generate, hrb, hs, hu]
  · intro bt
    refine ⟨(unpack_supported bt).2, ?_⟩
    intro h hin
    obtain ⟨u, hu⟩ := (unpack_supported bt).1 hin
    rw [hu] at h
    cases h
  · intro bt
    refine ⟨(unpack_supported bt).1, ?_⟩
    rintro ⟨u, hu⟩
    by_contra hnot
    rw [(unpack_supported bt).2 hnot] at hu
    cases hu

/-- C11 at the sample downcall with return type `T_OBJECT`: the generation ends in
`ShouldNotReachHere`. -/
theorem C11_return_type_closure_witness :
    ((sampleDowncall .T_OBJECT).generate samplePlatform).error = some .ShouldNotReachHere := by
  have h := (C11_return_type_closure samplePlatform (sampleDowncall .T_OBJECT) rfl).1
  exact ((h (by decide)).2 rfl).1

/-- C12: called with `_needs_return_buffer = true`, `DowncallStubGenerator::generate`
ends in the fatal error `ShouldNotReachHere` with no code emitted and `_framesize` still
at its initial value 0, whatever the signature and the ABI descriptor are. -/
theorem C12_return_buffer_rejected (P : Platform) (g : DowncallStubGenerator)
    (hrb : g._needs_return_buffer = true) :
    (g.generate P).error = some .ShouldNotReachHere ∧
    (g.generate P).code = [] ∧
    (g.generate P)._framesize = 0 ∧
    (g.generate P).framesize = 0 := by
  simp [DowncallStubGenerator.generate, hrb, Generated.framesize]

/-- C12 at the sample downcall asked to use a return buffer. -/
theorem C12_return_buffer_rejected_witness :
    (sampleDowncallReturnBuffer.generate samplePlatform).error = some .ShouldNotReachHere ∧
    (sampleDowncallReturnBuffer.generate samplePlatform).code = [] ∧
    (sampleDowncallReturnBuffer.generate samplePlatform)._framesize = 0 ∧
    (sampleDowncallReturnBuffer.generate samplePlatform).framesize = 0 :=
  C12_return_buffer_rejected samplePlatform sampleDowncallReturnBuffer rfl

/-! ## The argument shuffle: dispatch on the type -/

theorem pd_generate_move_supported (mv : Move) (tmp : Register) (a b : Int) :
    (mv.bt ∈ supported_move_types →
      ArgumentShuffle.pd_generate_move mv tmp a b = .ok (expected_move_operation mv tmp a b)) ∧
    (mv.bt ∉ supported_move_types →
      ArgumentShuffle.pd_generate_move mv tmp a b =
        .error (.fatal_found_in_upcall_args mv.bt)) := by
  unfold ArgumentShuffle.pd_generate_move expected_move_operation
  cases h : mv.bt <;> simp [supported_move_types]

theorem pd_generate_all_supported (moves : List Move) (tmp : Register) (a b : Int)
    (h : ∀ mv ∈ moves, mv.bt ∈ supported_move_types) :
    ArgumentShuffle.pd_generate moves tmp a b =
      { code := moves.map (fun mv => expected_move_operation mv tmp a b), error := none } := by
  induction moves with
  | nil => rfl
  | cons mv rest ih =>
    have h1 := (pd_generate_move_supported mv tmp a b).1 (h mv (List.mem_cons_self _ _))
    have h2 := ih (fun m hm => h m (List.mem_cons_of_mem _ hm))
    simp only [ArgumentShuffle.pd_generate, h1, h2, List.map_cons]

theorem pd_generate_first_unsupported (pre : List Move) (mv : Move) (post : List Move)
    (tmp : Register) (a b : Int)
    (hpre : ∀ m ∈ pre, m.bt ∈ supported_move_types) (hmv : mv.bt ∉ supported_move_types) :
    ArgumentShuffle.pd_generate (pre ++ mv :: post) tmp a b =
      { code := pre.map (fun m => expected_move_operation m tmp a b),
        error := some (.fatal_found_in_upcall_args mv.bt) } := by
  induction pre with
  | nil =>
    have h1 := (pd_generate_move_supported mv tmp a b).2 hmv
    simp only [List.nil_append, ArgumentShuffle.pd_generate, h1, List.map_nil]
  | cons m rest ih =>
    have h1 := (pd_generate_move_supported m tmp a b).1 (hpre m (List.mem_cons_self _ _))
    have h2 := ih (fun x hx => hpre x (List.mem_cons_of_mem _ hx))
    rw [List.cons_append]
    simp only [ArgumentShuffle.pd_generate, h1, List.map_cons]
    rw [h2]

theorem exists_first_unsupported (moves : List Move)
    (h : ¬ ∀ mv ∈ moves, mv.bt ∈ supported_move_types) :
    ∃ pre mv post, moves = pre ++ mv :: post ∧
      (∀ m ∈ pre, m.bt ∈ supported_move_types) ∧ mv.bt ∉ supported_move_types := by
  induction moves with
  | nil => simp at h
  | cons m rest ih =>
    by_cases hm : m.bt ∈ supported_move_types
    · have hrest : ¬ ∀ mv ∈ rest, mv.bt ∈ supported_move_types := by
        intro hall
        apply h
        intro mv hmv
        rcases List.mem_cons.mp hmv with rfl | hin
        · exact hm
        · exact hall mv hin
      obtain ⟨pre, mv, post, e, hpre, hmv⟩ := ih hrest
      refine ⟨m :: pre, mv, post, by rw [e]; rfl, ?_, hmv⟩
      intro x hx
      rcases List.mem_cons.mp hx with rfl | hin
      · exact hm
      · exact hpre x hin
    · exact ⟨[], m, rest, rfl, by simp, hm⟩

/-- C13: `ArgumentShuffle::pd_generate` ends without fatal error exactly when every move
of the list has a type among `T_BOOLEAN`, `T_BYTE`, `T_SHORT`, `T_CHAR`, `T_INT`,
`T_FLOAT`, `T_DOUBLE`, `T_LONG`; it then emits one move operation per move, in list
order, with the source and destination of the move, `tmp` and `R0` as scratch registers
and the two stack biases: `int_move` for boolean, byte, short, char and int, `float_move`
for float, `double_move` for double, one `long_move` for long.  With a move of another
type in the list, it ends in the fatal error at the first such move, after the move
operations of the moves before it. -/
theorem C13_move_emission_dispatch (moves : List Move) (tmp : Register) (a b : Int) :
    ((ArgumentShuffle.pd_generate moves tmp a b).error = none ↔
      ∀ mv ∈ moves, mv.bt ∈ supported_move_types) ∧
    ((∀ mv ∈ moves, mv.bt ∈ supported_move_types) →
      (ArgumentShuffle.pd_generate moves tmp a b).code =
        moves.map (fun mv => expected_move_operation mv tmp a b)) ∧
    (∀ pre mv post, moves = pre ++ mv :: post →
      (∀ m ∈ pre, m.bt ∈ supported_move_types) → mv.bt ∉ supported_move_types →
      ArgumentShuffle.pd_generate moves tmp a b =
        { code := pre.map (fun m => expected_move_operation m tmp a b),
          error := some (.fatal_found_in_upcall_args mv.bt) }) ∧
    (∀ (bt : BasicType) (src dst : VMRegPair),
      expected_move_operation ⟨bt, src, dst⟩ tmp a b =
        if bt = .T_FLOAT then .float_move src dst tmp R0 a b
        else if bt = .T_DOUBLE then .double_move src dst tmp R0 a b
        else if bt = .T_LONG then .long_move src dst tmp R0 a b
        else .int_move src dst tmp R0 a b) := by
  refine ⟨⟨?_, ?_⟩, ?_, ?_, ?_⟩
  · intro hok
    by_contra hnot
    obtain ⟨pre, mv, post, e, hpre, hmv⟩ := exists_first_unsupported moves hnot
    rw [e, pd_generate_first_unsupported pre mv post tmp a b hpre hmv] at hok
    cases hok
  · intro h
    rw [pd_generate_all_supported moves tmp a b h]
  · intro h
    rw [pd_generate_all_supported moves tmp a b h]
  · intro pre mv post e hpre hmv
    rw [e]
    exact pd_generate_first_unsupported pre mv post tmp a b hpre hmv
  · intro bt src dst
    cases bt <;> simp [expected_move_operation]

/-! ## The register spiller -/

/-- C14: for every location and offset, `RegSpiller::pd_load_reg` emits the load that
belongs to the store of `RegSpiller::pd_store_reg`: `std`/`ld` of the same general
purpose register, `stfd`/`lfd` of the same float register, at the same offset from
`R1_SP`; both emit nothing for a stack slot and for the invalid location;
`RegSpiller::pd_reg_size` is 8 for every location.  Run on a machine, the store followed
by the load leaves the register with the value it had (taken modulo `2 ^ 64`). -/
theorem C14_spiller_store_load_symmetry (reg : VMReg) (offset : Int) :
    RegSpiller.pd_load_reg offset reg = (RegSpiller.pd_store_reg offset reg).map Instr.toLoad ∧
    (∀ r : Register,
      RegSpiller.pd_store_reg offset (.gpr r) = [.std r offset R1_SP] ∧
      RegSpiller.pd_load_reg offset (.gpr r) = [.ld r offset R1_SP]) ∧
    (∀ f : FloatRegister,
      RegSpiller.pd_store_reg offset (.fpr f) = [.stfd f offset R1_SP] ∧
      RegSpiller.pd_load_reg offset (.fpr f) = [.lfd f offset R1_SP]) ∧
    (∀ slot : Nat,
      RegSpiller.pd_store_reg offset (.stack slot) = [] ∧
      RegSpiller.pd_load_reg offset (.stack slot) = []) ∧
    RegSpiller.pd_store_reg offset .bad = [] ∧
    RegSpiller.pd_load_reg offset .bad = [] ∧
    RegSpiller.pd_reg_size reg = 8 ∧
    (∀ (m : Machine) (r : Register),
      (execAll (RegSpiller.pd_store_reg offset (.gpr r)
        ++ RegSpiller.pd_load_reg offset (.gpr r)) m).map (fun m1 => m1.gpr r)
        = some (m.gpr r % 2 ^ 64)) ∧
    (∀ (m : Machine) (f : FloatRegister),
      (execAll (RegSpiller.pd_store_reg offset (.fpr f)
        ++ RegSpiller.pd_load_reg offset (.fpr f)) m).map (fun m1 => m1.fpr f)
        = some (m.fpr f % 2 ^ 64)) := by
  refine ⟨?_, fun r => ⟨rfl, rfl⟩, fun f => ⟨rfl, rfl⟩, fun s => ⟨rfl, rfl⟩, rfl, rfl, rfl,
    ?_, ?_⟩
  · cases reg <;> rfl
  · intro m r
    simp [RegSpiller.pd_store_reg, RegSpiller.pd_load_reg, execAll, Instr.exec,
      Machine.setGpr, effAddr, loadDword_storeDword_mod]
  · intro m f
    simp [RegSpiller.pd_store_reg, RegSpiller.pd_load_reg, execAll, Instr.exec,
      Machine.setFpr, effAddr, loadDword_storeDword_mod]

/-! ## Sizes: the callee-save area and the downcall frame -/

theorem generate_slot_bounds (regs : List VMReg) (off : Int) (s : Bool) (i : Instr)
    (h : i ∈ RegSpiller.generate regs off s) :
    ∃ o, i.slotOffset = some o ∧ off ≤ o ∧ o + 8 ≤ off + 8 * (regs.length : Int) := by
  induction regs generalizing off with
  | nil => simp [RegSpiller.generate] at h
  | cons v rest ih =>
    have e : off + 8 * ((rest.length + 1 : Nat) : Int) = off + 8 + 8 * (rest.length : Int) := by
      push_cast; ring
    have tail : i ∈ RegSpiller.generate rest (off + 8) s →
        ∃ o, i.slotOffset = some o ∧ off ≤ o ∧
          o + 8 ≤ off + 8 * (((v :: rest).length : Nat) : Int) := by
      intro h1
      obtain ⟨o, ho, hlo, hhi⟩ := ih (off + 8) h1
      refine ⟨o, ho, by omega, ?_⟩
      rw [List.length_cons, e]
      exact hhi
    have head : i.slotOffset = some off →
        ∃ o, i.slotOffset = some o ∧ off ≤ o ∧
          o + 8 ≤ off + 8 * (((v :: rest).length : Nat) : Int) := by
      intro h1
      refine ⟨off, h1, le_refl _, ?_⟩
      rw [List.length_cons, e]
      have : (0 : Int) ≤ 8 * (rest.length : Int) := by positivity
      omega
    cases v <;> cases s <;>
      simp [RegSpiller.generate, RegSpiller.pd_store_reg, RegSpiller.pd_load_reg,
        RegSpiller.pd_reg_size] at h
    all_goals first
      | exact tail h
      | (rcases h with h | h
         · exact head (by rw [h]; rfl)
         · exact tail h)

theorem generate_length_registers (regs : List VMReg) (off : Int) (s : Bool)
    (h : ∀ v ∈ regs, v.is_Register = true ∨ v.is_FloatRegister = true) :
    (RegSpiller.generate regs off s).length = regs.length := by
  induction regs generalizing off with
  | nil => rfl
  | cons v rest ih =>
    have hrest := ih (off + 8) (fun x hx => h x (List.mem_cons_of_mem _ hx))
    have hv := h v (List.mem_cons_self _ _)
    cases v <;> cases s <;>
      simp [VMReg.is_Register, VMReg.is_FloatRegister] at hv <;>
      simp [RegSpiller.generate, RegSpiller.pd_store_reg, RegSpiller.pd_load_reg,
        RegSpiller.pd_reg_size, hrest]

theorem callee_saved_are_registers (P : Platform) (abi : ABIDescriptor) :
    ∀ v ∈ callee_saved_registers P abi, v.is_Register = true ∨ v.is_FloatRegister = true := by
  intro v hv
  simp only [callee_saved_registers, List.mem_append, List.mem_map] at hv
  rcases hv with ⟨r, _, rfl⟩ | ⟨f, _, rfl⟩
  · exact Or.inl rfl
  · exact Or.inr rfl

theorem spill_size_bytes_eq (regs : List VMReg) :
    RegSpiller.spill_size_bytes regs = 8 * (regs.length : Int) := by
  unfold RegSpiller.spill_size_bytes
  induction regs with
  | nil => simp
  | cons v rest ih =>
    simp only [List.map_cons, List.sum_cons, ih, RegSpiller.pd_reg_size, List.length_cons]
    push_cast
    ring

/-- C15: for every ABI descriptor and save-area offset, `compute_reg_save_area_size` is 8
times the number of items emitted by `preserve_callee_saved_registers`, all of which are
stores relative to `R1_SP`; every such store goes to an 8-byte slot inside
`[reg_save_area_offset, reg_save_area_offset + compute_reg_save_area_size)`; in the upcall
frame the frame data starts at `reg_save_area_offset + reg_save_area_size`, so every
register store ends at or below the start of the frame data. -/
theorem C15_callee_save_area_sizing (P : Platform) (abi : ABIDescriptor) (off : Int) :
    compute_reg_save_area_size P abi =
      8 * ((preserve_callee_saved_registers P abi off).length : Int) ∧
    (∀ i ∈ preserve_callee_saved_registers P abi off,
      (∃ r o, i = Instr.std r o R1_SP) ∨ (∃ f o, i = Instr.stfd f o R1_SP)) ∧
    (∀ i ∈ preserve_callee_saved_registers P abi off,
      ∃ o, i.slotOffset = some o ∧ off ≤ o ∧
        o + 8 ≤ off + compute_reg_save_area_size P abi) ∧
    (∀ (out_arg_stack_slots result_spill_size arg_spill_size : Int)
      (needs_return_buffer : Bool) (ret_buf_size : Int),
      (UpcallLinker.frame_layout P abi out_arg_stack_slots result_spill_size arg_spill_size
        needs_return_buffer ret_buf_size).reg_save_area_size
        = compute_reg_save_area_size P abi ∧
      (UpcallLinker.frame_layout P abi out_arg_stack_slots result_spill_size arg_spill_size
        needs_return_buffer ret_buf_size).frame_data_offset =
        (UpcallLinker.frame_layout P abi out_arg_stack_slots result_spill_size arg_spill_size
          needs_return_buffer ret_buf_size).reg_save_area_offset
        + compute_reg_save_area_size P abi ∧
      ∀ i ∈ preserve_callee_saved_registers P abi
          (UpcallLinker.frame_layout P abi out_arg_stack_slots result_spill_size
            arg_spill_size needs_return_buffer ret_buf_size).reg_save_area_offset,
        ∃ o, i.slotOffset = some o ∧
          (UpcallLinker.frame_layout P abi out_arg_stack_slots result_spill_size
            arg_spill_size needs_return_buffer ret_buf_size).reg_save_area_offset ≤ o ∧
          o + 8 ≤ (UpcallLinker.frame_layout P abi out_arg_stack_slots result_spill_size
            arg_spill_size needs_return_buffer ret_buf_size).frame_data_offset) := by
  have hlen : ∀ o : Int, (preserve_callee_saved_registers P abi o).length =
      (callee_saved_registers P abi).length := by
    intro o
    rw [preserve_eq_generate]
    exact generate_length_registers _ _ _ (callee_saved_are_registers P abi)
  have hslots : ∀ o : Int, ∀ i ∈ preserve_callee_saved_registers P abi o,
      ∃ x, i.slotOffset = some x ∧ o ≤ x ∧ x + 8 ≤ o + compute_reg_save_area_size P abi := by
    intro o i hi
    rw [preserve_eq_generate] at hi
    rw [compute_reg_save_area_size_eq]
    exact generate_slot_bounds _ _ _ i hi
  refine ⟨?_, ?_, hslots off, ?_⟩
  · rw [hlen, compute_reg_save_area_size_eq]
  · intro i hi
    rw [preserve_eq_generate] at hi
    exact mem_generate_spill_shape _ _ i hi
  · intro s1 s2 s3 nrb rbs
    refine ⟨rfl, rfl, ?_⟩
    intro i hi
    obtain ⟨x, hx, hlo, hhi⟩ := hslots _ i hi
    exact ⟨x, hx, hlo, hhi⟩

/-- C16: without a return buffer, with `frame::alignment_in_bytes = 16` and a
non-negative `frame::abi_reg_args_size`, the frame size in bytes that
`DowncallStubGenerator::generate` allocates is a multiple of 16 and at least
`abi_reg_args_size` plus the larger of the outgoing stack-argument bytes (4 per slot) and
the spill size of the return registers; the spill range
`[abi_reg_args_size, abi_reg_args_size + spill_size_bytes)` and every slot written by the
spill code lie inside the frame; `_framesize` times 4 and `framesize()` times 8 both equal
the allocated size. -/
theorem C16_downcall_frame_capacity (P : Platform) (g : DowncallStubGenerator)
    (hrb : g._needs_return_buffer = false)
    (h16 : P.alignment_in_bytes = 16) (habi : 0 ≤ P.abi_reg_args_size) :
    (16 : Int) ∣ (g.generate P).allocated_frame_size ∧
    P.abi_reg_args_size
        + max (g.arg_shuffle._out_arg_stack_slots * 4)
            (RegSpiller.spill_size_bytes g._output_registers)
      ≤ (g.generate P).allocated_frame_size ∧
    0 ≤ P.abi_reg_args_size ∧
    P.abi_reg_args_size + RegSpiller.spill_size_bytes g._output_registers
      ≤ (g.generate P).allocated_frame_size ∧
    (∀ i ∈ RegSpiller.generate_spill g._output_registers P.abi_reg_args_size,
      ∃ o, i.slotOffset = some o ∧ P.abi_reg_args_size ≤ o ∧
        o + 8 ≤ (g.generate P).allocated_frame_size) ∧
    (g.generate P)._framesize * 4 = (g.generate P).allocated_frame_size ∧
    (g.generate P).framesize * 8 = (g.generate P).allocated_frame_size := by
  have hd : (g.generate P).allocated_frame_size =
      align_up (MAX2 (RegSpiller.spill_size_bytes g._output_registers + P.abi_reg_args_size)
        (P.abi_reg_args_size + g.arg_shuffle._out_arg_stack_slots * 4)) 16 := by
    rw [← h16]
    simp only [DowncallStubGenerator.generate, hrb, Bool.false_eq_true, if_false]
    split
    · rfl
    · split <;> rfl
  have hf : (g.generate P)._framesize = (g.generate P).allocated_frame_size / 4 := by
    simp only [DowncallStubGenerator.generate, hrb, Bool.false_eq_true, if_false]
    split
    · rfl
    · split <;> rfl
  obtain ⟨a1, _, a3⟩ := align_up_spec
    (MAX2 (RegSpiller.spill_size_bytes g._output_registers + P.abi_reg_args_size)
      (P.abi_reg_args_size + g.arg_shuffle._out_arg_stack_slots * 4)) 16 (by norm_num)
  rw [← hd] at a1 a3
  have hmax : MAX2 (RegSpiller.spill_size_bytes g._output_registers + P.abi_reg_args_size)
      (P.abi_reg_args_size + g.arg_shuffle._out_arg_stack_slots * 4) =
      P.abi_reg_args_size + max (g.arg_shuffle._out_arg_stack_slots * 4)
        (RegSpiller.spill_size_bytes g._output_registers) := by
    unfold MAX2
    split_ifs with h
    · rw [max_eq_right (by omega)]; ring
    · rw [max_eq_left (by omega)]
  rw [hmax] at a1
  have hspill : P.abi_reg_args_size + RegSpiller.spill_size_bytes g._output_registers
      ≤ (g.generate P).allocated_frame_size :=
    le_trans (by have := le_max_right (g.arg_shuffle._out_arg_stack_slots * 4)
                    (RegSpiller.spill_size_bytes g._output_registers); omega) a1
  obtain ⟨k, hk⟩ := a3
  refine ⟨⟨k, hk⟩, a1, habi, hspill, ?_, ?_, ?_⟩
  · intro i hi
    obtain ⟨o, ho, hlo, hhi⟩ := generate_slot_bounds _ _ _ i hi
    rw [← spill_size_bytes_eq] at hhi
    exact ⟨o, ho, hlo, by omega⟩
  · rw [hf, hk]; omega
  · unfold Generated.framesize
    rw [hf, hk]
    simp only [LogBytesPerWord, LogBytesPerInt]
    norm_num
    omega

/-- C16 at the sample downcall on the sample platform. -/
theorem C16_downcall_frame_capacity_witness :
    (16 : Int) ∣ ((sampleDowncall .T_INT).generate samplePlatform).allocated_frame_size ∧
    samplePlatform.abi_reg_args_size
        + max ((sampleDowncall .T_INT).arg_shuffle._out_arg_stack_slots * 4)
            (RegSpiller.spill_size_bytes (sampleDowncall .T_INT)._output_registers)
      ≤ ((sampleDowncall .T_INT).generate samplePlatform).allocated_frame_size ∧
    ((sampleDowncall .T_INT).generate samplePlatform)._framesize * 4 =
      ((sampleDowncall .T_INT).generate samplePlatform).allocated_frame_size ∧
    ((sampleDowncall .T_INT).generate samplePlatform).framesize * 8 =
      ((sampleDowncall .T_INT).generate samplePlatform).allocated_frame_size := by
  obtain ⟨h1, h2, _, _, _, h6, h7⟩ := C16_downcall_frame_capacity samplePlatform
    (sampleDowncall .T_INT) rfl rfl (by decide)
  exact ⟨h1, h2, h6, h7⟩

end Ppc
